import Mathlib

/-!
# Circleblast: grid physics and cluster resolution

A shallow embedding of `src/frontend/index.js` (class `Game`).

* Numbers are exact: positions and velocities are rationals, grid indices are
  integers.  `Math.round t` is `⌊t + 1/2⌋`.
* The collision test `Math.sqrt (d2) < 40` is written `d2 < 40 * 40` in
  `checkCollisionsLoop`, which is what it means when the square root does not round
  across 40.  `checkCollisionsLoopSqrt` keeps the square root as a parameter, and
  `sqrtDouble` is the binary64 root, which does round across 40 just below 1600.
* `Math.random ()` is an explicit input: a rational in `[0, 1)`.
* `Math.cos` / `Math.sin` of the shooter angle are carried by the angle itself.
* JavaScript arrays are lists.  Reading `a[i][j]` where `a[i]` is `undefined`
  throws a `TypeError`; such faults (and running out of recursion fuel) are `none`.
* A JavaScript `Set` of `"row,col"` keys is a duplicate-free list of integer pairs
  in insertion order.
* Canvas drawing, DOM updates and the high-score backend are not modelled.
* To state that no slot outside the grid is ever read, the methods are also given with
  the grid read as a parameter and compared under a read that faults out of bounds.
-/

namespace Circleblast

/-! ## Constants -/

def CANVAS_WIDTH : ℚ := 600
def CANVAS_HEIGHT : ℚ := 800
def BALL_RADIUS : ℚ := 20
def COLORS : List String := ["#FF0000", "#00FF00", "#0000FF", "#FFFF00", "#FF00FF"]
def SHOOTER_HEIGHT : ℚ := 60
def GRID_ROWS : Nat := 8
def GRID_COLS : Nat := 10

/-! ## Data model -/

abbrev Color := String

/-- A settled ball: `{ color, x, y }`. -/
structure Ball where
  color : Color
  x : ℚ
  y : ℚ
  deriving DecidableEq

/-- A grid slot: a ball or `null`. -/
abbrev Cell := Option Ball

abbrev Row := List Cell

/-- The field `this.grid`: an array of rows. -/
abbrev Grid := List Row

/-- The projectile `this.activeBall`: `{ x, y, color, dx, dy }`. -/
structure ActiveBall where
  x : ℚ
  y : ℚ
  color : Color
  dx : ℚ
  dy : ℚ
  deriving DecidableEq

/-- A shooter angle, carrying the values `Math.cos` and `Math.sin` return for it. -/
structure Angle where
  cos : ℚ
  sin : ℚ
  deriving DecidableEq

/-- The field `this.shooter`: `{ x, y, angle, currentBall }`. -/
structure Shooter where
  x : ℚ
  y : ℚ
  angle : Angle
  currentBall : Color
  deriving DecidableEq

/-- The mutable fields of `Game`. -/
structure Game where
  score : Int
  grid : Grid
  shooter : Shooter
  activeBall : Option ActiveBall
  deriving DecidableEq

/-- One result of `Math.random ()`: a number in `[0, 1)`. -/
structure Rand where
  val : ℚ
  nonneg : 0 ≤ val
  lt_one : val < 1

/-! ## JavaScript array access -/

/-- Array write `a[i] = v`: overwrites slot `i`, or extends the array (slots skipped
over are filled with `hole`). -/
def arrSet {α : Type} (a : List α) (i : Nat) (v : α) (hole : α) : List α :=
  if i < a.length then a.set i v else a ++ List.replicate (i - a.length) hole ++ [v]

/-- Read `grid[row][col]`: `none` is the `TypeError` raised when `grid[row]` is
`undefined`; a missing slot of an existing row reads as `undefined`, which like
`null` is falsy and is returned as `some none`. -/
def readCell (g : Grid) (row col : Int) : Option Cell :=
  if row < 0 then none
  else match g[row.toNat]? with
    | none => none
    | some r => if col < 0 then some none else some (r.getD col.toNat none)

/-- Write `grid[row][col] = v` for a non-negative `col`: `none` is the `TypeError`
raised when `grid[row]` is `undefined`. -/
def writeCell (g : Grid) (row col : Int) (v : Cell) : Option Grid :=
  if row < 0 then none
  else match g[row.toNat]? with
    | none => none
    | some r => some (g.set row.toNat (arrSet r col.toNat v none))

/-- The function `Math.round`: nearest integer, halves rounded up. -/
def jsRound (t : ℚ) : Int := ⌊t + 1 / 2⌋

/-! ## Operations of `Game` -/

/-- Method `getRandomColor`: `COLORS[Math.floor (Math.random () * COLORS.length)]`. -/
def getRandomColor (r : Rand) : Color :=
  COLORS.getD (⌊r.val * (COLORS.length : ℚ)⌋).toNat "undefined"

/-- The object literal `{ color, x: col * (BALL_RADIUS * 2) + BALL_RADIUS,
y: row * (BALL_RADIUS * 2) + BALL_RADIUS }`. -/
def mkBall (color : Color) (row col : Int) : Ball :=
  { color := color
    x := (col : ℚ) * (BALL_RADIUS * 2) + BALL_RADIUS
    y := (row : ℚ) * (BALL_RADIUS * 2) + BALL_RADIUS }

/-- The inner loop of `initGrid` for one row, started from `this.grid[row] = []`.
The `k`-th call of `getRandomColor` made by `initGrid` is for cell
`(k / 10, k % 10)` and receives `rnd k`. -/
def initRow (rnd : Nat → Rand) (row : Nat) : Row :=
  (List.range GRID_COLS).foldl
    (fun r col =>
      if row < 4 then
        arrSet r col (some (mkBall (getRandomColor (rnd (row * GRID_COLS + col))) row col)) none
      else
        arrSet r col none none)
    []

/-- Method `initGrid`: rows are assigned in increasing order, so no row is ever skipped
over and the `hole` of `arrSet` is never used. -/
def initGrid (s : Game) (rnd : Nat → Rand) : Game :=
  { s with grid := (List.range GRID_ROWS).foldl (fun g row => arrSet g row (initRow rnd row) []) s.grid }

/-- Method `shootBall`: unconditionally replaces `activeBall`. -/
def shootBall (s : Game) (r : Rand) : Game :=
  let speed : ℚ := 10
  { s with
    activeBall := some
      { x := s.shooter.x
        y := s.shooter.y
        color := s.shooter.currentBall
        dx := s.shooter.angle.cos * speed
        dy := s.shooter.angle.sin * speed }
    shooter := { s.shooter with currentBall := getRandomColor r } }

/-- The canvas click handler: `if (!this.activeBall) this.shootBall ()`. -/
def onClick (s : Game) (r : Rand) : Game :=
  if s.activeBall.isNone then shootBall s r else s

/-- The canvas mousemove handler: stores the new aim angle. -/
def onMouseMove (s : Game) (a : Angle) : Game :=
  { s with shooter := { s.shooter with angle := a } }

/-- Method `findMatches` with a bound on the recursion depth; `matches` is threaded through
the four recursive calls exactly as the shared `Set` is. -/
def findMatchesFuel (g : Grid) : Nat → Int → Int → Color → List (Int × Int) → Option (List (Int × Int))
  | 0, _, _, _, _ => none
  | fuel + 1, row, col, color, acc =>
    if (row, col) ∈ acc then some acc
    else if row < 0 ∨ row ≥ GRID_ROWS ∨ col < 0 ∨ col ≥ GRID_COLS then some acc
    else
      match readCell g row col with
      | none => none
      | some none => some acc
      | some (some ball) =>
        if ball.color ≠ color then some acc
        else
          (findMatchesFuel g fuel (row - 1) col color (acc ++ [(row, col)])).bind fun m1 =>
          (findMatchesFuel g fuel (row + 1) col color m1).bind fun m2 =>
          (findMatchesFuel g fuel row (col - 1) color m2).bind fun m3 =>
          findMatchesFuel g fuel row (col + 1) color m3

/-- Method `findMatches`: the recursion can nest at most once per grid cell, plus the
innermost call that returns at once. -/
def findMatches (g : Grid) (row col : Int) (color : Color) (acc : List (Int × Int)) :
    Option (List (Int × Int)) :=
  findMatchesFuel g (GRID_ROWS * GRID_COLS + 1) row col color acc

/-- The body of `matches.forEach` in `checkMatches`: clear the cell, add 10. -/
def clearCell (s : Game) (pos : Int × Int) : Option Game :=
  (writeCell s.grid pos.1 pos.2 none).map fun g => { s with grid := g, score := s.score + 10 }

/-- The loop `matches.forEach (...)`, in insertion order. -/
def clearCells : Game → List (Int × Int) → Option Game
  | s, [] => some s
  | s, pos :: rest => (clearCell s pos).bind fun s1 => clearCells s1 rest

/-- Method `checkMatches`: `none` when `this.grid[row][col]` is `null` or cannot be read. -/
def checkMatches (s : Game) (row col : Int) : Option Game :=
  match readCell s.grid row col with
  | none => none
  | some none => none
  | some (some ball) =>
    (findMatches s.grid row col ball.color []).bind fun m =>
      if m.length ≥ 3 then clearCells s m else some s

/-- The row-major scan positions of `checkCollisions`. -/
def scanOrder : List (Nat × Nat) :=
  (List.range GRID_ROWS).flatMap fun row => (List.range GRID_COLS).map fun col => (row, col)

/-- The nested loops of `checkCollisions` over the remaining scan positions.  The
grid is only written on the branch that returns.  The test `distance < BALL_RADIUS * 2`
on `distance = Math.sqrt (dx * dx + dy * dy)` is written without the root, as for a
square root that does not round across the threshold; `checkCollisionsLoopSqrt` keeps
the root. -/
def checkCollisionsLoop (s : Game) (a : ActiveBall) : List (Nat × Nat) → Option Game
  | [] => some s
  | (row, col) :: rest =>
    match readCell s.grid row col with
    | none => none
    | some none => checkCollisionsLoop s a rest
    | some (some ball) =>
      let dx := a.x - ball.x
      let dy := a.y - ball.y
      if dx * dx + dy * dy < (BALL_RADIUS * 2) * (BALL_RADIUS * 2) then
        let newRow := jsRound ((a.y - BALL_RADIUS) / (BALL_RADIUS * 2))
        let newCol := jsRound ((a.x - BALL_RADIUS) / (BALL_RADIUS * 2))
        if newRow ≥ 0 ∧ newRow < GRID_ROWS ∧ newCol ≥ 0 ∧ newCol < GRID_COLS then
          match readCell s.grid newRow newCol with
          | none => none
          | some (some _) => checkCollisionsLoop s a rest
          | some none =>
            (writeCell s.grid newRow newCol (some (mkBall a.color newRow newCol))).bind fun g =>
            (checkMatches { s with grid := g } newRow newCol).map fun s1 =>
              { s1 with activeBall := none }
        else checkCollisionsLoop s a rest
      else checkCollisionsLoop s a rest

/-- Method `checkCollisions`: nothing to do without a projectile, otherwise the scan. -/
def checkCollisions (s : Game) : Option Game :=
  match s.activeBall with
  | none => some s
  | some a => checkCollisionsLoop s a scanOrder

/-- Method `updateBall`: move, reflect at the side walls and the top wall, then resolve
collisions. -/
def updateBall (s : Game) : Option Game :=
  match s.activeBall with
  | none => some s
  | some a =>
    let a1 := { a with x := a.x + a.dx }
    let a2 := { a1 with y := a1.y + a1.dy }
    let a3 := if a2.x ≤ BALL_RADIUS ∨ a2.x ≥ CANVAS_WIDTH - BALL_RADIUS then { a2 with dx := a2.dx * -1 } else a2
    let a4 := if a3.y ≤ BALL_RADIUS then { a3 with dy := a3.dy * -1 } else a3
    checkCollisions { s with activeBall := some a4 }

/-- Method `resetGame`: the 40 colours of `initGrid` are drawn first, then the shooter's. -/
def resetGame (s : Game) (rnd : Nat → Rand) : Game :=
  let s1 := { s with score := 0 }
  let s2 := initGrid s1 rnd
  let s3 := { s2 with activeBall := none }
  { s3 with shooter := { s3.shooter with currentBall := getRandomColor (rnd 40) } }

/-- The state built by the constructor of `Game`: the shooter's colour is drawn
first, then `initGrid` runs on the empty array. -/
def newGame (r0 : Rand) (rnd : Nat → Rand) : Game :=
  initGrid
    { score := 0
      grid := []
      shooter :=
        { x := CANVAS_WIDTH / 2
          y := CANVAS_HEIGHT - SHOOTER_HEIGHT
          angle := { cos := 0, sin := -1 }
          currentBall := getRandomColor r0 }
      activeBall := none }
    rnd

/-! ## Specification vocabulary -/

/-- The grid has exactly `GRID_ROWS` rows of `GRID_COLS` slots each. -/
def GridWF (g : Grid) : Prop :=
  g.length = GRID_ROWS ∧ ∀ r ∈ g, r.length = GRID_COLS

instance (g : Grid) : Decidable (GridWF g) := by
  unfold GridWF; infer_instance

/-- Coordinate `(row, col)` lies in `[0, GRID_ROWS) × [0, GRID_COLS)`. -/
def InBounds (p : Int × Int) : Prop :=
  0 ≤ p.1 ∧ p.1 < GRID_ROWS ∧ 0 ≤ p.2 ∧ p.2 < GRID_COLS

instance (p : Int × Int) : Decidable (InBounds p) := by
  unfold InBounds; infer_instance

/-- The slot at `p` is read without fault and holds a ball of colour `K`. -/
def HasColor (g : Grid) (K : Color) (p : Int × Int) : Prop :=
  ∃ b, readCell g p.1 p.2 = some (some b) ∧ b.color = K

/-- An in-bounds cell of colour `K`. -/
def Good (g : Grid) (K : Color) (p : Int × Int) : Prop :=
  InBounds p ∧ HasColor g K p

/-- Cell `q` is the up, down, left or right neighbour of `p`. -/
def Adj (p q : Int × Int) : Prop :=
  q = (p.1 - 1, p.2) ∨ q = (p.1 + 1, p.2) ∨ q = (p.1, p.2 - 1) ∨ q = (p.1, p.2 + 1)

/-- Cell `q` is joined to `p` by an up/down/left/right path of in-bounds cells
of colour `K` (both ends included). -/
inductive Joined (g : Grid) (K : Color) : Int × Int → Int × Int → Prop
  | refl (p : Int × Int) : Good g K p → Joined g K p p
  | step (p q r : Int × Int) : Joined g K p q → Adj q r → Good g K r → Joined g K p r

/-- The cluster of `start`: the maximal 4-directionally connected set of colour-`K`
cells containing it. -/
def component (g : Grid) (K : Color) (start : Int × Int) : Set (Int × Int) :=
  { p | Joined g K start p }

/-- What one call of the flood fill guarantees about the set it returns. -/
structure FillPost (g : Grid) (K : Color) (v : Int × Int) (acc res : List (Int × Int)) : Prop where
  mono : ∀ p ∈ acc, p ∈ res
  joined : ∀ p ∈ res, p ∉ acc → Joined g K v p
  self : Good g K v → v ∈ res
  closed : ∀ p ∈ res, p ∉ acc → ∀ q, Adj p q → Good g K q → q ∈ res
  nodup : acc.Nodup → res.Nodup

/-- The in-bounds coordinates not yet in `acc`. -/
def freeCells (acc : List (Int × Int)) : Finset (Int × Int) :=
  (Finset.Icc (0 : Int) 7 ×ˢ Finset.Icc (0 : Int) 9).filter fun p => p ∉ acc

/-- Canonical-position invariant: every ball stored at `(row, col)` has
`x = col * 40 + 20` and `y = row * 40 + 20`. -/
def Canonical (g : Grid) : Prop :=
  ∀ (row col : Int) (b : Ball), readCell g row col = some (some b) →
    b.x = (col : ℚ) * 40 + 20 ∧ b.y = (row : ℚ) * 40 + 20

/-- The destination cell `(newRow, newCol)` that `checkCollisions` computes from the
projectile's position. -/
def destination (a : ActiveBall) : Int × Int :=
  (jsRound ((a.y - BALL_RADIUS) / (BALL_RADIUS * 2)), jsRound ((a.x - BALL_RADIUS) / (BALL_RADIUS * 2)))

/-- The collision test of `checkCollisions`: the ball's stored centre is at distance
less than `2 * BALL_RADIUS` from the projectile's centre. -/
def Near (a : ActiveBall) (ball : Ball) : Prop :=
  (a.x - ball.x) * (a.x - ball.x) + (a.y - ball.y) * (a.y - ball.y) < (BALL_RADIUS * 2) * (BALL_RADIUS * 2)

instance (a : ActiveBall) (ball : Ball) : Decidable (Near a ball) := by
  unfold Near; infer_instance

/-- The scan position `p` holds a ball that passes the collision test. -/
def Hits (g : Grid) (a : ActiveBall) (p : Nat × Nat) : Prop :=
  ∃ ball, readCell g p.1 p.2 = some (some ball) ∧ Near a ball

/-- The destination of the projectile is in bounds and empty. -/
def DestFree (g : Grid) (a : ActiveBall) : Prop :=
  InBounds (destination a) ∧ readCell g (destination a).1 (destination a).2 = some none

instance (g : Grid) (a : ActiveBall) : Decidable (DestFree g a) := by
  unfold DestFree; infer_instance

/-- The committing branch of `checkCollisions`: store a ball of the projectile's colour
at the destination, run `checkMatches` there, then drop the projectile. -/
def placeAndMatch (s : Game) (a : ActiveBall) : Option Game :=
  (writeCell s.grid (destination a).1 (destination a).2
      (some (mkBall a.color (destination a).1 (destination a).2))).bind fun g =>
    (checkMatches { s with grid := g } (destination a).1 (destination a).2).map fun s1 =>
      { s1 with activeBall := none }

/-- States reachable from the constructor's state by aiming, shooting (through the
click handler or by a direct `shootBall`), ticks of `updateBall` and `resetGame`. -/
inductive Reachable : Game → Prop
  | init (r0 : Rand) (rnd : Nat → Rand) : Reachable (newGame r0 rnd)
  | aim (s : Game) (a : Angle) : Reachable s → Reachable (onMouseMove s a)
  | click (s : Game) (r : Rand) : Reachable s → Reachable (onClick s r)
  | shoot (s : Game) (r : Rand) : Reachable s → Reachable (shootBall s r)
  | tick (s s' : Game) : Reachable s → updateBall s = some s' → Reachable s'
  | reset (s : Game) (rnd : Nat → Rand) : Reachable s → Reachable (resetGame s rnd)

/-- The projectile after the move and wall reflections of one `updateBall`, as handed
to `checkCollisions`. -/
def moved (a : ActiveBall) : ActiveBall :=
  { x := a.x + a.dx
    y := a.y + a.dy
    color := a.color
    dx := if a.x + a.dx ≤ 20 ∨ a.x + a.dx ≥ 580 then -a.dx else a.dx
    dy := if a.y + a.dy ≤ 20 then -a.dy else a.dy }

/-- The game loop's physics for `n` frames: `updateBall` called `n` times. -/
def ticks : Nat → Game → Option Game
  | 0, s => some s
  | n + 1, s => (updateBall s).bind (ticks n)

/-- Height of the Scenario B projectile after `n` frames: up from 740 in steps of 10
until it reaches 20 at frame 72, then down in steps of 10. -/
def scenarioBY (n : Nat) : ℚ :=
  if n ≤ 72 then 740 - 10 * (n : ℚ) else 20 + 10 * ((n : ℚ) - 72)

/-- The Scenario B projectile after `n` frames: on the line `x = 300`, moving up
before frame 72 and down from frame 72 on. -/
def scenarioBBall (color : Color) (n : Nat) : ActiveBall :=
  ⟨300, scenarioBY n, color, 0, if n < 72 then -10 else 10⟩

/-- Containment invariant of a projectile: speeds at most 10 per axis; horizontally it
is strictly between the side-wall lines `x = 20` and `x = 580`, or at or beyond one and
heading back so that the next move brings it strictly inside; vertically it is below
the top-wall line `y = 20`, or at or above it and heading back down likewise. -/
def Contained (a : ActiveBall) : Prop :=
  |a.dx| ≤ 10 ∧ |a.dy| ≤ 10 ∧
  ((20 < a.x ∧ a.x < 580) ∨ (a.x ≤ 20 ∧ 0 ≤ a.dx ∧ 20 < a.x + a.dx) ∨
    (580 ≤ a.x ∧ a.dx ≤ 0 ∧ a.x + a.dx < 580)) ∧
  (20 < a.y ∨ (a.y ≤ 20 ∧ 0 ≤ a.dy ∧ 20 < a.y + a.dy))

/-- The slot at `p` holds a ball. -/
def occupied (g : Grid) (p : Int × Int) : Bool :=
  match readCell g p.1 p.2 with
  | some (some _) => true
  | _ => false

/-- The cells cleared by a step from grid `g` to grid `g'` that stored a ball at
`placed` (if any): the in-bounds cells that are empty afterwards and either held a
ball before the step or received the step's ball. -/
def clearedCells (g g' : Grid) (placed : Option (Int × Int)) : Finset (Int × Int) :=
  (Finset.Icc (0 : Int) 7 ×ˢ Finset.Icc (0 : Int) 9).filter fun p =>
    readCell g' p.1 p.2 = some none ∧ (occupied g p = true ∨ placed = some p)

/-- The cell that received the projectile in a resolver step: the destination of the
projectile that was live before the step, if none is live after it. -/
def placedCell (before after : Option ActiveBall) : Option (Int × Int) :=
  match before, after with
  | some a, none => some (destination a)
  | _, _ => none

/-! ## Read-checked execution

The same methods with the grid read `this.grid[row][col]` taken as a parameter `rd`.
With `rd := readCell` they are the methods above; with `rd := readCellStrict` every
read outside rows `[0, 8)` × columns `[0, 10)` is a fault. -/

/-- A grid read that faults on every index outside `[0, 8) × [0, 10)`. -/
def readCellStrict (g : Grid) (row col : Int) : Option Cell :=
  if InBounds (row, col) then readCell g row col else none

/-- Method `findMatches` (fuel-bounded) over the read `rd`. -/
def findMatchesFuelWith (rd : Grid → Int → Int → Option Cell) (g : Grid) :
    Nat → Int → Int → Color → List (Int × Int) → Option (List (Int × Int))
  | 0, _, _, _, _ => none
  | fuel + 1, row, col, color, acc =>
    if (row, col) ∈ acc then some acc
    else if row < 0 ∨ row ≥ GRID_ROWS ∨ col < 0 ∨ col ≥ GRID_COLS then some acc
    else
      match rd g row col with
      | none => none
      | some none => some acc
      | some (some ball) =>
        if ball.color ≠ color then some acc
        else
          (findMatchesFuelWith rd g fuel (row - 1) col color (acc ++ [(row, col)])).bind fun m1 =>
          (findMatchesFuelWith rd g fuel (row + 1) col color m1).bind fun m2 =>
          (findMatchesFuelWith rd g fuel row (col - 1) color m2).bind fun m3 =>
          findMatchesFuelWith rd g fuel row (col + 1) color m3

/-- Method `findMatches` over the read `rd`. -/
def findMatchesWith (rd : Grid → Int → Int → Option Cell) (g : Grid) (row col : Int)
    (color : Color) (acc : List (Int × Int)) : Option (List (Int × Int)) :=
  findMatchesFuelWith rd g (GRID_ROWS * GRID_COLS + 1) row col color acc

/-- Method `checkMatches` over the read `rd`. -/
def checkMatchesWith (rd : Grid → Int → Int → Option Cell) (s : Game) (row col : Int) :
    Option Game :=
  match rd s.grid row col with
  | none => none
  | some none => none
  | some (some ball) =>
    (findMatchesWith rd s.grid row col ball.color []).bind fun m =>
      if m.length ≥ 3 then clearCells s m else some s

/-- The scan of `checkCollisions` over the read `rd`. -/
def checkCollisionsLoopWith (rd : Grid → Int → Int → Option Cell) (s : Game) (a : ActiveBall) :
    List (Nat × Nat) → Option Game
  | [] => some s
  | (row, col) :: rest =>
    match rd s.grid row col with
    | none => none
    | some none => checkCollisionsLoopWith rd s a rest
    | some (some ball) =>
      let dx := a.x - ball.x
      let dy := a.y - ball.y
      if dx * dx + dy * dy < (BALL_RADIUS * 2) * (BALL_RADIUS * 2) then
        let newRow := jsRound ((a.y - BALL_RADIUS) / (BALL_RADIUS * 2))
        let newCol := jsRound ((a.x - BALL_RADIUS) / (BALL_RADIUS * 2))
        if newRow ≥ 0 ∧ newRow < GRID_ROWS ∧ newCol ≥ 0 ∧ newCol < GRID_COLS then
          match rd s.grid newRow newCol with
          | none => none
          | some (some _) => checkCollisionsLoopWith rd s a rest
          | some none =>
            (writeCell s.grid newRow newCol (some (mkBall a.color newRow newCol))).bind fun g =>
            (checkMatchesWith rd { s with grid := g } newRow newCol).map fun s1 =>
              { s1 with activeBall := none }
        else checkCollisionsLoopWith rd s a rest
      else checkCollisionsLoopWith rd s a rest

/-- Method `checkCollisions` over the read `rd`. -/
def checkCollisionsWith (rd : Grid → Int → Int → Option Cell) (s : Game) : Option Game :=
  match s.activeBall with
  | none => some s
  | some a => checkCollisionsLoopWith rd s a scanOrder

/-- Method `updateBall` over the read `rd`. -/
def updateBallWith (rd : Grid → Int → Int → Option Cell) (s : Game) : Option Game :=
  match s.activeBall with
  | none => some s
  | some a =>
    let a1 := { a with x := a.x + a.dx }
    let a2 := { a1 with y := a1.y + a1.dy }
    let a3 := if a2.x ≤ BALL_RADIUS ∨ a2.x ≥ CANVAS_WIDTH - BALL_RADIUS then { a2 with dx := a2.dx * -1 } else a2
    let a4 := if a3.y ≤ BALL_RADIUS then { a3 with dy := a3.dy * -1 } else a3
    checkCollisionsWith rd { s with activeBall := some a4 }

/-! ## The collision test with `Math.sqrt` kept

The scan of `checkCollisions` with the square root taken as a parameter `sqrt`, so
that the test reads as in the source: `Math.sqrt (dx * dx + dy * dy) < BALL_RADIUS * 2`.
`checkCollisionsLoop` above is the case of a square root that never rounds across the
threshold; `sqrtDouble` is the correctly rounded binary64 square root. -/

/-- The square root rounded to the nearest binary64 number (53-bit significand, ties to
even), for arguments in the normal range: with `4 ^ e ≤ x < 4 ^ (e + 1)` the result is
the integer nearest to `√x * 2 ^ (52 - e)`, scaled back by `2 ^ (e - 52)`. -/
def sqrtDouble (x : ℚ) : ℚ :=
  if x ≤ 0 then 0
  else
    let e : Int := Int.log 4 x
    let y : ℚ := x * (4 : ℚ) ^ (52 - e)
    let n : Nat := Nat.sqrt ⌊y⌋₊
    let m : Nat :=
      if y < ((n : ℚ) + 1 / 2) ^ 2 then n
      else if ((n : ℚ) + 1 / 2) ^ 2 < y then n + 1
      else if n % 2 = 0 then n else n + 1
    (m : ℚ) * (2 : ℚ) ^ (e - 52)

/-- The collision test as written in the source, over the square root `sqrt`. -/
def NearSqrt (sqrt : ℚ → ℚ) (a : ActiveBall) (ball : Ball) : Prop :=
  sqrt ((a.x - ball.x) * (a.x - ball.x) + (a.y - ball.y) * (a.y - ball.y)) < BALL_RADIUS * 2

instance (sqrt : ℚ → ℚ) (a : ActiveBall) (ball : Ball) : Decidable (NearSqrt sqrt a ball) := by
  unfold NearSqrt; infer_instance

/-- The scan position `p` holds a ball that passes the test over `sqrt`. -/
def HitsSqrt (sqrt : ℚ → ℚ) (g : Grid) (a : ActiveBall) (p : Nat × Nat) : Prop :=
  ∃ ball, readCell g p.1 p.2 = some (some ball) ∧ NearSqrt sqrt a ball

/-- The nested loops of `checkCollisions` with
`const distance = Math.sqrt (dx * dx + dy * dy); if (distance < BALL_RADIUS * 2)`. -/
def checkCollisionsLoopSqrt (sqrt : ℚ → ℚ) (s : Game) (a : ActiveBall) :
    List (Nat × Nat) → Option Game
  | [] => some s
  | (row, col) :: rest =>
    match readCell s.grid row col with
    | none => none
    | some none => checkCollisionsLoopSqrt sqrt s a rest
    | some (some ball) =>
      let dx := a.x - ball.x
      let dy := a.y - ball.y
      let distance := sqrt (dx * dx + dy * dy)
      if distance < BALL_RADIUS * 2 then
        let newRow := jsRound ((a.y - BALL_RADIUS) / (BALL_RADIUS * 2))
        let newCol := jsRound ((a.x - BALL_RADIUS) / (BALL_RADIUS * 2))
        if newRow ≥ 0 ∧ newRow < GRID_ROWS ∧ newCol ≥ 0 ∧ newCol < GRID_COLS then
          match readCell s.grid newRow newCol with
          | none => none
          | some (some _) => checkCollisionsLoopSqrt sqrt s a rest
          | some none =>
            (writeCell s.grid newRow newCol (some (mkBall a.color newRow newCol))).bind fun g =>
            (checkMatches { s with grid := g } newRow newCol).map fun s1 =>
              { s1 with activeBall := none }
        else checkCollisionsLoopSqrt sqrt s a rest
      else checkCollisionsLoopSqrt sqrt s a rest

/-- Method `checkCollisions` over the square root `sqrt`. -/
def checkCollisionsSqrt (sqrt : ℚ → ℚ) (s : Game) : Option Game :=
  match s.activeBall with
  | none => some s
  | some a => checkCollisionsLoopSqrt sqrt s a scanOrder

/-! ## Concrete inputs -/

/-- The 8 × 10 grid with every slot `null`. -/
def emptyGrid : Grid := List.replicate GRID_ROWS (List.replicate GRID_COLS none)

/-- A red ball stored with the canonical position of `(row, col)`. -/
def redBall (row col : Int) : Cell := some (mkBall "#FF0000" row col)

/-- An empty row of 10 slots. -/
def emptyRow : Row := List.replicate GRID_COLS none

/-- Red balls at `(4,0)`, `(4,1)`, `(4,2)`, `(4,3)` and nothing else. -/
def rowOfFour : Grid :=
  [emptyRow, emptyRow, emptyRow, emptyRow,
   [redBall 4 0, redBall 4 1, redBall 4 2, redBall 4 3, none, none, none, none, none, none],
   emptyRow, emptyRow, emptyRow]

/-- The shooter as the constructor builds it, loaded with a red ball. -/
def shooter0 : Shooter :=
  { x := CANVAS_WIDTH / 2
    y := CANVAS_HEIGHT - SHOOTER_HEIGHT
    angle := { cos := 0, sin := -1 }
    currentBall := "#FF0000" }

/-- Scenario A before the shot: red balls at `(4,0)`, `(4,1)`, `(4,2)` and nothing else. -/
def scenarioAGrid : Grid :=
  [emptyRow, emptyRow, emptyRow, emptyRow,
   [redBall 4 0, redBall 4 1, redBall 4 2, none, none, none, none, none, none, none],
   emptyRow, emptyRow, emptyRow]

/-- Scenario A's row 4 below a further red ball at `(3,0)`. -/
def scenarioAExtraGrid : Grid :=
  [emptyRow, emptyRow, emptyRow,
   [redBall 3 0, none, none, none, none, none, none, none, none, none],
   [redBall 4 0, redBall 4 1, redBall 4 2, none, none, none, none, none, none, none],
   emptyRow, emptyRow, emptyRow]

/-- A single red ball at `(4,2)`. -/
def singleBallGrid : Grid :=
  [emptyRow, emptyRow, emptyRow, emptyRow,
   [none, none, redBall 4 2, none, none, none, none, none, none, none],
   emptyRow, emptyRow, emptyRow]

/-- The grid `singleBallGrid` with a green ball added at `(5,3)`, diagonally below the
red one. -/
def diagonalGrid : Grid :=
  [emptyRow, emptyRow, emptyRow, emptyRow,
   [none, none, redBall 4 2, none, none, none, none, none, none, none],
   [none, none, none, some (mkBall "#00FF00" 5 3), none, none, none, none, none, none],
   emptyRow, emptyRow]

/-- A single red ball at `(0,2)`, centre `(100, 20)`. -/
def topBallGrid : Grid :=
  [[none, none, redBall 0 2, none, none, none, none, none, none, none],
   emptyRow, emptyRow, emptyRow, emptyRow, emptyRow, emptyRow, emptyRow]

/-- A projectile at `(139, 11.11180558268442)`: its exact distance to `(100, 20)` is
just under 40, and the binary64 square root of the squared distance is `40`. -/
def boundaryBall : ActiveBall :=
  ⟨139, 1111180558268442 / 100000000000000, "#00FF00", 0, -10⟩

/-- A `Math.random ()` result: `0`. -/
def rand0 : Rand := ⟨0, le_refl 0, by norm_num⟩

/-- The random source that always returns `0`. -/
def rnd0 : Nat → Rand := fun _ => rand0

/-! ## Array access lemmas -/

theorem inBounds_iff (p : Int × Int) :
    InBounds p ↔ 0 ≤ p.1 ∧ p.1 < 8 ∧ 0 ≤ p.2 ∧ p.2 < 10 := by
  simp [InBounds, GRID_ROWS, GRID_COLS]

theorem readCell_wf {g : Grid} (hg : GridWF g) {row col : Int} (hb : InBounds (row, col)) :
    ∃ r, g[row.toNat]? = some r ∧ r.length = 10 ∧ col.toNat < r.length ∧
      readCell g row col = some (r.getD col.toNat none) := by
  rw [inBounds_iff] at hb
  obtain ⟨h1, h2, h3, h4⟩ := hb
  simp only at h1 h2 h3 h4
  have hlen : row.toNat < g.length := by rw [hg.1]; simp [GRID_ROWS]; omega
  refine ⟨g[row.toNat], List.getElem?_eq_getElem hlen, ?_, ?_, ?_⟩
  · have := hg.2 _ (List.getElem_mem hlen); simpa [GRID_COLS] using this
  · have := hg.2 _ (List.getElem_mem hlen); rw [this]; simp [GRID_COLS]; omega
  · simp [readCell, List.getElem?_eq_getElem hlen, not_lt.mpr h1, not_lt.mpr h3]

theorem readCell_isSome {g : Grid} (hg : GridWF g) {row col : Int} (hb : InBounds (row, col)) :
    ∃ c, readCell g row col = some c := by
  obtain ⟨r, _, _, _, h⟩ := readCell_wf hg hb
  exact ⟨_, h⟩

theorem Joined.good_left {g : Grid} {K : Color} {p q : Int × Int} (h : Joined g K p q) :
    Good g K p := by
  induction h with
  | refl hp => exact hp
  | step _ _ _ _ _ ih => exact ih

theorem Joined.good_right {g : Grid} {K : Color} {p q : Int × Int} (h : Joined g K p q) :
    Good g K q := by
  cases h with
  | refl hp => exact hp
  | step _ _ _ _ hr => exact hr

theorem Joined.trans {g : Grid} {K : Color} {p q r : Int × Int} (h1 : Joined g K p q)
    (h2 : Joined g K q r) : Joined g K p r := by
  induction h2 with
  | refl _ => exact h1
  | step b c _ hadj hc ih => exact Joined.step _ b c ih hadj hc

/-- A path from a neighbour extends to a path from the cell itself. -/
theorem Joined.cons {g : Grid} {K : Color} {p q r : Int × Int} (hp : Good g K p)
    (hadj : Adj p q) (h : Joined g K q r) : Joined g K p r :=
  Joined.trans (Joined.step p p q (Joined.refl p hp) hadj h.good_left) h

theorem findMatchesFuel_succ (g : Grid) (fuel : Nat) (row col : Int) (color : Color)
    (acc : List (Int × Int)) :
    findMatchesFuel g (fuel + 1) row col color acc =
      if (row, col) ∈ acc then some acc
      else if row < 0 ∨ row ≥ GRID_ROWS ∨ col < 0 ∨ col ≥ GRID_COLS then some acc
      else
        match readCell g row col with
        | none => none
        | some none => some acc
        | some (some ball) =>
          if ball.color ≠ color then some acc
          else
            (findMatchesFuel g fuel (row - 1) col color (acc ++ [(row, col)])).bind fun m1 =>
            (findMatchesFuel g fuel (row + 1) col color m1).bind fun m2 =>
            (findMatchesFuel g fuel row (col - 1) color m2).bind fun m3 =>
            findMatchesFuel g fuel row (col + 1) color m3 := by
  rfl

theorem FillPost.same {g : Grid} {K : Color} {v : Int × Int} {acc : List (Int × Int)}
    (h : Good g K v → v ∈ acc) : FillPost g K v acc acc :=
  ⟨fun _ hp => hp, fun _ hp hn => absurd hp hn, h, fun _ hp hn => absurd hp hn, fun h => h⟩

theorem findMatchesFuel_post (g : Grid) (K : Color) :
    ∀ (fuel : Nat) (row col : Int) (acc res : List (Int × Int)),
      findMatchesFuel g fuel row col K acc = some res → FillPost g K (row, col) acc res := by
  intro fuel
  induction fuel with
  | zero => intro row col acc res h; simp [findMatchesFuel] at h
  | succ fuel ih =>
    intro row col acc res h
    rw [findMatchesFuel_succ] at h
    by_cases hmem : (row, col) ∈ acc
    · rw [if_pos hmem] at h
      cases h
      exact FillPost.same fun _ => hmem
    rw [if_neg hmem] at h
    by_cases hout : row < 0 ∨ row ≥ GRID_ROWS ∨ col < 0 ∨ col ≥ GRID_COLS
    · rw [if_pos hout] at h
      cases h
      refine FillPost.same fun hgood => absurd hgood.1 ?_
      simp only [InBounds]
      omega
    rw [if_neg hout] at h
    have hin : InBounds (row, col) := by
      simp only [InBounds]; omega
    cases hrc : readCell g row col with
    | none => rw [hrc] at h; simp at h
    | some cell =>
      cases cell with
      | none =>
        rw [hrc] at h
        cases h
        refine FillPost.same fun hgood => ?_
        obtain ⟨b, hb, _⟩ := hgood.2
        simp only at hb
        rw [hrc] at hb
        cases hb
      | some ball =>
        rw [hrc] at h
        simp only at h
        by_cases hcol : ball.color ≠ K
        · rw [if_pos hcol] at h
          cases h
          refine FillPost.same fun hgood => ?_
          obtain ⟨b, hb, hbc⟩ := hgood.2
          simp only at hb
          rw [hrc] at hb
          cases hb
          exact absurd hbc hcol
        rw [if_neg hcol] at h
        have hK : ball.color = K := not_not.mp hcol
        have hv : Good g K (row, col) := ⟨hin, ball, hrc, hK⟩
        cases h1 : findMatchesFuel g fuel (row - 1) col K (acc ++ [(row, col)]) with
        | none => rw [h1] at h; simp at h
        | some m1 =>
        rw [h1] at h; simp only [Option.some_bind] at h
        cases h2 : findMatchesFuel g fuel (row + 1) col K m1 with
        | none => rw [h2] at h; simp at h
        | some m2 =>
        rw [h2] at h; simp only [Option.some_bind] at h
        cases h3 : findMatchesFuel g fuel row (col - 1) K m2 with
        | none => rw [h3] at h; simp at h
        | some m3 =>
        rw [h3] at h; simp only [Option.some_bind] at h
        have p1 := ih _ _ _ _ h1
        have p2 := ih _ _ _ _ h2
        have p3 := ih _ _ _ _ h3
        have p4 := ih _ _ _ _ h
        have s0 : ∀ p ∈ acc, p ∈ acc ++ [(row, col)] := fun p hp => List.mem_append_left _ hp
        have hv0 : (row, col) ∈ acc ++ [(row, col)] := by simp
        have new0 : ∀ p ∈ acc ++ [(row, col)], p ∉ acc → p = (row, col) := by
          intro p hp hn
          rcases List.mem_append.mp hp with h' | h'
          · exact absurd h' hn
          · simpa using h'
        have a1 : Adj (row, col) (row - 1, col) := Or.inl rfl
        have a2 : Adj (row, col) (row + 1, col) := Or.inr (Or.inl rfl)
        have a3 : Adj (row, col) (row, col - 1) := Or.inr (Or.inr (Or.inl rfl))
        have a4 : Adj (row, col) (row, col + 1) := Or.inr (Or.inr (Or.inr rfl))
        refine ⟨?_, ?_, ?_, ?_, ?_⟩
        · intro p hp
          exact p4.mono _ (p3.mono _ (p2.mono _ (p1.mono _ (s0 _ hp))))
        · intro p hp hn
          by_cases i3 : p ∈ m3
          · by_cases i2 : p ∈ m2
            · by_cases i1 : p ∈ m1
              · by_cases i0 : p ∈ acc ++ [(row, col)]
                · rw [new0 p i0 hn]; exact Joined.refl _ hv
                · exact Joined.cons hv a1 (p1.joined p i1 i0)
              · exact Joined.cons hv a2 (p2.joined p i2 i1)
            · exact Joined.cons hv a3 (p3.joined p i3 i2)
          · exact Joined.cons hv a4 (p4.joined p hp i3)
        · intro _
          exact p4.mono _ (p3.mono _ (p2.mono _ (p1.mono _ hv0)))
        · intro p hp hn q hadj hq
          by_cases i3 : p ∈ m3
          · by_cases i2 : p ∈ m2
            · by_cases i1 : p ∈ m1
              · by_cases i0 : p ∈ acc ++ [(row, col)]
                · have hpv := new0 p i0 hn
                  subst hpv
                  rcases hadj with e | e | e | e
                  · subst e; exact p4.mono _ (p3.mono _ (p2.mono _ (p1.self hq)))
                  · subst e; exact p4.mono _ (p3.mono _ (p2.self hq))
                  · subst e; exact p4.mono _ (p3.self hq)
                  · subst e; exact p4.self hq
                · exact p4.mono _ (p3.mono _ (p2.mono _ (p1.closed p i1 i0 q hadj hq)))
              · exact p4.mono _ (p3.mono _ (p2.closed p i2 i1 q hadj hq))
            · exact p4.mono _ (p3.closed p i3 i2 q hadj hq)
          · exact p4.closed p hp i3 q hadj hq
        · intro hnd
          apply p4.nodup; apply p3.nodup; apply p2.nodup; apply p1.nodup
          exact List.Nodup.append hnd (List.nodup_singleton _) (by simpa using hmem)

theorem freeCells_mono {a b : List (Int × Int)} (h : ∀ p ∈ a, p ∈ b) :
    (freeCells b).card ≤ (freeCells a).card := by
  apply Finset.card_le_card
  intro p hp
  simp only [freeCells, Finset.mem_filter] at hp ⊢
  exact ⟨hp.1, fun hpa => hp.2 (h p hpa)⟩

theorem freeCells_lt {acc : List (Int × Int)} {v : Int × Int} (hv : InBounds v)
    (hn : v ∉ acc) : (freeCells (acc ++ [v])).card < (freeCells acc).card := by
  apply Finset.card_lt_card
  rw [Finset.ssubset_iff_of_subset]
  · refine ⟨v, ?_, ?_⟩
    · rw [inBounds_iff] at hv
      simp only [freeCells, Finset.mem_filter, Finset.mem_product, Finset.mem_Icc]
      exact ⟨⟨⟨hv.1, by omega⟩, ⟨hv.2.2.1, by omega⟩⟩, hn⟩
    · simp [freeCells]
  · intro p hp
    simp only [freeCells, Finset.mem_filter] at hp ⊢
    exact ⟨hp.1, fun hpa => hp.2 (List.mem_append_left _ hpa)⟩

theorem freeCells_nil : (freeCells []).card = 80 := by
  simp [freeCells]

/-- With more fuel than free cells, the flood fill returns. -/
theorem findMatchesFuel_isSome {g : Grid} (hg : GridWF g) (K : Color) :
    ∀ (fuel : Nat) (row col : Int) (acc : List (Int × Int)),
      (freeCells acc).card < fuel → ∃ res, findMatchesFuel g fuel row col K acc = some res := by
  intro fuel
  induction fuel with
  | zero => intro row col acc h; omega
  | succ fuel ih =>
    intro row col acc hfuel
    rw [findMatchesFuel_succ]
    by_cases hmem : (row, col) ∈ acc
    · exact ⟨acc, by rw [if_pos hmem]⟩
    rw [if_neg hmem]
    by_cases hout : row < 0 ∨ row ≥ GRID_ROWS ∨ col < 0 ∨ col ≥ GRID_COLS
    · exact ⟨acc, by rw [if_pos hout]⟩
    rw [if_neg hout]
    have hin : InBounds (row, col) := by
      simp only [InBounds]; omega
    obtain ⟨cell, hrc⟩ := readCell_isSome hg hin
    rw [hrc]
    cases cell with
    | none => exact ⟨acc, rfl⟩
    | some ball =>
      simp only
      by_cases hcol : ball.color ≠ K
      · exact ⟨acc, by rw [if_pos hcol]⟩
      rw [if_neg hcol]
      have f0 : (freeCells (acc ++ [(row, col)])).card < fuel := by
        have := freeCells_lt hin hmem
        omega
      obtain ⟨m1, h1⟩ := ih (row - 1) col _ f0
      have f1 : (freeCells m1).card < fuel :=
        lt_of_le_of_lt (freeCells_mono (findMatchesFuel_post g K _ _ _ _ _ h1).mono) f0
      obtain ⟨m2, h2⟩ := ih (row + 1) col _ f1
      have f2 : (freeCells m2).card < fuel :=
        lt_of_le_of_lt (freeCells_mono (findMatchesFuel_post g K _ _ _ _ _ h2).mono) f1
      obtain ⟨m3, h3⟩ := ih row (col - 1) _ f2
      have f3 : (freeCells m3).card < fuel :=
        lt_of_le_of_lt (freeCells_mono (findMatchesFuel_post g K _ _ _ _ _ h3).mono) f2
      obtain ⟨m4, h4⟩ := ih row (col + 1) _ f3
      exact ⟨m4, by rw [h1, Option.some_bind, h2, Option.some_bind, h3, Option.some_bind, h4]⟩

/-- The flood fill from the empty set returns, and returns the cluster. -/
theorem findMatches_spec {g : Grid} (hg : GridWF g) (K : Color) (row col : Int) :
    ∃ m, findMatches g row col K [] = some m ∧ m.Nodup ∧
      ∀ p, p ∈ m ↔ Joined g K (row, col) p := by
  obtain ⟨m, hm⟩ := findMatchesFuel_isSome hg K (GRID_ROWS * GRID_COLS + 1) row col []
    (by rw [freeCells_nil]; simp [GRID_ROWS, GRID_COLS])
  have post := findMatchesFuel_post g K _ _ _ _ _ hm
  refine ⟨m, hm, post.nodup List.nodup_nil, fun p => ⟨fun hp => post.joined p hp (by simp), ?_⟩⟩
  intro hj
  induction hj with
  | refl hp => exact post.self hp
  | step q r _ hadj hr ih => exact post.closed q ih (by simp) r hadj hr

theorem writeCell_wf {g : Grid} (hg : GridWF g) {row col : Int} (hb : InBounds (row, col))
    (v : Cell) :
    ∃ g', writeCell g row col v = some g' ∧ GridWF g' ∧
      ∀ r c, readCell g' r c = if (r, c) = (row, col) then some v else readCell g r c := by
  obtain ⟨rw, hrw, hlen, hc, _⟩ := readCell_wf hg hb
  have hb' := (inBounds_iff _).mp hb
  obtain ⟨h1, h2, h3, h4⟩ := hb'
  simp only at h1 h2 h3 h4
  have hrlen : row.toNat < g.length := by rw [hg.1]; simp [GRID_ROWS]; omega
  refine ⟨g.set row.toNat (rw.set col.toNat v), ?_, ?_, ?_⟩
  · simp [writeCell, not_lt.mpr h1, hrw, arrSet, hc]
  · refine ⟨by simpa using hg.1, ?_⟩
    intro r hr
    rcases List.mem_or_eq_of_mem_set hr with h | h
    · exact hg.2 r h
    · rw [h, List.length_set, hlen]; rfl
  · intro r c
    by_cases hr0 : r < 0
    · have hne : (r, c) ≠ (row, col) := by
        intro h; injection h with h _; omega
      simp [readCell, hr0, hne]
    by_cases hrr : r = row
    · subst hrr
      by_cases hc0 : c < 0
      · have hne : (r, c) ≠ (r, col) := by
          intro h; injection h with _ h; omega
        simp [readCell, hr0, hne, hc0, List.getElem?_set, hrlen, hrw]
      by_cases hcc : c = col
      · subst hcc
        simp [readCell, hr0, hc0, List.getElem?_set, hrlen, hc, List.getD_eq_getElem?_getD]
      · have hne : (r, c) ≠ (r, col) := by
          intro h; injection h with _ h; exact hcc h
        have hcn : col.toNat ≠ c.toNat := by omega
        simp [readCell, hr0, hne, hc0, List.getElem?_set, hrlen, hrw, hcn,
          List.getD_eq_getElem?_getD]
    · have hne : (r, c) ≠ (row, col) := by
        intro h; injection h with h _; exact hrr h
      have hrn : row.toNat ≠ r.toNat := by omega
      simp [readCell, hr0, hne, List.getElem?_set, hrn]

theorem clearCells_wf :
    ∀ (m : List (Int × Int)) (s : Game), GridWF s.grid → (∀ p ∈ m, InBounds p) →
      ∃ s', clearCells s m = some s' ∧ GridWF s'.grid ∧
        s'.score = s.score + 10 * (m.length : Int) ∧
        s'.shooter = s.shooter ∧ s'.activeBall = s.activeBall ∧
        ∀ r c, readCell s'.grid r c = if (r, c) ∈ m then some none else readCell s.grid r c := by
  intro m
  induction m with
  | nil => intro s hg _; exact ⟨s, rfl, hg, by simp, rfl, rfl, by simp⟩
  | cons p rest ih =>
    intro s hg hin
    obtain ⟨g', hw, hg', hread⟩ := writeCell_wf hg (hin p (List.mem_cons_self _ _)) none
    obtain ⟨s', hs', hwf, hscore, hsh, hab, hrd⟩ :=
      ih { s with grid := g', score := s.score + 10 } hg'
        (fun q hq => hin q (List.mem_cons_of_mem _ hq))
    refine ⟨s', ?_, hwf, ?_, hsh, hab, ?_⟩
    · simp [clearCells, clearCell, hw, hs']
    · rw [hscore]; simp only [List.length_cons]; push_cast; ring
    · intro r c
      rw [hrd r c]
      by_cases h1 : (r, c) ∈ rest
      · simp [h1]
      · by_cases h2 : (r, c) = p
        · simp [h1, hread, h2]
        · simp only [h1, if_false, hread, List.mem_cons, h2, or_self]

theorem component_eq_of_spec {g : Grid} {K : Color} {start : Int × Int} {m : List (Int × Int)}
    (h : ∀ p, p ∈ m ↔ Joined g K start p) : component g K start = ↑m.toFinset := by
  ext p
  simp [component, h]

theorem component_ncard {g : Grid} {K : Color} {start : Int × Int} {m : List (Int × Int)}
    (hnd : m.Nodup) (h : ∀ p, p ∈ m ↔ Joined g K start p) :
    (component g K start).ncard = m.length := by
  rw [component_eq_of_spec h, Set.ncard_coe_Finset, List.toFinset_card_of_nodup hnd]

/-- What `checkMatches` does on a well-formed grid at an occupied in-bounds cell, in
terms of the set `m` the flood fill returns. -/
theorem checkMatches_spec {s : Game} (hg : GridWF s.grid) {row col : Int}
    {ball : Ball} (hcell : readCell s.grid row col = some (some ball)) :
    ∃ m, findMatches s.grid row col ball.color [] = some m ∧ m.Nodup ∧
      (∀ p, p ∈ m ↔ Joined s.grid ball.color (row, col) p) ∧
      (3 ≤ m.length → ∃ s', checkMatches s row col = some s' ∧ GridWF s'.grid ∧
        s'.score = s.score + 10 * (m.length : Int) ∧ s'.shooter = s.shooter ∧
        s'.activeBall = s.activeBall ∧
        ∀ r c, readCell s'.grid r c = if (r, c) ∈ m then some none else readCell s.grid r c) ∧
      (m.length < 3 → checkMatches s row col = some s) := by
  obtain ⟨m, hm, hnd, hspec⟩ := findMatches_spec hg ball.color row col
  refine ⟨m, hm, hnd, hspec, ?_, ?_⟩
  · intro h3
    obtain ⟨s', hs', rest⟩ := clearCells_wf m s hg (fun p hp => ((hspec p).mp hp).good_right.1)
    exact ⟨s', by simp [checkMatches, hcell, hm, h3, hs'], rest⟩
  · intro h3
    simp [checkMatches, hcell, hm, not_le.mpr h3]

/-- C1: on an 8 × 10 grid, `findMatches (row, col, K, ∅)` started at an in-bounds cell
of colour `K` returns (with the model's fixed recursion allowance) a duplicate-free set
that is exactly the cluster of `(row, col)`: every returned coordinate is in bounds,
holds colour `K` and is joined to `(row, col)` by a 4-directional path of colour-`K`
cells, every cell so joined is returned, and a second run from the same grid returns
the same set (the search takes the grid as a value and returns only the set). -/
theorem findMatches_returns_component (g : Grid) (row col : Int) (K : Color)
    (hg : GridWF g) (hb : InBounds (row, col)) (hK : HasColor g K (row, col)) :
    ∃ m, findMatches g row col K [] = some m ∧ m.Nodup ∧ (row, col) ∈ m ∧
      (∀ p ∈ m, InBounds p ∧ HasColor g K p ∧ Joined g K (row, col) p) ∧
      (∀ p, Joined g K (row, col) p → p ∈ m) ∧
      (∀ p, p ∈ m ↔ p ∈ component g K (row, col)) ∧
      (∀ m2, findMatches g row col K [] = some m2 → m2 = m) := by
  obtain ⟨m, hm, hnd, hspec⟩ := findMatches_spec hg K row col
  refine ⟨m, hm, hnd, (hspec _).mpr (Joined.refl _ ⟨hb, hK⟩), ?_, fun p hp => (hspec p).mpr hp,
    hspec, ?_⟩
  · intro p hp
    have hj := (hspec p).mp hp
    exact ⟨hj.good_right.1, hj.good_right.2, hj⟩
  · intro m2 h2
    rw [hm] at h2
    exact (Option.some.inj h2).symm

theorem findMatches_returns_component_witness :
    GridWF rowOfFour ∧ InBounds (4, 3) ∧ HasColor rowOfFour "#FF0000" (4, 3) ∧
    ∃ m, findMatches rowOfFour 4 3 "#FF0000" [] = some m ∧ m.Nodup ∧ ((4 : Int), (3 : Int)) ∈ m ∧
      (∀ p ∈ m, InBounds p ∧ HasColor rowOfFour "#FF0000" p ∧
        Joined rowOfFour "#FF0000" (4, 3) p) ∧
      (∀ p, Joined rowOfFour "#FF0000" (4, 3) p → p ∈ m) ∧
      (∀ p, p ∈ m ↔ p ∈ component rowOfFour "#FF0000" (4, 3)) ∧
      (∀ m2, findMatches rowOfFour 4 3 "#FF0000" [] = some m2 → m2 = m) :=
  ⟨by decide, by decide, ⟨mkBall "#FF0000" 4 3, rfl, rfl⟩,
    findMatches_returns_component rowOfFour 4 3 "#FF0000" (by decide) (by decide)
      ⟨mkBall "#FF0000" 4 3, rfl, rfl⟩⟩

/-- C2: on an 8 × 10 grid, for an occupied in-bounds cell `(row, col)` whose cluster
has `n` cells: the cluster is finite; if `n ≥ 3`, `checkMatches (row, col)` returns a
state whose score is the old score plus `10 * n`, in which every cell of the cluster
reads empty and every other cell reads as before; if `n < 3` it returns the state
unchanged. -/
theorem checkMatches_clears_component (s : Game) (row col : Int) (ball : Ball)
    (hg : GridWF s.grid) (_hb : InBounds (row, col))
    (hcell : readCell s.grid row col = some (some ball)) :
    (component s.grid ball.color (row, col)).Finite ∧
    (3 ≤ (component s.grid ball.color (row, col)).ncard →
      ∃ s', checkMatches s row col = some s' ∧
        s'.score = s.score + 10 * ((component s.grid ball.color (row, col)).ncard : Int) ∧
        (∀ p ∈ component s.grid ball.color (row, col), readCell s'.grid p.1 p.2 = some none) ∧
        (∀ p, p ∉ component s.grid ball.color (row, col) →
          readCell s'.grid p.1 p.2 = readCell s.grid p.1 p.2)) ∧
    ((component s.grid ball.color (row, col)).ncard < 3 → checkMatches s row col = some s) := by
  obtain ⟨m, _, hnd, hspec, hbig, hsmall⟩ := checkMatches_spec hg hcell
  have hcard := component_ncard hnd hspec
  have hmem : ∀ p, p ∈ component s.grid ball.color (row, col) ↔ p ∈ m := fun p => (hspec p).symm
  refine ⟨?_, ?_, ?_⟩
  · rw [component_eq_of_spec hspec]; exact Finset.finite_toSet _
  · intro h3
    rw [hcard] at h3 ⊢
    obtain ⟨s', hs', _, hscore, _, _, hread⟩ := hbig h3
    refine ⟨s', hs', hscore, ?_, ?_⟩
    · intro p hp
      rw [hread, if_pos ((hmem p).mp hp)]
    · intro p hp
      rw [hread, if_neg (fun h => hp ((hmem p).mpr h))]
  · intro h3
    rw [hcard] at h3
    exact hsmall h3

theorem checkMatches_clears_component_witness :
    GridWF rowOfFour ∧ InBounds (4, 3) ∧
    readCell rowOfFour 4 3 = some (some (mkBall "#FF0000" 4 3)) ∧
    (3 ≤ (component rowOfFour "#FF0000" (4, 3)).ncard →
      ∃ s', checkMatches ⟨0, rowOfFour, shooter0, none⟩ 4 3 = some s' ∧
        s'.score = 0 + 10 * ((component rowOfFour "#FF0000" (4, 3)).ncard : Int) ∧
        (∀ p ∈ component rowOfFour "#FF0000" (4, 3), readCell s'.grid p.1 p.2 = some none) ∧
        (∀ p, p ∉ component rowOfFour "#FF0000" (4, 3) →
          readCell s'.grid p.1 p.2 = readCell rowOfFour p.1 p.2)) :=
  ⟨by decide, by decide, rfl,
    (checkMatches_clears_component ⟨0, rowOfFour, shooter0, none⟩ 4 3 (mkBall "#FF0000" 4 3)
      (by decide) (by decide) rfl).2.1⟩

theorem mem_scanOrder (p : Nat × Nat) : p ∈ scanOrder ↔ p.1 < 8 ∧ p.2 < 10 := by
  obtain ⟨r, c⟩ := p
  simp only [scanOrder, List.mem_flatMap, List.mem_range, List.mem_map, Prod.mk.injEq, GRID_ROWS,
    GRID_COLS]
  constructor
  · rintro ⟨a, ha, b, hb, rfl, rfl⟩; exact ⟨ha, hb⟩
  · rintro ⟨ha, hb⟩; exact ⟨r, ha, c, hb, rfl, rfl⟩

theorem inBounds_of_scan {p : Nat × Nat} (h : p.1 < 8 ∧ p.2 < 10) :
    InBounds ((p.1 : Int), (p.2 : Int)) := by
  rw [inBounds_iff]; simp only; omega

/-- One iteration of the scan, with the committing branch named. -/
theorem checkCollisionsLoop_cons (s : Game) (a : ActiveBall) (p : Nat × Nat)
    (rest : List (Nat × Nat)) :
    checkCollisionsLoop s a (p :: rest) =
      match readCell s.grid p.1 p.2 with
      | none => none
      | some none => checkCollisionsLoop s a rest
      | some (some ball) =>
        if Near a ball then
          if InBounds (destination a) then
            match readCell s.grid (destination a).1 (destination a).2 with
            | none => none
            | some (some _) => checkCollisionsLoop s a rest
            | some none => placeAndMatch s a
          else checkCollisionsLoop s a rest
        else checkCollisionsLoop s a rest := by
  obtain ⟨row, col⟩ := p
  rfl

theorem checkCollisionsLoop_miss {s : Game} (hg : GridWF s.grid) (a : ActiveBall) :
    ∀ l : List (Nat × Nat), (∀ p ∈ l, p.1 < 8 ∧ p.2 < 10) →
      (¬ DestFree s.grid a ∨ ∀ p ∈ l, ¬ Hits s.grid a p) →
      checkCollisionsLoop s a l = some s := by
  intro l
  induction l with
  | nil => intro _ _; rfl
  | cons p rest ih =>
    intro hl h
    have ihr := ih (fun q hq => hl q (List.mem_cons_of_mem _ hq))
      (h.imp id fun h' q hq => h' q (List.mem_cons_of_mem _ hq))
    rw [checkCollisionsLoop_cons]
    obtain ⟨cell, hcell⟩ := readCell_isSome hg (inBounds_of_scan (hl p (List.mem_cons_self _ _)))
    rw [hcell]
    cases cell with
    | none => exact ihr
    | some ball =>
      simp only
      by_cases hn : Near a ball
      · rw [if_pos hn]
        by_cases hb : InBounds (destination a)
        · rw [if_pos hb]
          obtain ⟨d, hd⟩ : ∃ d, readCell s.grid (destination a).1 (destination a).2 = some d :=
            readCell_isSome hg hb
          rw [hd]
          cases d with
          | some _ => exact ihr
          | none =>
            exfalso
            rcases h with h | h
            · exact h ⟨hb, hd⟩
            · exact h p (List.mem_cons_self _ _) ⟨ball, hcell, hn⟩
        · rw [if_neg hb]; exact ihr
      · rw [if_neg hn]; exact ihr

theorem checkCollisionsLoop_hit {s : Game} (hg : GridWF s.grid) (a : ActiveBall)
    (hd : DestFree s.grid a) :
    ∀ l : List (Nat × Nat), (∀ p ∈ l, p.1 < 8 ∧ p.2 < 10) → (∃ p ∈ l, Hits s.grid a p) →
      checkCollisionsLoop s a l = placeAndMatch s a := by
  intro l
  induction l with
  | nil => intro _ h; obtain ⟨p, hp, _⟩ := h; cases hp
  | cons p rest ih =>
    intro hl h
    rw [checkCollisionsLoop_cons]
    obtain ⟨cell, hcell⟩ := readCell_isSome hg (inBounds_of_scan (hl p (List.mem_cons_self _ _)))
    have tail : (¬ Hits s.grid a p) → checkCollisionsLoop s a rest = placeAndMatch s a := by
      intro hp
      apply ih (fun q hq => hl q (List.mem_cons_of_mem _ hq))
      obtain ⟨q, hq, hqh⟩ := h
      rcases List.mem_cons.mp hq with e | e
      · subst e; exact absurd hqh hp
      · exact ⟨q, e, hqh⟩
    rw [hcell]
    cases cell with
    | none =>
      apply tail
      rintro ⟨b, hb, _⟩
      rw [hcell] at hb; cases hb
    | some ball =>
      simp only
      by_cases hn : Near a ball
      · rw [if_pos hn, if_pos hd.1, hd.2]
      · rw [if_neg hn]
        apply tail
        rintro ⟨b, hb, hnb⟩
        rw [hcell] at hb
        cases hb
        exact hn hnb

/-- The resolver on a well-formed grid: it commits exactly when the destination is
free and some occupied cell passes the collision test. -/
theorem checkCollisions_hit {s : Game} (hg : GridWF s.grid) {a : ActiveBall}
    (ha : s.activeBall = some a) (hd : DestFree s.grid a)
    (hh : ∃ p, (p.1 < 8 ∧ p.2 < 10) ∧ Hits s.grid a p) :
    checkCollisions s = placeAndMatch s a := by
  unfold checkCollisions
  rw [ha]
  obtain ⟨p, hp, hph⟩ := hh
  exact checkCollisionsLoop_hit hg a hd scanOrder (fun q hq => (mem_scanOrder q).mp hq)
    ⟨p, (mem_scanOrder p).mpr hp, hph⟩

theorem checkCollisions_miss {s : Game} (hg : GridWF s.grid) {a : ActiveBall}
    (ha : s.activeBall = some a)
    (h : ¬ DestFree s.grid a ∨ ∀ p : Nat × Nat, p.1 < 8 ∧ p.2 < 10 → ¬ Hits s.grid a p) :
    checkCollisions s = some s := by
  unfold checkCollisions
  rw [ha]
  exact checkCollisionsLoop_miss hg a scanOrder (fun q hq => (mem_scanOrder q).mp hq)
    (h.imp id fun h' q hq => h' q ((mem_scanOrder q).mp hq))

/-- The committing branch on a well-formed grid with an in-bounds destination: the
grid `g'` after the write, the set `m` the flood fill returns on it, and the final
state. -/
theorem placeAndMatch_spec {s : Game} (hg : GridWF s.grid) (a : ActiveBall)
    (hb : InBounds (destination a)) :
    ∃ g' m s', writeCell s.grid (destination a).1 (destination a).2
          (some (mkBall a.color (destination a).1 (destination a).2)) = some g' ∧
      GridWF g' ∧
      (∀ r c, readCell g' r c =
        if (r, c) = destination a then
          some (some (mkBall a.color (destination a).1 (destination a).2))
        else readCell s.grid r c) ∧
      findMatches g' (destination a).1 (destination a).2 a.color [] = some m ∧ m.Nodup ∧
      (∀ p, p ∈ m ↔ Joined g' a.color (destination a) p) ∧
      placeAndMatch s a = some s' ∧ s'.activeBall = none ∧ s'.shooter = s.shooter ∧
      GridWF s'.grid ∧
      (3 ≤ m.length → s'.score = s.score + 10 * (m.length : Int) ∧
        ∀ r c, readCell s'.grid r c = if (r, c) ∈ m then some none else readCell g' r c) ∧
      (m.length < 3 → s'.score = s.score ∧ s'.grid = g') := by
  obtain ⟨g', hw, hg', hread⟩ : ∃ g', writeCell s.grid (destination a).1 (destination a).2
        (some (mkBall a.color (destination a).1 (destination a).2)) = some g' ∧ GridWF g' ∧
      ∀ r c, readCell g' r c =
        if (r, c) = destination a then
          some (some (mkBall a.color (destination a).1 (destination a).2))
        else readCell s.grid r c :=
    @writeCell_wf s.grid hg (destination a).1 (destination a).2 hb _
  have hcell : readCell ({ s with grid := g' } : Game).grid (destination a).1 (destination a).2 =
      some (some (mkBall a.color (destination a).1 (destination a).2)) := by
    simp [hread]
  obtain ⟨m, hm, hnd, hspec, hbig, hsmall⟩ :=
    checkMatches_spec (s := { s with grid := g' }) hg' hcell
  by_cases h3 : 3 ≤ m.length
  · obtain ⟨s1, hs1, hwf, hscore, hsh, _, hrd⟩ := hbig h3
    refine ⟨g', m, { s1 with activeBall := none }, hw, hg', hread, hm, hnd, hspec, ?_, rfl, hsh,
      hwf, fun _ => ⟨hscore, hrd⟩, fun h => absurd h3 (not_le.mpr h)⟩
    simp only [placeAndMatch, hw, Option.some_bind, hs1, Option.map_some']
  · have hlt : m.length < 3 := not_le.mp h3
    refine ⟨g', m, { s with grid := g', activeBall := none }, hw, hg', hread, hm, hnd, hspec, ?_,
      rfl, rfl, hg', fun h => absurd h h3, fun _ => ⟨rfl, rfl⟩⟩
    simp only [placeAndMatch, hw, Option.some_bind, hsmall hlt, Option.map_some']

theorem placeAndMatch_inv {s : Game} (hg : GridWF s.grid) (hc : Canonical s.grid)
    (a : ActiveBall) (hb : InBounds (destination a)) :
    ∃ s', placeAndMatch s a = some s' ∧ GridWF s'.grid ∧ Canonical s'.grid ∧
      s'.activeBall = none := by
  obtain ⟨g', m, s', _, _, hread, _, _, _, hs', hab, _, hwf, hbig, hsmall⟩ :=
    placeAndMatch_spec hg a hb
  have hc' : Canonical g' := by
    intro r c b hrc
    rw [hread] at hrc
    by_cases hd : (r, c) = destination a
    · rw [if_pos hd] at hrc
      cases hrc
      rw [← hd]
      simp only [mkBall, BALL_RADIUS]
      constructor <;> norm_num
    · rw [if_neg hd] at hrc
      exact hc r c b hrc
  refine ⟨s', hs', hwf, ?_, hab⟩
  by_cases h3 : 3 ≤ m.length
  · intro r c b hrc
    rw [(hbig h3).2] at hrc
    by_cases hm : (r, c) ∈ m
    · rw [if_pos hm] at hrc; cases hrc
    · rw [if_neg hm] at hrc; exact hc' r c b hrc
  · rw [(hsmall (not_le.mp h3)).2]; exact hc'

/-- The resolver either leaves the state as it is or commits. -/
theorem checkCollisions_cases {s : Game} (hg : GridWF s.grid) :
    checkCollisions s = some s ∨
      ∃ a, s.activeBall = some a ∧ DestFree s.grid a ∧
        (∃ p : Nat × Nat, (p.1 < 8 ∧ p.2 < 10) ∧ Hits s.grid a p) ∧
        checkCollisions s = placeAndMatch s a := by
  cases ha : s.activeBall with
  | none => left; simp [checkCollisions, ha]
  | some a =>
    by_cases hd : DestFree s.grid a
    · by_cases hh : ∃ p : Nat × Nat, (p.1 < 8 ∧ p.2 < 10) ∧ Hits s.grid a p
      · right; exact ⟨a, rfl, hd, hh, checkCollisions_hit hg ha hd hh⟩
      · left
        apply checkCollisions_miss hg ha
        right
        intro p hp hph
        exact hh ⟨p, hp, hph⟩
    · left; exact checkCollisions_miss hg ha (Or.inl hd)

theorem checkCollisions_inv {s : Game} (hg : GridWF s.grid) (hc : Canonical s.grid) :
    ∃ s', checkCollisions s = some s' ∧ GridWF s'.grid ∧ Canonical s'.grid := by
  rcases checkCollisions_cases hg with h | ⟨a, _, hd, _, h⟩
  · exact ⟨s, h, hg, hc⟩
  · obtain ⟨s', hs', hwf, hcan, _⟩ := placeAndMatch_inv hg hc a hd.1
    exact ⟨s', by rw [h, hs'], hwf, hcan⟩

theorem updateBall_some (s : Game) (a : ActiveBall) (ha : s.activeBall = some a) :
    updateBall s = checkCollisions { s with activeBall := some (moved a) } := by
  unfold updateBall
  rw [ha]
  simp only [moved, BALL_RADIUS, CANVAS_WIDTH]
  norm_num
  congr 3
  split_ifs <;> simp_all

theorem updateBall_inv {s : Game} (hg : GridWF s.grid) (hc : Canonical s.grid) :
    ∃ s', updateBall s = some s' ∧ GridWF s'.grid ∧ Canonical s'.grid := by
  cases ha : s.activeBall with
  | none => exact ⟨s, by simp [updateBall, ha], hg, hc⟩
  | some a =>
    rw [updateBall_some s a ha]
    exact checkCollisions_inv (s := { s with activeBall := _ }) hg hc

/-- Writing slots `0, 1, …, n-1` in order replaces the first `n` slots and keeps the
rest. -/
theorem foldl_arrSet {α : Type} (f : Nat → α) (hole : α) :
    ∀ (n : Nat) (a0 : List α),
      (List.range n).foldl (fun a i => arrSet a i (f i) hole) a0 =
        (List.range n).map f ++ a0.drop n := by
  intro n
  induction n with
  | zero => intro a0; simp
  | succ n ih =>
    intro a0
    rw [List.range_succ, List.foldl_append, ih, List.map_append]
    simp only [List.foldl_cons, List.foldl_nil, List.map_cons, List.map_nil]
    by_cases h : n < a0.length
    · have hd : a0.drop n = a0[n] :: a0.drop (n + 1) := List.drop_eq_getElem_cons h
      have hlen : n < ((List.range n).map f ++ a0.drop n).length := by
        simp; omega
      rw [arrSet, if_pos hlen, List.set_append_right _ _ (by simp), hd]
      simp only [List.length_map, List.length_range, Nat.sub_self, List.set_cons_zero,
        List.append_assoc, List.singleton_append]
    · have hd : a0.drop n = [] := List.drop_eq_nil_of_le (by omega)
      have hd' : a0.drop (n + 1) = [] := List.drop_eq_nil_of_le (by omega)
      rw [hd, hd', arrSet]
      simp

/-- The cell `initGrid` stores at `(row, col)`. -/
theorem initRow_eq (rnd : Nat → Rand) (row : Nat) :
    initRow rnd row = (List.range GRID_COLS).map fun col =>
      if row < 4 then
        some (mkBall (getRandomColor (rnd (row * GRID_COLS + col))) row col)
      else none := by
  unfold initRow
  by_cases h : row < 4
  · simp only [h, if_true]
    have := foldl_arrSet (fun col =>
      some (mkBall (getRandomColor (rnd (row * GRID_COLS + col))) row col)) none GRID_COLS []
    simpa using this
  · simp only [h, if_false]
    have := foldl_arrSet (fun _ => (none : Cell)) none GRID_COLS []
    simpa using this

theorem initGrid_grid (s : Game) (rnd : Nat → Rand) :
    (initGrid s rnd).grid = (List.range GRID_ROWS).map (initRow rnd) ++ s.grid.drop GRID_ROWS := by
  simp only [initGrid]
  exact foldl_arrSet (initRow rnd) [] GRID_ROWS s.grid

theorem getRandomColor_mem (r : Rand) : getRandomColor r ∈ COLORS := by
  have h0 : (0 : ℚ) ≤ r.val * 5 := by have := r.nonneg; linarith
  have h5 : r.val * 5 < 5 := by have := r.lt_one; linarith
  have hf0 : 0 ≤ ⌊r.val * 5⌋ := Int.floor_nonneg.mpr h0
  have hf5 : ⌊r.val * 5⌋ < 5 := by
    rw [Int.floor_lt]; exact_mod_cast h5
  have hn : (⌊r.val * 5⌋).toNat < 5 := by omega
  simp only [getRandomColor, COLORS, List.length_cons, List.length_nil]
  norm_num
  generalize (⌊r.val * 5⌋).toNat = n at hn
  interval_cases n <;> simp

/-- Reading the freshly built rows. -/
theorem readCell_fresh (rnd : Nat → Rand) (tail : Grid) (row col : Nat) (hr : row < 8)
    (hc : col < 10) :
    readCell ((List.range GRID_ROWS).map (initRow rnd) ++ tail) row col =
      some (if row < 4 then
        some (mkBall (getRandomColor (rnd (row * GRID_COLS + col))) row col) else none) := by
  have hlen : row < ((List.range GRID_ROWS).map (initRow rnd)).length := by simpa [GRID_ROWS]
  simp only [readCell, Int.toNat_ofNat]
  rw [List.getElem?_append_left hlen]
  simp [initRow_eq, GRID_ROWS, GRID_COLS, hr, hc, List.getD_eq_getElem?_getD]

theorem fresh_wf (rnd : Nat → Rand) : GridWF ((List.range GRID_ROWS).map (initRow rnd)) := by
  refine ⟨by simp, ?_⟩
  intro r hr
  obtain ⟨i, _, rfl⟩ := List.mem_map.mp hr
  simp [initRow_eq]

theorem readCell_some_inBounds {g : Grid} (hg : GridWF g) {row col : Int} {b : Ball}
    (h : readCell g row col = some (some b)) : InBounds (row, col) := by
  rw [inBounds_iff]
  simp only
  unfold readCell at h
  by_cases h1 : row < 0
  · simp [h1] at h
  rw [if_neg h1] at h
  cases hr : g[row.toNat]? with
  | none => rw [hr] at h; cases h
  | some r =>
    rw [hr] at h
    simp only at h
    have hlt : row.toNat < g.length := by
      by_contra hge
      rw [List.getElem?_eq_none (by omega)] at hr
      cases hr
    have hmem : r ∈ g := by
      rw [List.getElem?_eq_getElem hlt] at hr
      cases hr
      exact List.getElem_mem hlt
    have hrl := hg.2 r hmem
    have hgl := hg.1
    simp only [GRID_ROWS, GRID_COLS] at hrl hgl
    by_cases h2 : col < 0
    · simp [h2] at h
    rw [if_neg h2] at h
    have hcl : col.toNat < r.length := by
      by_contra hge
      rw [List.getD_eq_getElem?_getD, List.getElem?_eq_none (by omega)] at h
      cases h
    omega

theorem fresh_canonical (rnd : Nat → Rand) :
    Canonical ((List.range GRID_ROWS).map (initRow rnd)) := by
  intro row col b h
  have hb := readCell_some_inBounds (fresh_wf rnd) h
  rw [inBounds_iff] at hb
  obtain ⟨h1, h2, h3, h4⟩ := hb
  simp only at h1 h2 h3 h4
  obtain ⟨r, rfl⟩ := Int.eq_ofNat_of_zero_le h1
  obtain ⟨c, rfl⟩ := Int.eq_ofNat_of_zero_le h3
  have := readCell_fresh rnd [] r c (by omega) (by omega)
  rw [List.append_nil, h] at this
  have h' := Option.some.inj this
  split_ifs at h' with h4
  · cases h'
    simp only [mkBall, BALL_RADIUS]
    constructor <;> norm_num

theorem initGrid_inv (s : Game) (rnd : Nat → Rand) (h : s.grid.length ≤ 8) :
    (initGrid s rnd).grid = (List.range GRID_ROWS).map (initRow rnd) ∧
      GridWF (initGrid s rnd).grid ∧ Canonical (initGrid s rnd).grid := by
  have hd : s.grid.drop GRID_ROWS = [] := List.drop_eq_nil_of_le (by simpa [GRID_ROWS] using h)
  have he : (initGrid s rnd).grid = (List.range GRID_ROWS).map (initRow rnd) := by
    rw [initGrid_grid, hd, List.append_nil]
  rw [he]
  exact ⟨rfl, fresh_wf rnd, fresh_canonical rnd⟩

theorem reachable_inv {s : Game} (h : Reachable s) : GridWF s.grid ∧ Canonical s.grid := by
  induction h with
  | init r0 rnd =>
    unfold newGame
    exact (initGrid_inv _ rnd (by simp)).2
  | aim s a _ ih => exact ih
  | click s r _ ih =>
    unfold onClick
    split_ifs
    · exact ih
    · exact ih
  | shoot s r _ ih => exact ih
  | tick s s' _ hstep ih =>
    obtain ⟨s'', hs'', hwf, hcan⟩ := updateBall_inv ih.1 ih.2
    rw [hstep] at hs''
    cases hs''
    exact ⟨hwf, hcan⟩
  | reset s rnd _ ih =>
    have hlen : s.grid.length ≤ 8 := by rw [ih.1.1]; simp [GRID_ROWS]
    have hgrid : (resetGame s rnd).grid = (initGrid { s with score := 0 } rnd).grid := by
      simp only [resetGame]
    rw [hgrid]
    exact (initGrid_inv { s with score := 0 } rnd hlen).2

/-- C3: in every state reachable from the constructor's `initGrid` through aiming,
shooting, `updateBall` ticks (with their `checkCollisions` / `checkMatches`) and
`resetGame`, the grid has exactly 8 rows of 10 slots and every ball stored at
`(row, col)` has `x = col * 40 + 20`, `y = row * 40 + 20`; and the ball that a
committed placement writes for `(newRow, newCol)` has the canonical position of
that cell. -/
theorem reachable_grid_canonical (s : Game) (h : Reachable s) :
    (s.grid.length = 8 ∧ ∀ r ∈ s.grid, r.length = 10) ∧
    (∀ (row col : Int) (b : Ball), readCell s.grid row col = some (some b) →
      b.x = (col : ℚ) * 40 + 20 ∧ b.y = (row : ℚ) * 40 + 20) ∧
    (∀ (color : Color) (newRow newCol : Int),
      (mkBall color newRow newCol).x = (newCol : ℚ) * 40 + 20 ∧
      (mkBall color newRow newCol).y = (newRow : ℚ) * 40 + 20) := by
  refine ⟨(reachable_inv h).1, (reachable_inv h).2, ?_⟩
  intro color newRow newCol
  simp only [mkBall, BALL_RADIUS]
  constructor <;> norm_num

theorem reachable_grid_canonical_witness :
    Reachable (shootBall (newGame rand0 rnd0) rand0) ∧
    ((shootBall (newGame rand0 rnd0) rand0).grid.length = 8 ∧
      ∀ r ∈ (shootBall (newGame rand0 rnd0) rand0).grid, r.length = 10) ∧
    (∀ (row col : Int) (b : Ball),
      readCell (shootBall (newGame rand0 rnd0) rand0).grid row col = some (some b) →
      b.x = (col : ℚ) * 40 + 20 ∧ b.y = (row : ℚ) * 40 + 20) ∧
    (∀ (color : Color) (newRow newCol : Int),
      (mkBall color newRow newCol).x = (newCol : ℚ) * 40 + 20 ∧
      (mkBall color newRow newCol).y = (newRow : ℚ) * 40 + 20) :=
  ⟨Reachable.shoot _ _ (Reachable.init rand0 rnd0),
    reachable_grid_canonical _ (Reachable.shoot _ _ (Reachable.init rand0 rnd0))⟩

/-- C8: whatever the prior state, after `resetGame` every cell of rows 0..3 holds a
ball whose colour is one of the five palette colours, every cell of rows 4..7 is
empty, the score is 0 and no projectile is live; and `initGrid` run on an empty grid
array yields an 8 × 10 grid whose cells read the same as after `resetGame` with
the same random draws. -/
theorem resetGame_layout (s : Game) (rnd : Nat → Rand) :
    (∀ row col : Nat, row < 4 → col < 10 →
      ∃ b, readCell (resetGame s rnd).grid row col = some (some b) ∧ b.color ∈ COLORS) ∧
    (∀ row col : Nat, 4 ≤ row → row < 8 → col < 10 →
      readCell (resetGame s rnd).grid row col = some none) ∧
    (resetGame s rnd).score = 0 ∧ (resetGame s rnd).activeBall = none ∧
    GridWF (initGrid { s with grid := [] } rnd).grid ∧
    (∀ row col : Nat, row < 8 → col < 10 →
      readCell (initGrid { s with grid := [] } rnd).grid row col =
        readCell (resetGame s rnd).grid row col) := by
  have hreset : (resetGame s rnd).grid =
      (List.range GRID_ROWS).map (initRow rnd) ++ s.grid.drop GRID_ROWS := by
    simp only [resetGame]
    exact initGrid_grid { s with score := 0 } rnd
  have hinit := initGrid_inv { s with grid := [] } rnd (by simp)
  refine ⟨?_, ?_, rfl, rfl, hinit.2.1, ?_⟩
  · intro row col hr hc
    rw [hreset, readCell_fresh rnd _ row col (by omega) hc, if_pos hr]
    exact ⟨_, rfl, getRandomColor_mem _⟩
  · intro row col hr4 hr hc
    rw [hreset, readCell_fresh rnd _ row col hr hc, if_neg (by omega)]
  · intro row col hr hc
    rw [hreset, hinit.1, readCell_fresh rnd _ row col hr hc]
    have := readCell_fresh rnd [] row col hr hc
    rw [List.append_nil] at this
    exact this

theorem placeAndMatch_activeBall {s s' : Game} {a : ActiveBall}
    (h : placeAndMatch s a = some s') : s'.activeBall = none := by
  unfold placeAndMatch at h
  cases hw : writeCell s.grid (destination a).1 (destination a).2
      (some (mkBall a.color (destination a).1 (destination a).2)) with
  | none => rw [hw] at h; cases h
  | some g =>
    rw [hw, Option.some_bind] at h
    cases hc : checkMatches { s with grid := g } (destination a).1 (destination a).2 with
    | none => rw [hc] at h; cases h
    | some s1 =>
      rw [hc, Option.map_some'] at h
      cases h
      rfl

/-- Whatever the grid array holds, a scan that returns either left the state alone or
took the committing branch, which requires a free in-bounds destination and a hit. -/
theorem checkCollisionsLoop_result (s : Game) (a : ActiveBall) :
    ∀ (l : List (Nat × Nat)) (s' : Game), checkCollisionsLoop s a l = some s' →
      s' = s ∨ (DestFree s.grid a ∧ (∃ p ∈ l, Hits s.grid a p) ∧ placeAndMatch s a = some s') := by
  intro l
  induction l with
  | nil => intro s' h; left; cases h; rfl
  | cons p rest ih =>
    intro s' h
    have tail : checkCollisionsLoop s a rest = some s' →
        s' = s ∨ (DestFree s.grid a ∧ (∃ q ∈ p :: rest, Hits s.grid a q) ∧
          placeAndMatch s a = some s') := by
      intro h'
      rcases ih s' h' with e | ⟨hd, ⟨q, hq, hqh⟩, hp⟩
      · exact Or.inl e
      · exact Or.inr ⟨hd, ⟨q, List.mem_cons_of_mem _ hq, hqh⟩, hp⟩
    rw [checkCollisionsLoop_cons] at h
    cases hcell : readCell s.grid p.1 p.2 with
    | none => rw [hcell] at h; cases h
    | some cell =>
      rw [hcell] at h
      cases cell with
      | none => exact tail h
      | some ball =>
        simp only at h
        by_cases hn : Near a ball
        · rw [if_pos hn] at h
          by_cases hb : InBounds (destination a)
          · rw [if_pos hb] at h
            cases hd : readCell s.grid (destination a).1 (destination a).2 with
            | none => rw [hd] at h; cases h
            | some d =>
              rw [hd] at h
              cases d with
              | some _ => exact tail h
              | none =>
                exact Or.inr ⟨⟨hb, hd⟩, ⟨p, List.mem_cons_self _ _, ball, hcell, hn⟩, h⟩
          · rw [if_neg hb] at h; exact tail h
        · rw [if_neg hn] at h; exact tail h

theorem checkCollisions_result {s s' : Game} {a : ActiveBall} (ha : s.activeBall = some a)
    (h : checkCollisions s = some s') :
    s' = s ∨ (DestFree s.grid a ∧ (∃ p : Nat × Nat, (p.1 < 8 ∧ p.2 < 10) ∧ Hits s.grid a p) ∧
      placeAndMatch s a = some s') := by
  unfold checkCollisions at h
  rw [ha] at h
  rcases checkCollisionsLoop_result s a scanOrder s' h with e | ⟨hd, ⟨q, hq, hqh⟩, hp⟩
  · exact Or.inl e
  · exact Or.inr ⟨hd, ⟨q, (mem_scanOrder q).mp hq, hqh⟩, hp⟩

/-- A projectile that is still live after a tick is the moved and reflected one, and
nothing else changed. -/
theorem updateBall_live {s s' : Game} {a a' : ActiveBall} (ha : s.activeBall = some a)
    (h : updateBall s = some s') (hlive : s'.activeBall = some a') :
    s' = { s with activeBall := some (moved a) } ∧ a' = moved a := by
  rw [updateBall_some s a ha] at h
  rcases checkCollisions_result (s := { s with activeBall := some (moved a) }) rfl h with
    e | ⟨_, _, hp⟩
  · subst e
    simp only [Option.some.injEq] at hlive
    exact ⟨rfl, hlive.symm⟩
  · rw [placeAndMatch_activeBall hp] at hlive
    cases hlive

theorem readCell_emptyGrid (row col : Int) (b : Ball) :
    readCell emptyGrid row col ≠ some (some b) := by
  intro h
  unfold readCell at h
  by_cases h1 : row < 0
  · simp [h1] at h
  rw [if_neg h1] at h
  cases hr : emptyGrid[row.toNat]? with
  | none => rw [hr] at h; cases h
  | some r =>
    rw [hr] at h
    simp only at h
    have hmem : r ∈ emptyGrid := List.getElem?_mem hr
    have hre : r = List.replicate GRID_COLS none := List.eq_of_mem_replicate hmem
    subst hre
    by_cases h2 : col < 0
    · simp [h2] at h
    rw [if_neg h2] at h
    rw [List.getD_eq_getElem?_getD] at h
    by_cases h3 : col.toNat < GRID_COLS
    · simp [List.getElem?_replicate, h3] at h
    · simp [List.getElem?_replicate, h3] at h

/-- C4: on an 8 × 10 grid with a live projectile, if the destination cell
`(round ((y-20)/40), round ((x-20)/40))` is out of bounds or already occupied, then
`checkCollisions` returns the state exactly as it was: every grid cell, the score and
the projectile (position, velocity, colour) are unchanged and the projectile is
still live. -/
theorem checkCollisions_rejected_unchanged (s : Game) (a : ActiveBall) (hg : GridWF s.grid)
    (ha : s.activeBall = some a)
    (hrej : ¬ InBounds (destination a) ∨
      ∃ b, readCell s.grid (destination a).1 (destination a).2 = some (some b)) :
    destination a = (jsRound ((a.y - 20) / 40), jsRound ((a.x - 20) / 40)) ∧
    checkCollisions s = some s := by
  constructor
  · simp only [destination, BALL_RADIUS]; norm_num
  · apply checkCollisions_miss hg ha
    left
    rintro ⟨hb, hfree⟩
    rcases hrej with h | ⟨b, h⟩
    · exact h hb
    · rw [hfree] at h; cases h

theorem checkCollisions_rejected_unchanged_witness :
    GridWF rowOfFour ∧
    (∃ b, readCell rowOfFour (destination ⟨140, 180, "#00FF00", 0, -10⟩).1
      (destination ⟨140, 180, "#00FF00", 0, -10⟩).2 = some (some b)) ∧
    destination ⟨140, 180, "#00FF00", 0, -10⟩ =
      (jsRound (((180 : ℚ) - 20) / 40), jsRound (((140 : ℚ) - 20) / 40)) ∧
    checkCollisions ⟨0, rowOfFour, shooter0, some ⟨140, 180, "#00FF00", 0, -10⟩⟩ =
      some ⟨0, rowOfFour, shooter0, some ⟨140, 180, "#00FF00", 0, -10⟩⟩ :=
  ⟨by decide, ⟨mkBall "#FF0000" 4 3, by with_unfolding_all decide⟩,
    checkCollisions_rejected_unchanged
      ⟨0, rowOfFour, shooter0, some ⟨140, 180, "#00FF00", 0, -10⟩⟩ ⟨140, 180, "#00FF00", 0, -10⟩
      (by decide) rfl (Or.inr ⟨mkBall "#FF0000" 4 3, by with_unfolding_all decide⟩)⟩

/-- C5 amended: while a projectile is live, a click is rejected by the click handler,
the only caller of `shootBall`: its guard skips `shootBall`, so the state, and with it
the grid, the score, the loaded colour and the live projectile's position, velocity and
colour, is unchanged. -/
theorem onClick_live_unchanged (s : Game) (r : Rand) (a : ActiveBall)
    (ha : s.activeBall = some a) :
    onClick s r = s ∧ (onClick s r).grid = s.grid ∧ (onClick s r).score = s.score ∧
      (onClick s r).activeBall = some a := by
  have h : onClick s r = s := by simp [onClick, ha]
  rw [h]
  exact ⟨rfl, rfl, rfl, ha⟩

theorem onClick_live_unchanged_witness :
    onClick ⟨0, emptyGrid, shooter0, some ⟨300, 700, "#FF0000", 0, -10⟩⟩ rand0 =
        ⟨0, emptyGrid, shooter0, some ⟨300, 700, "#FF0000", 0, -10⟩⟩ ∧
      (onClick ⟨0, emptyGrid, shooter0, some ⟨300, 700, "#FF0000", 0, -10⟩⟩ rand0).grid =
        emptyGrid ∧
      (onClick ⟨0, emptyGrid, shooter0, some ⟨300, 700, "#FF0000", 0, -10⟩⟩ rand0).score = 0 ∧
      (onClick ⟨0, emptyGrid, shooter0, some ⟨300, 700, "#FF0000", 0, -10⟩⟩ rand0).activeBall =
        some ⟨300, 700, "#FF0000", 0, -10⟩ :=
  onClick_live_unchanged ⟨0, emptyGrid, shooter0, some ⟨300, 700, "#FF0000", 0, -10⟩⟩ rand0
    ⟨300, 700, "#FF0000", 0, -10⟩ rfl

set_option maxRecDepth 100000 in
/-- C6 as stated fails: a projectile at `x = 20` moving right (`dx = 5`) over an empty
grid is still live after one `updateBall`, at `x = 25`, and its `dx` is still `5`,
not `-5`. -/
theorem reflection_prestep_counterexample :
    updateBall ⟨0, emptyGrid, shooter0, some ⟨20, 400, "#FF0000", 5, -10⟩⟩ =
        some ⟨0, emptyGrid, shooter0, some ⟨25, 390, "#FF0000", 5, -10⟩⟩ ∧
      (⟨20, 400, "#FF0000", 5, -10⟩ : ActiveBall).x = 20 ∧
      (⟨25, 390, "#FF0000", 5, -10⟩ : ActiveBall).dx ≠
        -(⟨20, 400, "#FF0000", 5, -10⟩ : ActiveBall).dx := by
  refine ⟨?_, rfl, ?_⟩
  · with_unfolding_all decide
  · norm_num

/-- C6 amended: for a live projectile that is still live after one `updateBall`, the
position is advanced by the velocity; if the advanced `x + dx` is `≤ 20` or `≥ 580`
the new `dx` is the negation of the old one, otherwise `dx` is kept; the new `dy` is
`-dy` if `y + dy ≤ 20` and `dy` otherwise, whatever happened to `dx`, and likewise
the new `dx` does not depend on the vertical reflection. -/
theorem reflection_after_move (s s' : Game) (a a' : ActiveBall)
    (ha : s.activeBall = some a) (hstep : updateBall s = some s')
    (hlive : s'.activeBall = some a') :
    a'.x = a.x + a.dx ∧ a'.y = a.y + a.dy ∧
    (a.x + a.dx ≤ 20 ∨ a.x + a.dx ≥ 580 → a'.dx = -a.dx) ∧
    (¬ (a.x + a.dx ≤ 20 ∨ a.x + a.dx ≥ 580) → a'.dx = a.dx) ∧
    (a.y + a.dy ≤ 20 → a'.dy = -a.dy) ∧
    (¬ a.y + a.dy ≤ 20 → a'.dy = a.dy) := by
  obtain ⟨_, rfl⟩ := updateBall_live ha hstep hlive
  refine ⟨rfl, rfl, ?_, ?_, ?_, ?_⟩
  · intro h; simp only [moved, if_pos h]
  · intro h; simp only [moved, if_neg h]
  · intro h; simp only [moved, if_pos h]
  · intro h; simp only [moved, if_neg h]

set_option maxRecDepth 100000 in
theorem reflection_after_move_witness :
    updateBall ⟨0, emptyGrid, shooter0, some ⟨25, 30, "#FF0000", -5, -10⟩⟩ =
      some ⟨0, emptyGrid, shooter0, some ⟨20, 20, "#FF0000", 5, 10⟩⟩ ∧
    ((20 : ℚ) = 25 + -5 ∧ (20 : ℚ) = 30 + -10 ∧
    ((25 : ℚ) + -5 ≤ 20 ∨ (25 : ℚ) + -5 ≥ 580 → (5 : ℚ) = - -5) ∧
    (¬ ((25 : ℚ) + -5 ≤ 20 ∨ (25 : ℚ) + -5 ≥ 580) → (5 : ℚ) = -5) ∧
    ((30 : ℚ) + -10 ≤ 20 → (10 : ℚ) = - -10) ∧
    (¬ (30 : ℚ) + -10 ≤ 20 → (10 : ℚ) = -10)) :=
  ⟨by with_unfolding_all decide,
    reflection_after_move ⟨0, emptyGrid, shooter0, some ⟨25, 30, "#FF0000", -5, -10⟩⟩
      ⟨0, emptyGrid, shooter0, some ⟨20, 20, "#FF0000", 5, 10⟩⟩ ⟨25, 30, "#FF0000", -5, -10⟩
      ⟨20, 20, "#FF0000", 5, 10⟩ rfl (by with_unfolding_all decide) rfl⟩

/-- Rounding half up picks a nearest integer. -/
theorem jsRound_nearest (t : ℚ) :
    |t - (jsRound t : ℚ)| ≤ 1 / 2 ∧ ∀ c : Int, (t - (jsRound t : ℚ)) ^ 2 ≤ (t - (c : ℚ)) ^ 2 := by
  have h1 : ((jsRound t : Int) : ℚ) ≤ t + 1 / 2 := Int.floor_le _
  have h2 : t + 1 / 2 < (jsRound t : ℚ) + 1 := Int.lt_floor_add_one _
  refine ⟨abs_le.mpr ⟨by linarith, by linarith⟩, ?_⟩
  intro c
  rcases lt_trichotomy c (jsRound t) with h | h | h
  · have hc : (c : ℚ) + 1 ≤ (jsRound t : ℚ) := by exact_mod_cast h
    nlinarith
  · rw [h]
  · have hc : (jsRound t : ℚ) + 1 ≤ (c : ℚ) := by exact_mod_cast h
    nlinarith

/-- C10: whenever `checkCollisions` commits a placement (a live projectile goes in and
none comes out), the destination `(newRow, newCol) = (round ((y-20)/40),
round ((x-20)/40))` is an in-bounds cell that was empty, its canonical centre is within
20 of the projectile centre in each coordinate, and no cell `(r, c)` has a canonical
centre closer to the projectile centre (exact arithmetic, halves rounded up). -/
theorem commit_snaps_to_nearest (s s' : Game) (a : ActiveBall) (ha : s.activeBall = some a)
    (hstep : checkCollisions s = some s') (hcommit : s'.activeBall = none) :
    destination a = (jsRound ((a.y - 20) / 40), jsRound ((a.x - 20) / 40)) ∧
    InBounds (destination a) ∧
    readCell s.grid (destination a).1 (destination a).2 = some none ∧
    |a.x - (((destination a).2 : ℚ) * 40 + 20)| ≤ 20 ∧
    |a.y - (((destination a).1 : ℚ) * 40 + 20)| ≤ 20 ∧
    ∀ r c : Int,
      (a.x - (((destination a).2 : ℚ) * 40 + 20)) ^ 2 +
          (a.y - (((destination a).1 : ℚ) * 40 + 20)) ^ 2 ≤
        (a.x - ((c : ℚ) * 40 + 20)) ^ 2 + (a.y - ((r : ℚ) * 40 + 20)) ^ 2 := by
  have hdest : destination a = (jsRound ((a.y - 20) / 40), jsRound ((a.x - 20) / 40)) := by
    simp only [destination, BALL_RADIUS]; norm_num
  rcases checkCollisions_result ha hstep with e | ⟨hd, _, _⟩
  · rw [e, ha] at hcommit; cases hcommit
  refine ⟨hdest, hd.1, hd.2, ?_⟩
  rw [hdest]
  simp only
  obtain ⟨hx1, hx2⟩ := jsRound_nearest ((a.x - 20) / 40)
  obtain ⟨hy1, hy2⟩ := jsRound_nearest ((a.y - 20) / 40)
  have ex : ∀ c : ℚ, a.x - (c * 40 + 20) = 40 * ((a.x - 20) / 40 - c) := fun c => by ring
  have ey : ∀ c : ℚ, a.y - (c * 40 + 20) = 40 * ((a.y - 20) / 40 - c) := fun c => by ring
  refine ⟨?_, ?_, ?_⟩
  · rw [ex, abs_mul]; norm_num; linarith
  · rw [ey, abs_mul]; norm_num; linarith
  · intro r c
    rw [ex, ey, ex, ey]
    have := hx2 c
    have := hy2 r
    nlinarith

set_option maxRecDepth 100000 in
theorem commit_snaps_to_nearest_witness :
    checkCollisions ⟨0, scenarioAGrid, shooter0, some ⟨135, 185, "#FF0000", 0, -10⟩⟩ =
      some ⟨40, emptyGrid, shooter0, none⟩ ∧
    (destination ⟨135, 185, "#FF0000", 0, -10⟩ =
      (jsRound (((185 : ℚ) - 20) / 40), jsRound (((135 : ℚ) - 20) / 40)) ∧
    InBounds (destination ⟨135, 185, "#FF0000", 0, -10⟩) ∧
    readCell scenarioAGrid (destination ⟨135, 185, "#FF0000", 0, -10⟩).1
      (destination ⟨135, 185, "#FF0000", 0, -10⟩).2 = some none ∧
    |(135 : ℚ) - (((destination ⟨135, 185, "#FF0000", 0, -10⟩).2 : ℚ) * 40 + 20)| ≤ 20 ∧
    |(185 : ℚ) - (((destination ⟨135, 185, "#FF0000", 0, -10⟩).1 : ℚ) * 40 + 20)| ≤ 20 ∧
    ∀ r c : Int,
      ((135 : ℚ) - (((destination ⟨135, 185, "#FF0000", 0, -10⟩).2 : ℚ) * 40 + 20)) ^ 2 +
          ((185 : ℚ) - (((destination ⟨135, 185, "#FF0000", 0, -10⟩).1 : ℚ) * 40 + 20)) ^ 2 ≤
        ((135 : ℚ) - ((c : ℚ) * 40 + 20)) ^ 2 + ((185 : ℚ) - ((r : ℚ) * 40 + 20)) ^ 2) :=
  ⟨by with_unfolding_all decide,
    commit_snaps_to_nearest ⟨0, scenarioAGrid, shooter0, some ⟨135, 185, "#FF0000", 0, -10⟩⟩
      ⟨40, emptyGrid, shooter0, none⟩ ⟨135, 185, "#FF0000", 0, -10⟩ rfl
      (by with_unfolding_all decide) rfl⟩

/-- The four cells of Scenario A's row. -/
theorem four_nodup : ([(4, 0), (4, 1), (4, 2), (4, 3)] : List (Int × Int)).Nodup := by decide

set_option maxRecDepth 100000 in
/-- C7 as stated fails: with a further red ball at `(3,0)` above Scenario A's row,
placing red at `(4,3)` and running `checkMatches (4,3)` clears five cells and adds
50 to the score, not 40. -/
theorem scenarioA_counterexample :
    scenarioAExtraGrid[4]? =
        some [redBall 4 0, redBall 4 1, redBall 4 2, none, none, none, none, none, none, none] ∧
      ((writeCell scenarioAExtraGrid 4 3 (redBall 4 3)).bind fun g =>
          checkMatches ⟨0, g, shooter0, none⟩ 4 3) =
        some ⟨50, emptyGrid, shooter0, none⟩ := by
  constructor
  · rfl
  · with_unfolding_all decide

/-- C7 amended: on an 8 × 10 grid whose row 4 holds red balls at columns 0, 1, 2 and
nothing else, placing a red ball at `(4,3)` and running `checkMatches (4,3)` empties
`(4,0)`, `(4,1)`, `(4,2)`, `(4,3)` and raises the score by at least 40; if moreover no
cell of rows 3 and 5 in columns 0..3 is red, the score rises by exactly 40 and every
other cell is unchanged. -/
theorem scenarioA_clears_row (s : Game) (hg : GridWF s.grid)
    (h0 : HasColor s.grid "#FF0000" (4, 0)) (h1 : HasColor s.grid "#FF0000" (4, 1))
    (h2 : HasColor s.grid "#FF0000" (4, 2))
    (hrest : ∀ c : Int, 3 ≤ c → c < 10 → readCell s.grid 4 c = some none) :
    ∃ g' s', writeCell s.grid 4 3 (some (mkBall "#FF0000" 4 3)) = some g' ∧
      checkMatches { s with grid := g' } 4 3 = some s' ∧
      readCell s'.grid 4 0 = some none ∧ readCell s'.grid 4 1 = some none ∧
      readCell s'.grid 4 2 = some none ∧ readCell s'.grid 4 3 = some none ∧
      s.score + 40 ≤ s'.score ∧
      ((∀ c : Int, 0 ≤ c → c ≤ 3 →
          ¬ HasColor s.grid "#FF0000" (3, c) ∧ ¬ HasColor s.grid "#FF0000" (5, c)) →
        s'.score = s.score + 40 ∧
        ∀ r c : Int, (r, c) ∉ ([(4, 0), (4, 1), (4, 2), (4, 3)] : List (Int × Int)) →
          readCell s'.grid r c = readCell s.grid r c) := by
  obtain ⟨g', hw, hg', hread⟩ := @writeCell_wf s.grid hg 4 3 (by decide) (some (mkBall "#FF0000" 4 3))
  have hcell : readCell ({ s with grid := g' } : Game).grid 4 3 =
      some (some (mkBall "#FF0000" 4 3)) := by
    simp [hread]
  have keep : ∀ r c : Int, (r, c) ≠ (4, 3) → readCell g' r c = readCell s.grid r c := by
    intro r c hne
    rw [hread, if_neg hne]
  have c0 : HasColor g' "#FF0000" (4, 0) := by
    obtain ⟨b, hb, hc⟩ := h0
    exact ⟨b, by rw [keep _ _ (by decide)]; exact hb, hc⟩
  have c1 : HasColor g' "#FF0000" (4, 1) := by
    obtain ⟨b, hb, hc⟩ := h1
    exact ⟨b, by rw [keep _ _ (by decide)]; exact hb, hc⟩
  have c2 : HasColor g' "#FF0000" (4, 2) := by
    obtain ⟨b, hb, hc⟩ := h2
    exact ⟨b, by rw [keep _ _ (by decide)]; exact hb, hc⟩
  have c3 : HasColor g' "#FF0000" (4, 3) := ⟨_, hcell, rfl⟩
  obtain ⟨m, _, hnd, hspec, hbig, _⟩ := checkMatches_spec (s := { s with grid := g' }) hg' hcell
  have hspec' : ∀ p, p ∈ m ↔ Joined g' "#FF0000" (4, 3) p := hspec
  have j3 : Joined g' "#FF0000" (4, 3) (4, 3) := Joined.refl _ ⟨by decide, c3⟩
  have j2 : Joined g' "#FF0000" (4, 3) (4, 2) :=
    Joined.step _ _ _ j3 (Or.inr (Or.inr (Or.inl rfl))) ⟨by decide, c2⟩
  have j1 : Joined g' "#FF0000" (4, 3) (4, 1) :=
    Joined.step _ _ _ j2 (Or.inr (Or.inr (Or.inl rfl))) ⟨by decide, c1⟩
  have j0 : Joined g' "#FF0000" (4, 3) (4, 0) :=
    Joined.step _ _ _ j1 (Or.inr (Or.inr (Or.inl rfl))) ⟨by decide, c0⟩
  have m0 := (hspec' _).mpr j0
  have m1 := (hspec' _).mpr j1
  have m2 := (hspec' _).mpr j2
  have m3 := (hspec' _).mpr j3
  have hsub : ([(4, 0), (4, 1), (4, 2), (4, 3)] : List (Int × Int)) ⊆ m := by
    intro p hp
    simp only [List.mem_cons, List.mem_singleton, List.not_mem_nil, or_false] at hp
    rcases hp with rfl | rfl | rfl | rfl <;> assumption
  have hlen : 4 ≤ m.length := (List.subperm_of_subset four_nodup hsub).length_le
  obtain ⟨s', hs', _, hscore, _, _, hrd⟩ := hbig (by omega)
  have hscore' : s'.score = s.score + 10 * (m.length : Int) := hscore
  have hrd' : ∀ r c, readCell s'.grid r c = if (r, c) ∈ m then some none else readCell g' r c :=
    hrd
  refine ⟨g', s', hw, hs', ?_, ?_, ?_, ?_, ?_, ?_⟩
  · rw [hrd', if_pos m0]
  · rw [hrd', if_pos m1]
  · rw [hrd', if_pos m2]
  · rw [hrd', if_pos m3]
  · rw [hscore']; omega
  · intro hno
    have hclosed : ∀ p, Joined g' "#FF0000" (4, 3) p →
        p ∈ ([(4, 0), (4, 1), (4, 2), (4, 3)] : List (Int × Int)) := by
      intro p hj
      induction hj with
      | refl _ => simp
      | step q r _ hadj hgood ih =>
        have hr3 : ∀ c : Int, 0 ≤ c → c ≤ 3 → r ≠ (3, c) := by
          rintro c hc0 hc3 rfl
          obtain ⟨b, hb, hcol⟩ := hgood.2
          simp only at hb
          rw [keep _ _ (by intro h; injection h with h _; omega)] at hb
          exact (hno c hc0 hc3).1 ⟨b, hb, hcol⟩
        have hr5 : ∀ c : Int, 0 ≤ c → c ≤ 3 → r ≠ (5, c) := by
          rintro c hc0 hc3 rfl
          obtain ⟨b, hb, hcol⟩ := hgood.2
          simp only at hb
          rw [keep _ _ (by intro h; injection h with h _; omega)] at hb
          exact (hno c hc0 hc3).2 ⟨b, hb, hcol⟩
        have hr4 : r ≠ (4, 4) := by
          rintro rfl
          obtain ⟨b, hb, _⟩ := hgood.2
          simp only at hb
          rw [keep _ _ (by decide), hrest 4 (by decide) (by decide)] at hb
          cases hb
        have hrm : r ≠ (4, -1) := by
          rintro rfl
          exact absurd hgood.1 (by decide)
        simp only [List.mem_cons, List.mem_singleton, List.not_mem_nil, or_false] at ih ⊢
        rcases ih with rfl | rfl | rfl | rfl <;> rcases hadj with e | e | e | e <;>
          simp only [] at e <;> norm_num at e <;>
          first
            | exact absurd e (hr3 _ (by decide) (by decide))
            | exact absurd e (hr5 _ (by decide) (by decide))
            | exact absurd e hr4
            | exact absurd e hrm
            | (subst e; simp)
    have hsub' : m ⊆ ([(4, 0), (4, 1), (4, 2), (4, 3)] : List (Int × Int)) :=
      fun p hp => hclosed p ((hspec' p).mp hp)
    have hlen' : m.length ≤ 4 := (List.subperm_of_subset hnd hsub').length_le
    refine ⟨by rw [hscore']; omega, ?_⟩
    intro r c hrc
    have hnm : (r, c) ∉ m := fun h => hrc (hsub' h)
    rw [hrd', if_neg hnm]
    apply keep
    intro h
    apply hrc
    rw [h]
    simp

theorem scenarioA_clears_row_witness :
    GridWF scenarioAGrid ∧ HasColor scenarioAGrid "#FF0000" (4, 0) ∧
    HasColor scenarioAGrid "#FF0000" (4, 1) ∧ HasColor scenarioAGrid "#FF0000" (4, 2) ∧
    ∃ g' s', writeCell scenarioAGrid 4 3 (some (mkBall "#FF0000" 4 3)) = some g' ∧
      checkMatches ⟨0, g', shooter0, none⟩ 4 3 = some s' ∧
      readCell s'.grid 4 0 = some none ∧ readCell s'.grid 4 1 = some none ∧
      readCell s'.grid 4 2 = some none ∧ readCell s'.grid 4 3 = some none ∧
      (0 : Int) + 40 ≤ s'.score ∧
      ((∀ c : Int, 0 ≤ c → c ≤ 3 →
          ¬ HasColor scenarioAGrid "#FF0000" (3, c) ∧ ¬ HasColor scenarioAGrid "#FF0000" (5, c)) →
        s'.score = 0 + 40 ∧
        ∀ r c : Int, (r, c) ∉ ([(4, 0), (4, 1), (4, 2), (4, 3)] : List (Int × Int)) →
          readCell s'.grid r c = readCell scenarioAGrid r c) :=
  ⟨by decide, ⟨mkBall "#FF0000" 4 0, rfl, rfl⟩, ⟨mkBall "#FF0000" 4 1, rfl, rfl⟩,
    ⟨mkBall "#FF0000" 4 2, rfl, rfl⟩,
    scenarioA_clears_row ⟨0, scenarioAGrid, shooter0, none⟩ (by decide)
      ⟨mkBall "#FF0000" 4 0, rfl, rfl⟩ ⟨mkBall "#FF0000" 4 1, rfl, rfl⟩
      ⟨mkBall "#FF0000" 4 2, rfl, rfl⟩
      (fun c h3 h10 => by interval_cases c <;> rfl)⟩

/-- One frame of Scenario B: with no ball near the line `x = 300`, the projectile at
height `scenarioBY k` moves to height `scenarioBY (k + 1)` and stays live. -/
theorem scenarioB_step (s : Game) (hg : GridWF s.grid) (color : Color)
    (hclear : ∀ (row col : Int) (b : Ball), readCell s.grid row col = some (some b) →
      ∀ y : ℚ, 20 ≤ y → (40 : ℚ) * 40 ≤ (300 - b.x) * (300 - b.x) + (y - b.y) * (y - b.y))
    (k : Nat) :
    updateBall { s with activeBall := some (scenarioBBall color k) } =
      some { s with activeBall := some (scenarioBBall color (k + 1)) } := by
  have hy : ∀ n : Nat, (20 : ℚ) ≤ scenarioBY n := by
    intro n
    unfold scenarioBY
    split_ifs with h
    · have : (n : ℚ) ≤ 72 := by exact_mod_cast h
      linarith
    · have : (72 : ℚ) ≤ n := by exact_mod_cast (by omega : 72 ≤ n)
      linarith
  have hmoved : moved (scenarioBBall color k) = scenarioBBall color (k + 1) := by
    unfold scenarioBBall
    have hk : ((k + 1 : Nat) : ℚ) = (k : ℚ) + 1 := by push_cast; ring
    rcases lt_trichotomy k 71 with h | h | h
    · have h1 : k < 72 := by omega
      have h2 : k + 1 < 72 := by omega
      have h3 : k ≤ 72 := by omega
      have h4 : k + 1 ≤ 72 := by omega
      have hq : (k : ℚ) + 1 < 72 := by exact_mod_cast h2
      simp only [moved, scenarioBY, h1, h2, h3, h4, if_true, hk]
      have hn : ¬ (740 - 10 * (k : ℚ) + -10 ≤ 20) := by
        intro hle; linarith
      rw [if_neg hn]
      norm_num
      ring
    · subst h
      simp only [moved, scenarioBY]
      norm_num
    · have h1 : ¬ k < 72 := by omega
      have h2 : ¬ k + 1 < 72 := by omega
      have h4 : ¬ k + 1 ≤ 72 := by omega
      have hq : (72 : ℚ) ≤ k := by exact_mod_cast (by omega : 72 ≤ k)
      simp only [moved, scenarioBY, h1, h2, h4, if_false, hk]
      by_cases h3 : k ≤ 72
      · have h72 : k = 72 := by omega
        subst h72
        norm_num
      · rw [if_neg h3]
        have hn : ¬ (20 + 10 * ((k : ℚ) - 72) + 10 ≤ 20) := by
          intro hle; linarith
        rw [if_neg hn]
        norm_num
        ring
  rw [updateBall_some _ _ rfl, hmoved]
  refine checkCollisions_miss (s := { s with activeBall := some (scenarioBBall color (k + 1)) })
    hg rfl (Or.inr ?_)
  rintro p _ ⟨b, hb, hnear⟩
  have := hclear _ _ b hb (scenarioBY (k + 1)) (hy (k + 1))
  simp only [Near, BALL_RADIUS, scenarioBBall] at hnear
  norm_num at hnear this
  linarith

theorem scenarioB_ticks (s : Game) (hg : GridWF s.grid) (color : Color)
    (hclear : ∀ (row col : Int) (b : Ball), readCell s.grid row col = some (some b) →
      ∀ y : ℚ, 20 ≤ y → (40 : ℚ) * 40 ≤ (300 - b.x) * (300 - b.x) + (y - b.y) * (y - b.y)) :
    ∀ n k : Nat,
      ticks n { s with activeBall := some (scenarioBBall color k) } =
        some { s with activeBall := some (scenarioBBall color (k + n)) } := by
  intro n
  induction n with
  | zero => intro k; rfl
  | succ n ih =>
    intro k
    rw [ticks, scenarioB_step s hg color hclear k, Option.some_bind, ih (k + 1)]
    have : k + 1 + n = k + (n + 1) := by omega
    rw [this]

/-- C9: a projectile shot from the shooter at `(300, 740)` with the angle straight up
(`cos = 0`, `sin = -1`, speed 10) starts with velocity `(0, -10)`; on an 8 × 10 grid
with no ball within distance 40 of the line `x = 300`, `y ≥ 20`, after `n` frames it
is live at `(300, scenarioBY n)` with `dy = -10` before frame 72 and `dy = +10` from
frame 72 on, the grid and score untouched; its height is 20 at frame 72 and strictly
increases on every later frame. -/
theorem scenarioB_bounce (s0 : Game) (r : Rand) (hg : GridWF s0.grid)
    (hx : s0.shooter.x = 300) (hy : s0.shooter.y = 740) (hang : s0.shooter.angle = ⟨0, -1⟩)
    (hclear : ∀ (row col : Int) (b : Ball), readCell s0.grid row col = some (some b) →
      ∀ y : ℚ, 20 ≤ y → (40 : ℚ) * 40 ≤ (300 - b.x) * (300 - b.x) + (y - b.y) * (y - b.y)) :
    (shootBall s0 r).activeBall = some ⟨300, 740, s0.shooter.currentBall, 0, -10⟩ ∧
    (∀ n : Nat, ∃ sn, ticks n (shootBall s0 r) = some sn ∧ sn.grid = s0.grid ∧
      sn.score = s0.score ∧
      sn.activeBall =
        some ⟨300, scenarioBY n, s0.shooter.currentBall, 0, if n < 72 then -10 else 10⟩ ∧
      sn.shooter = (shootBall s0 r).shooter) ∧
    scenarioBY 72 = 20 ∧
    (∀ n : Nat, 72 ≤ n → scenarioBY n < scenarioBY (n + 1)) := by
  have hshot : shootBall s0 r =
      { (shootBall s0 r) with activeBall := some (scenarioBBall s0.shooter.currentBall 0) } := by
    simp only [shootBall, hx, hy, hang, scenarioBBall, scenarioBY]
    norm_num
  refine ⟨?_, ?_, ?_, ?_⟩
  · simp only [shootBall, hx, hy, hang]
    norm_num
  · intro n
    have h := scenarioB_ticks (shootBall s0 r) hg s0.shooter.currentBall hclear n 0
    rw [← hshot, Nat.zero_add] at h
    exact ⟨_, h, rfl, rfl, rfl, rfl⟩
  · simp only [scenarioBY]; norm_num
  · intro n hn
    have h1 : ¬ n + 1 ≤ 72 := by omega
    have hq : (72 : ℚ) ≤ n := by exact_mod_cast hn
    simp only [scenarioBY, h1, if_false]
    split_ifs
    · push_cast; linarith
    · push_cast; linarith

/-- Every ball of `rowOfFour` lies at least 40 to the left of the line `x = 300`. -/
theorem rowOfFour_clear (row col : Int) (b : Ball)
    (h : readCell rowOfFour row col = some (some b)) (y : ℚ) :
    (40 : ℚ) * 40 ≤ (300 - b.x) * (300 - b.x) + (y - b.y) * (y - b.y) := by
  have hb := (inBounds_iff _).mp (readCell_some_inBounds (by decide) h)
  obtain ⟨h1, h2, h3, h4⟩ := hb
  simp only at h1 h2 h3 h4
  have hx : b.x ≤ 140 := by
    interval_cases row <;> interval_cases col <;>
      first
        | (have hc : some (some b) = some none := h.symm.trans rfl
           cases hc)
        | (have hc : some (some b) = some (some (mkBall "#FF0000" 4 0)) := h.symm.trans rfl
           cases hc; simp only [mkBall, BALL_RADIUS]; norm_num)
        | (have hc : some (some b) = some (some (mkBall "#FF0000" 4 1)) := h.symm.trans rfl
           cases hc; simp only [mkBall, BALL_RADIUS]; norm_num)
        | (have hc : some (some b) = some (some (mkBall "#FF0000" 4 2)) := h.symm.trans rfl
           cases hc; simp only [mkBall, BALL_RADIUS]; norm_num)
        | (have hc : some (some b) = some (some (mkBall "#FF0000" 4 3)) := h.symm.trans rfl
           cases hc; simp only [mkBall, BALL_RADIUS]; norm_num)
  nlinarith [mul_self_nonneg (y - b.y)]

theorem scenarioB_bounce_witness :
    GridWF rowOfFour ∧ shooter0.x = 300 ∧ shooter0.y = 740 ∧
    ((shootBall ⟨0, rowOfFour, shooter0, none⟩ rand0).activeBall =
        some ⟨300, 740, "#FF0000", 0, -10⟩ ∧
    (∀ n : Nat, ∃ sn, ticks n (shootBall ⟨0, rowOfFour, shooter0, none⟩ rand0) = some sn ∧
      sn.grid = rowOfFour ∧ sn.score = 0 ∧
      sn.activeBall = some ⟨300, scenarioBY n, "#FF0000", 0, if n < 72 then -10 else 10⟩ ∧
      sn.shooter = (shootBall ⟨0, rowOfFour, shooter0, none⟩ rand0).shooter) ∧
    scenarioBY 72 = 20 ∧
    (∀ n : Nat, 72 ≤ n → scenarioBY n < scenarioBY (n + 1))) :=
  ⟨by decide, by norm_num [shooter0, CANVAS_WIDTH],
    by norm_num [shooter0, CANVAS_HEIGHT, SHOOTER_HEIGHT],
    scenarioB_bounce ⟨0, rowOfFour, shooter0, none⟩ rand0 (by decide)
      (by norm_num [shooter0, CANVAS_WIDTH])
      (by norm_num [shooter0, CANVAS_HEIGHT, SHOOTER_HEIGHT]) rfl
      (fun row col b h y _ => rowOfFour_clear row col b h y)⟩

/-- Method `shootBall` itself has no guard: called on any state it installs a fresh projectile
at the shooter. -/
theorem shootBall_replaces (s : Game) (r : Rand) :
    (shootBall s r).activeBall =
      some ⟨s.shooter.x, s.shooter.y, s.shooter.currentBall, s.shooter.angle.cos * 10,
        s.shooter.angle.sin * 10⟩ := rfl

/-- One more unit of fuel does not change a result already obtained. -/
theorem findMatchesFuel_succ_fuel (g : Grid) (K : Color) :
    ∀ (fuel : Nat) (row col : Int) (acc m : List (Int × Int)),
      findMatchesFuel g fuel row col K acc = some m →
      findMatchesFuel g (fuel + 1) row col K acc = some m := by
  intro fuel
  induction fuel with
  | zero => intro row col acc m h; simp [findMatchesFuel] at h
  | succ fuel ih =>
    intro row col acc m h
    rw [findMatchesFuel_succ] at h ⊢
    by_cases hmem : (row, col) ∈ acc
    · rw [if_pos hmem] at h ⊢; exact h
    rw [if_neg hmem] at h ⊢
    by_cases hout : row < 0 ∨ row ≥ GRID_ROWS ∨ col < 0 ∨ col ≥ GRID_COLS
    · rw [if_pos hout] at h ⊢; exact h
    rw [if_neg hout] at h ⊢
    cases hrc : readCell g row col with
    | none => rw [hrc] at h; simp at h
    | some cell =>
      rw [hrc] at h
      cases cell with
      | none => exact h
      | some ball =>
        simp only at h ⊢
        by_cases hcol : ball.color ≠ K
        · rw [if_pos hcol] at h ⊢; exact h
        rw [if_neg hcol] at h ⊢
        cases h1 : findMatchesFuel g fuel (row - 1) col K (acc ++ [(row, col)]) with
        | none => rw [h1] at h; simp at h
        | some m1 =>
        rw [h1] at h; simp only [Option.some_bind] at h
        cases h2 : findMatchesFuel g fuel (row + 1) col K m1 with
        | none => rw [h2] at h; simp at h
        | some m2 =>
        rw [h2] at h; simp only [Option.some_bind] at h
        cases h3 : findMatchesFuel g fuel row (col - 1) K m2 with
        | none => rw [h3] at h; simp at h
        | some m3 =>
        rw [h3] at h; simp only [Option.some_bind] at h
        rw [ih _ _ _ _ h1, Option.some_bind, ih _ _ _ _ h2, Option.some_bind, ih _ _ _ _ h3,
          Option.some_bind, ih _ _ _ _ h]

theorem findMatchesFuel_add_fuel (g : Grid) (K : Color) (fuel : Nat) (row col : Int)
    (acc m : List (Int × Int)) (h : findMatchesFuel g fuel row col K acc = some m) :
    ∀ k : Nat, findMatchesFuel g (fuel + k) row col K acc = some m := by
  intro k
  induction k with
  | zero => exact h
  | succ k ih => exact findMatchesFuel_succ_fuel g K _ _ _ _ _ ih

theorem freeCells_card_le (acc : List (Int × Int)) : (freeCells acc).card ≤ 80 := by
  have := freeCells_mono (a := []) (b := acc) (fun p hp => by cases hp)
  rw [freeCells_nil] at this
  exact this

theorem length_le_of_inBounds {m : List (Int × Int)} (hnd : m.Nodup)
    (hin : ∀ p ∈ m, InBounds p) : m.length ≤ 80 := by
  rw [← List.toFinset_card_of_nodup hnd]
  have hsub : m.toFinset ⊆ Finset.Icc (0 : Int) 7 ×ˢ Finset.Icc (0 : Int) 9 := by
    intro p hp
    have hb := (inBounds_iff p).mp (hin p (List.mem_toFinset.mp hp))
    simp only [Finset.mem_product, Finset.mem_Icc]
    omega
  have := Finset.card_le_card hsub
  simpa using this

/-- C13: on an 8 × 10 grid, for every start coordinate (in or out of bounds), every
colour and every initial visited set, `findMatches` returns, and any larger recursion
allowance gives the same result; started from the empty set it returns a
duplicate-free set (each coordinate added at most once) of at most 80 coordinates,
all of them in bounds. -/
theorem findMatches_terminates (g : Grid) (hg : GridWF g) (row col : Int) (K : Color)
    (acc : List (Int × Int)) :
    (∃ m, findMatches g row col K acc = some m ∧
      ∀ fuel : Nat, GRID_ROWS * GRID_COLS + 1 ≤ fuel →
        findMatchesFuel g fuel row col K acc = some m) ∧
    (∃ m, findMatches g row col K [] = some m ∧ m.Nodup ∧ m.length ≤ 80 ∧
      ∀ p ∈ m, InBounds p) := by
  constructor
  · obtain ⟨m, hm⟩ := findMatchesFuel_isSome hg K (GRID_ROWS * GRID_COLS + 1) row col acc
      (by have := freeCells_card_le acc; simp [GRID_ROWS, GRID_COLS]; omega)
    refine ⟨m, hm, ?_⟩
    intro fuel hfuel
    obtain ⟨k, rfl⟩ := Nat.exists_eq_add_of_le hfuel
    exact findMatchesFuel_add_fuel g K _ _ _ _ _ hm k
  · obtain ⟨m, hm, hnd, hspec⟩ := findMatches_spec hg K row col
    have hin : ∀ p ∈ m, InBounds p := fun p hp => ((hspec p).mp hp).good_right.1
    exact ⟨m, hm, hnd, length_le_of_inBounds hnd hin, hin⟩

theorem findMatches_terminates_witness :
    GridWF rowOfFour ∧
    ((∃ m, findMatches rowOfFour (-1) 12 "#FF0000" [(4, 3), (9, 9)] = some m ∧
      ∀ fuel : Nat, GRID_ROWS * GRID_COLS + 1 ≤ fuel →
        findMatchesFuel rowOfFour fuel (-1) 12 "#FF0000" [(4, 3), (9, 9)] = some m) ∧
    (∃ m, findMatches rowOfFour (-1) 12 "#FF0000" [] = some m ∧ m.Nodup ∧ m.length ≤ 80 ∧
      ∀ p ∈ m, InBounds p)) :=
  ⟨by decide, findMatches_terminates rowOfFour (by decide) (-1) 12 "#FF0000" [(4, 3), (9, 9)]⟩

/-- C14: for a live projectile at `(x, y)` with velocity `(dx, dy)` that is still live
after `updateBall`, the new position is `(x + dx, y + dy)`, the new `dx` is `-dx` if
`x + dx ≤ 20` or `x + dx ≥ 580` and `dx` otherwise, the new `dy` is `-dy` if
`y + dy ≤ 20` and `dy` otherwise (there is no bottom wall), and `|dx|`, `|dy|` and
`dx² + dy²` are preserved. -/
theorem updateBall_velocity (s s' : Game) (a a' : ActiveBall) (ha : s.activeBall = some a)
    (hstep : updateBall s = some s') (hlive : s'.activeBall = some a') :
    a'.x = a.x + a.dx ∧ a'.y = a.y + a.dy ∧
    a'.dx = (if a.x + a.dx ≤ 20 ∨ a.x + a.dx ≥ 580 then -a.dx else a.dx) ∧
    a'.dy = (if a.y + a.dy ≤ 20 then -a.dy else a.dy) ∧
    a'.color = a.color ∧
    |a'.dx| = |a.dx| ∧ |a'.dy| = |a.dy| ∧
    a'.dx ^ 2 + a'.dy ^ 2 = a.dx ^ 2 + a.dy ^ 2 := by
  obtain ⟨_, rfl⟩ := updateBall_live ha hstep hlive
  have hx : |(moved a).dx| = |a.dx| := by
    simp only [moved]; split_ifs <;> simp
  have hy : |(moved a).dy| = |a.dy| := by
    simp only [moved]; split_ifs <;> simp
  refine ⟨rfl, rfl, rfl, rfl, rfl, hx, hy, ?_⟩
  rw [← sq_abs (moved a).dx, ← sq_abs (moved a).dy, hx, hy, sq_abs, sq_abs]

set_option maxRecDepth 100000 in
theorem updateBall_velocity_witness :
    updateBall ⟨0, emptyGrid, shooter0, some ⟨575, 25, "#FF0000", 6, -8⟩⟩ =
      some ⟨0, emptyGrid, shooter0, some ⟨581, 17, "#FF0000", -6, 8⟩⟩ ∧
    ((581 : ℚ) = 575 + 6 ∧ (17 : ℚ) = 25 + -8 ∧
    (-6 : ℚ) = (if (575 : ℚ) + 6 ≤ 20 ∨ (575 : ℚ) + 6 ≥ 580 then -6 else 6) ∧
    (8 : ℚ) = (if (25 : ℚ) + -8 ≤ 20 then - -8 else -8) ∧
    "#FF0000" = "#FF0000" ∧
    |(-6 : ℚ)| = |(6 : ℚ)| ∧ |(8 : ℚ)| = |(-8 : ℚ)| ∧
    (-6 : ℚ) ^ 2 + (8 : ℚ) ^ 2 = (6 : ℚ) ^ 2 + (-8 : ℚ) ^ 2) :=
  ⟨by with_unfolding_all decide,
    updateBall_velocity ⟨0, emptyGrid, shooter0, some ⟨575, 25, "#FF0000", 6, -8⟩⟩
      ⟨0, emptyGrid, shooter0, some ⟨581, 17, "#FF0000", -6, 8⟩⟩ ⟨575, 25, "#FF0000", 6, -8⟩
      ⟨581, 17, "#FF0000", -6, 8⟩ rfl (by with_unfolding_all decide) rfl⟩

theorem ticks_none (n : Nat) (s : Game) (h : s.activeBall = none) : ticks n s = some s := by
  induction n with
  | zero => rfl
  | succ n ih =>
    have hu : updateBall s = some s := by simp [updateBall, h]
    rw [ticks, hu, Option.some_bind, ih]

/-- A tick over a grid without balls only moves the projectile. -/
theorem updateBall_noBalls {s : Game} (hg : GridWF s.grid)
    (hempty : ∀ (row col : Int) (b : Ball), readCell s.grid row col ≠ some (some b))
    (a : ActiveBall) (ha : s.activeBall = some a) :
    updateBall s = some { s with activeBall := some (moved a) } := by
  rw [updateBall_some s a ha]
  refine checkCollisions_miss (s := { s with activeBall := some (moved a) }) hg rfl (Or.inr ?_)
  rintro p _ ⟨b, hb, _⟩
  exact hempty _ _ b hb

theorem ticks_noBalls (n : Nat) :
    ∀ (s : Game), GridWF s.grid →
      (∀ (row col : Int) (b : Ball), readCell s.grid row col ≠ some (some b)) →
      ∀ a : ActiveBall, s.activeBall = some a →
        ticks n s = some { s with activeBall := some (moved^[n] a) } := by
  induction n with
  | zero =>
    intro s _ _ a ha
    simp only [ticks, Function.iterate_zero, id_eq]
    rw [← ha]
  | succ n ih =>
    intro s hg hempty a ha
    rw [ticks, updateBall_noBalls hg hempty a ha, Option.some_bind,
      ih { s with activeBall := some (moved a) } hg hempty (moved a) rfl]
    rfl

/-- C15: with a live projectile, a tick of `updateBall` that ends with no projectile
is a tick that committed a placement: the destination of the moved projectile was in
bounds and empty, an occupied cell passed the collision test, and the result is that
of storing the ball there and running `checkMatches`.  On an 8 × 10 grid with no
occupied cell, after any number of ticks the projectile is still live (it is the
`n`-fold moved projectile) and the grid and score are as they were, whatever the
projectile's position and velocity. -/
theorem no_despawn_without_settling (s : Game) (a : ActiveBall) (ha : s.activeBall = some a) :
    (∀ s', updateBall s = some s' → s'.activeBall = none →
      DestFree s.grid (moved a) ∧
      (∃ p : Nat × Nat, (p.1 < 8 ∧ p.2 < 10) ∧ Hits s.grid (moved a) p) ∧
      placeAndMatch { s with activeBall := some (moved a) } (moved a) = some s') ∧
    (GridWF s.grid →
      (∀ (row col : Int) (b : Ball), readCell s.grid row col ≠ some (some b)) →
      ∀ n : Nat, ∃ s', ticks n s = some s' ∧ s'.grid = s.grid ∧ s'.score = s.score ∧
        s'.activeBall = some (moved^[n] a)) := by
  constructor
  · intro s' hstep hnone
    rw [updateBall_some s a ha] at hstep
    rcases checkCollisions_result (s := { s with activeBall := some (moved a) }) rfl hstep with
      e | ⟨hd, hh, hp⟩
    · rw [e] at hnone; cases hnone
    · exact ⟨hd, hh, hp⟩
  · intro hg hempty n
    exact ⟨_, ticks_noBalls n s hg hempty a ha, rfl, rfl, rfl⟩

set_option maxRecDepth 100000 in
theorem no_despawn_without_settling_witness :
    (updateBall ⟨0, scenarioAGrid, shooter0, some ⟨135, 195, "#FF0000", 0, -10⟩⟩ =
        some ⟨40, emptyGrid, shooter0, none⟩ ∧
      DestFree scenarioAGrid (moved ⟨135, 195, "#FF0000", 0, -10⟩) ∧
      (∃ p : Nat × Nat, (p.1 < 8 ∧ p.2 < 10) ∧
        Hits scenarioAGrid (moved ⟨135, 195, "#FF0000", 0, -10⟩) p) ∧
      placeAndMatch ⟨0, scenarioAGrid, shooter0, some (moved ⟨135, 195, "#FF0000", 0, -10⟩)⟩
        (moved ⟨135, 195, "#FF0000", 0, -10⟩) = some ⟨40, emptyGrid, shooter0, none⟩) ∧
    (GridWF emptyGrid ∧
      ∀ n : Nat, ∃ s',
        ticks n ⟨0, emptyGrid, shooter0, some ⟨300, 900, "#FF0000", 3, 10⟩⟩ = some s' ∧
        s'.grid = emptyGrid ∧ s'.score = 0 ∧
        s'.activeBall = some (moved^[n] ⟨300, 900, "#FF0000", 3, 10⟩)) :=
  ⟨⟨by with_unfolding_all decide,
      (no_despawn_without_settling
        ⟨0, scenarioAGrid, shooter0, some ⟨135, 195, "#FF0000", 0, -10⟩⟩
        ⟨135, 195, "#FF0000", 0, -10⟩ rfl).1 ⟨40, emptyGrid, shooter0, none⟩
        (by with_unfolding_all decide) rfl⟩,
    ⟨by decide,
      (no_despawn_without_settling ⟨0, emptyGrid, shooter0, some ⟨300, 900, "#FF0000", 3, 10⟩⟩
        ⟨300, 900, "#FF0000", 3, 10⟩ rfl).2 (by decide) readCell_emptyGrid⟩⟩

theorem contained_moved {a : ActiveBall} (h : Contained a) : Contained (moved a) := by
  obtain ⟨hdx, hdy, hx, hy⟩ := h
  have hdx' := abs_le.mp hdx
  have hdy' := abs_le.mp hdy
  refine ⟨?_, ?_, ?_, ?_⟩
  · simp only [moved]; split_ifs <;> simpa using hdx
  · simp only [moved]; split_ifs <;> simpa using hdy
  · simp only [moved]
    rcases hx with ⟨h1, h2⟩ | ⟨h1, h2, h3⟩ | ⟨h1, h2, h3⟩
    · by_cases hl : a.x + a.dx ≤ 20
      · rw [if_pos (Or.inl hl)]
        right; left
        exact ⟨hl, by linarith, by linarith⟩
      · by_cases hr : a.x + a.dx ≥ 580
        · rw [if_pos (Or.inr hr)]
          right; right
          exact ⟨hr, by linarith, by linarith⟩
        · rw [if_neg (by rintro (h | h); exact hl h; exact hr h)]
          left
          exact ⟨by linarith, by linarith⟩
    · have hn : ¬ (a.x + a.dx ≤ 20 ∨ a.x + a.dx ≥ 580) := by
        rintro (h | h) <;> linarith
      rw [if_neg hn]
      left
      exact ⟨h3, by linarith⟩
    · have hn : ¬ (a.x + a.dx ≤ 20 ∨ a.x + a.dx ≥ 580) := by
        rintro (h | h) <;> linarith
      rw [if_neg hn]
      left
      exact ⟨by linarith, h3⟩
  · simp only [moved]
    rcases hy with h1 | ⟨h1, h2, h3⟩
    · by_cases hl : a.y + a.dy ≤ 20
      · rw [if_pos hl]
        right
        exact ⟨hl, by linarith, by linarith⟩
      · rw [if_neg hl]
        left
        linarith
    · have hn : ¬ a.y + a.dy ≤ 20 := by linarith
      rw [if_neg hn]
      left
      exact h3

theorem contained_bounds {a : ActiveBall} (h : Contained a) :
    10 < a.x ∧ a.x < 590 ∧ 10 < a.y := by
  obtain ⟨hdx, hdy, hx, hy⟩ := h
  have hdx' := abs_le.mp hdx
  have hdy' := abs_le.mp hdy
  refine ⟨?_, ?_, ?_⟩
  · rcases hx with ⟨h1, h2⟩ | ⟨h1, h2, h3⟩ | ⟨h1, h2, h3⟩ <;> linarith
  · rcases hx with ⟨h1, h2⟩ | ⟨h1, h2, h3⟩ | ⟨h1, h2, h3⟩ <;> linarith
  · rcases hy with h1 | ⟨h1, h2, h3⟩ <;> linarith

theorem contained_ticks (n : Nat) :
    ∀ (s s' : Game) (a a' : ActiveBall), s.activeBall = some a → Contained a →
      ticks n s = some s' → s'.activeBall = some a' → Contained a' := by
  induction n with
  | zero =>
    intro s s' a a' ha hc ht hl
    simp only [ticks, Option.some.injEq] at ht
    subst ht
    rw [ha] at hl
    cases hl
    exact hc
  | succ n ih =>
    intro s s' a a' ha hc ht hl
    rw [ticks] at ht
    cases hu : updateBall s with
    | none => rw [hu] at ht; cases ht
    | some s1 =>
      rw [hu, Option.some_bind] at ht
      cases h1 : s1.activeBall with
      | none =>
        rw [ticks_none n s1 h1] at ht
        cases ht
        rw [h1] at hl
        cases hl
      | some a1 =>
        obtain ⟨_, rfl⟩ := updateBall_live ha hu h1
        exact ih s1 s' (moved a) a' h1 (contained_moved hc) ht hl

theorem destination_nonneg {a : ActiveBall} (hx : 10 < a.x) (hy : 10 < a.y) :
    0 ≤ (destination a).1 ∧ 0 ≤ (destination a).2 := by
  simp only [destination, jsRound, BALL_RADIUS]
  constructor
  · apply Int.floor_nonneg.mpr
    have : (a.y - 20) / (20 * 2) = (a.y - 20) / 40 := by norm_num
    rw [this]
    linarith
  · apply Int.floor_nonneg.mpr
    have : (a.x - 20) / (20 * 2) = (a.x - 20) / 40 := by norm_num
    rw [this]
    linarith

/-- C18: a projectile shot by `shootBall` from the shooter at `(300, 740)` with
`|dx| ≤ 10` and `|dy| ≤ 10` satisfies, after any number of `updateBall` ticks at
which it is still live, `10 < x < 590` and `y > 10`; hence the destination row and
column the resolver computes for it are not negative. -/
theorem projectile_containment (s0 : Game) (r : Rand) (n : Nat) (s' : Game) (a' : ActiveBall)
    (hx : s0.shooter.x = 300) (hy : s0.shooter.y = 740)
    (hdx : |s0.shooter.angle.cos * 10| ≤ 10) (hdy : |s0.shooter.angle.sin * 10| ≤ 10)
    (hticks : ticks n (shootBall s0 r) = some s') (hlive : s'.activeBall = some a') :
    10 < a'.x ∧ a'.x < 590 ∧ 10 < a'.y ∧
    0 ≤ (destination a').1 ∧ 0 ≤ (destination a').2 := by
  have hc0 : Contained ⟨s0.shooter.x, s0.shooter.y, s0.shooter.currentBall,
      s0.shooter.angle.cos * 10, s0.shooter.angle.sin * 10⟩ := by
    refine ⟨hdx, hdy, Or.inl ?_, Or.inl ?_⟩
    · simp only [hx]; norm_num
    · simp only [hy]; norm_num
  have hc := contained_ticks n (shootBall s0 r) s' _ a' (shootBall_replaces s0 r) hc0 hticks hlive
  obtain ⟨h1, h2, h3⟩ := contained_bounds hc
  exact ⟨h1, h2, h3, destination_nonneg h1 h3⟩

set_option maxRecDepth 100000 in
theorem projectile_containment_witness :
    ticks 2 (shootBall ⟨0, emptyGrid, shooter0, none⟩ rand0) =
      some ⟨0, emptyGrid, shooter0, some ⟨300, 720, "#FF0000", 0, -10⟩⟩ ∧
    ((10 : ℚ) < 300 ∧ (300 : ℚ) < 590 ∧ (10 : ℚ) < 720 ∧
      0 ≤ (destination ⟨300, 720, "#FF0000", 0, -10⟩).1 ∧
      0 ≤ (destination ⟨300, 720, "#FF0000", 0, -10⟩).2) :=
  ⟨by with_unfolding_all decide,
    projectile_containment ⟨0, emptyGrid, shooter0, none⟩ rand0 2
      ⟨0, emptyGrid, shooter0, some ⟨300, 720, "#FF0000", 0, -10⟩⟩
      ⟨300, 720, "#FF0000", 0, -10⟩
      (by norm_num [shooter0, CANVAS_WIDTH])
      (by norm_num [shooter0, CANVAS_HEIGHT, SHOOTER_HEIGHT])
      (by norm_num [shooter0]) (by norm_num [shooter0])
      (by with_unfolding_all decide) rfl⟩

/-- Under the canonical-position invariant the collision test against the stored
position is the test against the canonical centre of the cell. -/
theorem hits_iff_canonical {g : Grid} (hc : Canonical g) (a : ActiveBall) :
    (∃ p : Nat × Nat, (p.1 < 8 ∧ p.2 < 10) ∧ Hits g a p) ↔
      ∃ (r c : Int) (b : Ball), InBounds (r, c) ∧ readCell g r c = some (some b) ∧
        (a.x - ((c : ℚ) * 40 + 20)) ^ 2 + (a.y - ((r : ℚ) * 40 + 20)) ^ 2 < 40 ^ 2 := by
  constructor
  · rintro ⟨p, hp, b, hb, hnear⟩
    obtain ⟨hx, hy⟩ := hc _ _ b hb
    refine ⟨p.1, p.2, b, inBounds_of_scan hp, hb, ?_⟩
    simp only [Near, BALL_RADIUS] at hnear
    rw [← hx, ← hy]
    nlinarith
  · rintro ⟨r, c, b, hin, hb, hd⟩
    obtain ⟨hx, hy⟩ := hc _ _ b hb
    have hin' := (inBounds_iff _).mp hin
    obtain ⟨h1, h2, h3, h4⟩ := hin'
    simp only at h1 h2 h3 h4
    obtain ⟨rn, rfl⟩ := Int.eq_ofNat_of_zero_le h1
    obtain ⟨cn, rfl⟩ := Int.eq_ofNat_of_zero_le h3
    refine ⟨(rn, cn), ⟨by omega, by omega⟩, b, hb, ?_⟩
    simp only [Near, BALL_RADIUS]
    rw [hx, hy]
    nlinarith

/-- The destination is within 20 of the projectile centre in each coordinate. -/
theorem destination_close (a : ActiveBall) :
    |a.x - (((destination a).2 : ℚ) * 40 + 20)| ≤ 20 ∧
      |a.y - (((destination a).1 : ℚ) * 40 + 20)| ≤ 20 := by
  have hdest : destination a = (jsRound ((a.y - 20) / 40), jsRound ((a.x - 20) / 40)) := by
    simp only [destination, BALL_RADIUS]; norm_num
  rw [hdest]
  simp only
  obtain ⟨hx1, _⟩ := jsRound_nearest ((a.x - 20) / 40)
  obtain ⟨hy1, _⟩ := jsRound_nearest ((a.y - 20) / 40)
  have ex : ∀ c : ℚ, a.x - (c * 40 + 20) = 40 * ((a.x - 20) / 40 - c) := fun c => by ring
  have ey : ∀ c : ℚ, a.y - (c * 40 + 20) = 40 * ((a.y - 20) / 40 - c) := fun c => by ring
  constructor
  · rw [ex, abs_mul]; norm_num; linarith
  · rw [ey, abs_mul]; norm_num; linarith

/-- Two integers whose cell centres are both near the same coordinate differ by at
most one. -/
theorem index_close {t : ℚ} {c n : Int} (h1 : |t - ((n : ℚ) * 40 + 20)| ≤ 20)
    (h2 : (t - ((c : ℚ) * 40 + 20)) ^ 2 < 40 ^ 2) : |c - n| ≤ 1 := by
  have h1' := abs_le.mp h1
  have h2' : |t - ((c : ℚ) * 40 + 20)| < 40 := by
    apply abs_lt_of_sq_lt_sq
    · simpa using h2
    · norm_num
  have h2'' := abs_lt.mp h2'
  have hu : ((c - n : Int) : ℚ) < 2 := by push_cast; linarith
  have hl : (-2 : ℚ) < ((c - n : Int) : ℚ) := by push_cast; linarith
  have hu' : c - n < 2 := by exact_mod_cast hu
  have hl' : -2 < c - n := by exact_mod_cast hl
  rw [abs_le]
  constructor <;> omega

/-- C17: on a grid with canonical positions, whenever `checkCollisions` commits a
placement at the destination `(newRow, newCol)` there is an in-bounds cell `(r, c)`,
occupied before the placement and different from the destination, with
`|r - newRow| ≤ 1` and `|c - newCol| ≤ 1`: a new ball lands in the 8-neighbourhood of
an existing ball. -/
theorem placement_adjacent (s s' : Game) (a : ActiveBall) (hc : Canonical s.grid)
    (ha : s.activeBall = some a) (hstep : checkCollisions s = some s')
    (hcommit : s'.activeBall = none) :
    ∃ (r c : Int) (b : Ball), InBounds (r, c) ∧ readCell s.grid r c = some (some b) ∧
      (r, c) ≠ destination a ∧
      |r - (destination a).1| ≤ 1 ∧ |c - (destination a).2| ≤ 1 := by
  rcases checkCollisions_result ha hstep with e | ⟨hd, ⟨p, hp, b, hb, hnear⟩, _⟩
  · rw [e, ha] at hcommit; cases hcommit
  obtain ⟨hx, hy⟩ := hc _ _ b hb
  obtain ⟨dx, dy⟩ := destination_close a
  simp only [Near, BALL_RADIUS] at hnear
  rw [hx, hy] at hnear
  refine ⟨p.1, p.2, b, inBounds_of_scan hp, hb, ?_, ?_, ?_⟩
  · intro h
    have h2 := hd.2
    rw [← h] at h2
    simp only at h2
    rw [hb] at h2
    cases h2
  · apply index_close dy
    nlinarith [sq_nonneg (a.x - (((p.2 : Int) : ℚ) * 40 + 20))]
  · apply index_close dx
    nlinarith [sq_nonneg (a.y - (((p.1 : Int) : ℚ) * 40 + 20))]

theorem canonical_singleBallGrid : Canonical singleBallGrid := by
  intro row col b h
  have hb := (inBounds_iff _).mp (readCell_some_inBounds (by decide) h)
  obtain ⟨h1, h2, h3, h4⟩ := hb
  simp only at h1 h2 h3 h4
  interval_cases row <;> interval_cases col <;>
    first
      | (have hc : some (some b) = some none := h.symm.trans rfl
         cases hc)
      | (have hc : some (some b) = some (some (mkBall "#FF0000" 4 2)) := h.symm.trans rfl
         cases hc; simp only [mkBall, BALL_RADIUS]; constructor <;> norm_num)

set_option maxRecDepth 100000 in
theorem placement_adjacent_witness :
    Canonical singleBallGrid ∧
    checkCollisions ⟨0, singleBallGrid, shooter0, some ⟨121, 201, "#00FF00", 0, -10⟩⟩ =
      some ⟨0, diagonalGrid, shooter0, none⟩ ∧
    ∃ (r c : Int) (b : Ball), InBounds (r, c) ∧
      readCell singleBallGrid r c = some (some b) ∧
      (r, c) ≠ destination ⟨121, 201, "#00FF00", 0, -10⟩ ∧
      |r - (destination ⟨121, 201, "#00FF00", 0, -10⟩).1| ≤ 1 ∧
      |c - (destination ⟨121, 201, "#00FF00", 0, -10⟩).2| ≤ 1 :=
  ⟨canonical_singleBallGrid, by with_unfolding_all decide,
    placement_adjacent ⟨0, singleBallGrid, shooter0, some ⟨121, 201, "#00FF00", 0, -10⟩⟩
      ⟨0, diagonalGrid, shooter0, none⟩ ⟨121, 201, "#00FF00", 0, -10⟩
      canonical_singleBallGrid rfl (by with_unfolding_all decide) rfl⟩

/-- The exact scan: on an 8 × 10 grid with canonical positions and a live projectile,
`checkCollisions` returns; it commits (the projectile is gone afterwards) if and only
if some occupied cell's centre is at distance less than 40 from the projectile centre
and the destination is in bounds and empty; when it commits the result is that of
storing a ball of the projectile's colour at the destination, running `checkMatches`
there and dropping the projectile, otherwise the state is unchanged; scanning the 80
cells in any other order gives the same result; and no cell other than the
destination becomes occupied. -/
theorem checkCollisions_scan_order_independent (s : Game) (a : ActiveBall)
    (hg : GridWF s.grid) (hc : Canonical s.grid) (ha : s.activeBall = some a) :
    ∃ s', checkCollisions s = some s' ∧
      (s'.activeBall = none ↔
        ((∃ (r c : Int) (b : Ball), InBounds (r, c) ∧ readCell s.grid r c = some (some b) ∧
            (a.x - ((c : ℚ) * 40 + 20)) ^ 2 + (a.y - ((r : ℚ) * 40 + 20)) ^ 2 < 40 ^ 2) ∧
          InBounds (destination a) ∧
          readCell s.grid (destination a).1 (destination a).2 = some none)) ∧
      (s'.activeBall = none → placeAndMatch s a = some s') ∧
      (s'.activeBall ≠ none → s' = s) ∧
      (∀ l : List (Nat × Nat), (∀ p, p ∈ l ↔ p.1 < 8 ∧ p.2 < 10) →
        checkCollisionsLoop s a l = some s') ∧
      (∀ (r c : Int) (b : Ball), readCell s'.grid r c = some (some b) →
        readCell s.grid r c = some (some b) ∨ (r, c) = destination a) := by
  by_cases hit : (∃ p : Nat × Nat, (p.1 < 8 ∧ p.2 < 10) ∧ Hits s.grid a p) ∧ DestFree s.grid a
  · obtain ⟨hh, hd⟩ := hit
    obtain ⟨g', m, s', _, _, hread, _, _, _, hs', hab, _, _, hbig, hsmall⟩ :=
      placeAndMatch_spec hg a hd.1
    refine ⟨s', by rw [checkCollisions_hit hg ha hd hh, hs'], ?_, fun _ => hs',
      fun h => absurd hab h, ?_, ?_⟩
    · exact ⟨fun _ => ⟨(hits_iff_canonical hc a).mp hh, hd.1, hd.2⟩, fun _ => hab⟩
    · intro l hl
      rw [← hs']
      obtain ⟨p, hp, hph⟩ := hh
      exact checkCollisionsLoop_hit hg a hd l (fun q hq => (hl q).mp hq) ⟨p, (hl p).mpr hp, hph⟩
    · intro r c b hrc
      have hg'read : readCell g' r c = some (some b) := by
        by_cases h3 : 3 ≤ m.length
        · rw [(hbig h3).2] at hrc
          by_cases hm : (r, c) ∈ m
          · rw [if_pos hm] at hrc; cases hrc
          · rw [if_neg hm] at hrc; exact hrc
        · rw [(hsmall (not_le.mp h3)).2] at hrc; exact hrc
      rw [hread] at hg'read
      by_cases hdest : (r, c) = destination a
      · exact Or.inr hdest
      · rw [if_neg hdest] at hg'read; exact Or.inl hg'read
  · have hmiss : ¬ DestFree s.grid a ∨
        ∀ p : Nat × Nat, p.1 < 8 ∧ p.2 < 10 → ¬ Hits s.grid a p := by
      by_cases hd : DestFree s.grid a
      · right
        intro p hp hph
        exact hit ⟨⟨p, hp, hph⟩, hd⟩
      · exact Or.inl hd
    have hlive : s.activeBall ≠ none := by rw [ha]; simp
    refine ⟨s, checkCollisions_miss hg ha hmiss, ?_, fun h => absurd h hlive, fun _ => rfl, ?_,
      fun r c b h => Or.inl h⟩
    · constructor
      · intro h; exact absurd h hlive
      · rintro ⟨hh, hd1, hd2⟩
        exact absurd ⟨(hits_iff_canonical hc a).mpr hh, hd1, hd2⟩ hit
    · intro l hl
      exact checkCollisionsLoop_miss hg a l (fun q hq => (hl q).mp hq)
        (hmiss.imp id fun hm q hq => hm q ((hl q).mp hq))

set_option maxRecDepth 100000 in
theorem checkCollisions_scan_order_independent_witness :
    GridWF singleBallGrid ∧ Canonical singleBallGrid ∧
    ∃ s', checkCollisions ⟨0, singleBallGrid, shooter0, some ⟨121, 201, "#00FF00", 0, -10⟩⟩ =
        some s' ∧
      (s'.activeBall = none ↔
        ((∃ (r c : Int) (b : Ball), InBounds (r, c) ∧
            readCell singleBallGrid r c = some (some b) ∧
            ((121 : ℚ) - ((c : ℚ) * 40 + 20)) ^ 2 + ((201 : ℚ) - ((r : ℚ) * 40 + 20)) ^ 2 <
              40 ^ 2) ∧
          InBounds (destination ⟨121, 201, "#00FF00", 0, -10⟩) ∧
          readCell singleBallGrid (destination ⟨121, 201, "#00FF00", 0, -10⟩).1
            (destination ⟨121, 201, "#00FF00", 0, -10⟩).2 = some none)) ∧
      (s'.activeBall = none →
        placeAndMatch ⟨0, singleBallGrid, shooter0, some ⟨121, 201, "#00FF00", 0, -10⟩⟩
          ⟨121, 201, "#00FF00", 0, -10⟩ = some s') ∧
      (s'.activeBall ≠ none →
        s' = ⟨0, singleBallGrid, shooter0, some ⟨121, 201, "#00FF00", 0, -10⟩⟩) ∧
      (∀ l : List (Nat × Nat), (∀ p, p ∈ l ↔ p.1 < 8 ∧ p.2 < 10) →
        checkCollisionsLoop ⟨0, singleBallGrid, shooter0, some ⟨121, 201, "#00FF00", 0, -10⟩⟩
          ⟨121, 201, "#00FF00", 0, -10⟩ l = some s') ∧
      (∀ (r c : Int) (b : Ball), readCell s'.grid r c = some (some b) →
        readCell singleBallGrid r c = some (some b) ∨
          (r, c) = destination ⟨121, 201, "#00FF00", 0, -10⟩) :=
  ⟨by decide, canonical_singleBallGrid,
    checkCollisions_scan_order_independent
      ⟨0, singleBallGrid, shooter0, some ⟨121, 201, "#00FF00", 0, -10⟩⟩
      ⟨121, 201, "#00FF00", 0, -10⟩ (by decide) canonical_singleBallGrid rfl⟩

theorem occupied_iff (g : Grid) (p : Int × Int) :
    occupied g p = true ↔ ∃ b, readCell g p.1 p.2 = some (some b) := by
  unfold occupied
  cases h : readCell g p.1 p.2 with
  | none => simp
  | some c =>
    cases c with
    | none => simp
    | some b => simp

theorem clearedCells_eq {g gf : Grid} {placed : Option (Int × Int)} {m : List (Int × Int)}
    (hnd : m.Nodup)
    (h : ∀ p, (InBounds p ∧ readCell gf p.1 p.2 = some none ∧
      (occupied g p = true ∨ placed = some p)) ↔ p ∈ m) :
    (clearedCells g gf placed).card = m.length := by
  have : clearedCells g gf placed = m.toFinset := by
    ext p
    rw [List.mem_toFinset, ← h p, inBounds_iff]
    simp only [clearedCells, Finset.mem_filter, Finset.mem_product, Finset.mem_Icc]
    constructor
    · rintro ⟨⟨⟨h1, h2⟩, h3, h4⟩, h5⟩
      exact ⟨⟨h1, by omega, h3, by omega⟩, h5⟩
    · rintro ⟨⟨h1, h2, h3, h4⟩, h5⟩
      exact ⟨⟨⟨h1, by omega⟩, h3, by omega⟩, h5⟩
  rw [this, List.toFinset_card_of_nodup hnd]

/-- A step that changes no cell and stores no ball clears nothing. -/
theorem clearedCells_same (g : Grid) : (clearedCells g g none).card = 0 := by
  have := @clearedCells_eq g g none [] List.nodup_nil
    (by
      intro p
      simp only [List.not_mem_nil, iff_false, not_and]
      rintro _ he (ho | hp)
      · obtain ⟨b, hb⟩ := (occupied_iff g p).mp ho
        rw [he] at hb; cases hb
      · cases hp)
  simpa using this

/-- Score and cleared cells of `checkMatches`. -/
theorem checkMatches_score {s s' : Game} (hg : GridWF s.grid) {row col : Int}
    (h : checkMatches s row col = some s') :
    s'.score = s.score + 10 * ((clearedCells s.grid s'.grid none).card : Int) := by
  cases hcell : readCell s.grid row col with
  | none => simp [checkMatches, hcell] at h
  | some cell =>
    cases cell with
    | none => simp [checkMatches, hcell] at h
    | some ball =>
      obtain ⟨m, _, hnd, hspec, hbig, hsmall⟩ := checkMatches_spec hg hcell
      by_cases h3 : 3 ≤ m.length
      · obtain ⟨s1, hs1, _, hscore, _, _, hrd⟩ := hbig h3
        rw [h] at hs1
        cases hs1
        rw [hscore]
        congr 3
        symm
        apply clearedCells_eq hnd
        intro p
        constructor
        · rintro ⟨_, he, (ho | hp)⟩
          · by_contra hm
            rw [hrd, if_neg hm] at he
            obtain ⟨b, hb⟩ := (occupied_iff _ p).mp ho
            rw [he] at hb; cases hb
          · cases hp
        · intro hm
          have hgood := ((hspec p).mp hm).good_right
          refine ⟨hgood.1, by rw [hrd, if_pos hm], Or.inl ?_⟩
          obtain ⟨b, hb, _⟩ := hgood.2
          exact (occupied_iff _ p).mpr ⟨b, hb⟩
      · rw [hsmall (not_le.mp h3)] at h
        cases h
        rw [clearedCells_same]
        simp

/-- Score and cleared cells of the committing branch. -/
theorem placeAndMatch_score {s s' : Game} (hg : GridWF s.grid) (a : ActiveBall)
    (hd : DestFree s.grid a) (h : placeAndMatch s a = some s') :
    s'.score = s.score +
      10 * ((clearedCells s.grid s'.grid (some (destination a))).card : Int) := by
  obtain ⟨g', m, s1, _, _, hread, _, hnd, hspec, hs1, _, _, _, hbig, hsmall⟩ :=
    placeAndMatch_spec hg a hd.1
  rw [h] at hs1
  cases hs1
  have hdest : readCell g' (destination a).1 (destination a).2 =
      some (some (mkBall a.color (destination a).1 (destination a).2)) := by
    rw [hread, if_pos rfl]
  have hother : ∀ p : Int × Int, p ≠ destination a →
      readCell g' p.1 p.2 = readCell s.grid p.1 p.2 := by
    intro p hp
    rw [hread, if_neg hp]
  by_cases h3 : 3 ≤ m.length
  · obtain ⟨hscore, hrd⟩ := hbig h3
    rw [hscore]
    congr 3
    symm
    apply clearedCells_eq hnd
    intro p
    constructor
    · rintro ⟨_, he, hor⟩
      by_contra hm
      rw [hrd, if_neg hm] at he
      by_cases hp : p = destination a
      · rw [hp, hdest] at he; cases he
      · rcases hor with ho | hpl
        · obtain ⟨b, hb⟩ := (occupied_iff _ p).mp ho
          rw [hother p hp, hb] at he; cases he
        · exact hp (Option.some.inj hpl).symm
    · intro hm
      have hgood := ((hspec p).mp hm).good_right
      refine ⟨hgood.1, by rw [hrd, if_pos hm], ?_⟩
      by_cases hp : p = destination a
      · exact Or.inr (by rw [hp])
      · left
        obtain ⟨b, hb, _⟩ := hgood.2
        rw [hother p hp] at hb
        exact (occupied_iff _ p).mpr ⟨b, hb⟩
  · obtain ⟨hscore, hgrid⟩ := hsmall (not_le.mp h3)
    rw [hscore, hgrid]
    have : (clearedCells s.grid g' (some (destination a))).card = 0 := by
      have := @clearedCells_eq s.grid g' (some (destination a)) []
        List.nodup_nil
        (by
          intro p
          simp only [List.not_mem_nil, iff_false, not_and]
          intro _ he hor
          by_cases hp : p = destination a
          · rw [hp, hdest] at he; cases he
          · rcases hor with ho | hpl
            · obtain ⟨b, hb⟩ := (occupied_iff _ p).mp ho
              rw [hother p hp, hb] at he; cases he
            · exact hp (Option.some.inj hpl).symm)
      simpa using this
    rw [this]
    simp

/-- Score and cleared cells of `checkCollisions`. -/
theorem checkCollisions_score {s s' : Game} (hg : GridWF s.grid) {a : ActiveBall}
    (ha : s.activeBall = some a) (h : checkCollisions s = some s') :
    s'.score = s.score + 10 * ((clearedCells s.grid s'.grid
      (if s'.activeBall = none then some (destination a) else none)).card : Int) := by
  rcases checkCollisions_result ha h with e | ⟨hd, _, hp⟩
  · subst e
    have hl : ¬ s'.activeBall = none := by rw [ha]; simp
    rw [if_neg hl, clearedCells_same]
    simp
  · rw [if_pos (placeAndMatch_activeBall hp)]
    exact placeAndMatch_score hg a hd hp

theorem updateBall_score {s s' : Game} (hg : GridWF s.grid) {a : ActiveBall}
    (ha : s.activeBall = some a) (h : updateBall s = some s') :
    s'.score = s.score + 10 * ((clearedCells s.grid s'.grid
      (if s'.activeBall = none then some (destination (moved a)) else none)).card : Int) := by
  rw [updateBall_some s a ha] at h
  exact checkCollisions_score (s := { s with activeBall := some (moved a) }) hg rfl h

theorem reachable_score {s : Game} (h : Reachable s) : ∃ k : Nat, s.score = 10 * (k : Int) := by
  induction h with
  | init r0 rnd => exact ⟨0, by simp [newGame, initGrid]⟩
  | aim s a _ ih => exact ih
  | click s r _ ih =>
    unfold onClick
    split_ifs
    · exact ih
    · exact ih
  | shoot s r _ ih => exact ih
  | tick s s' hr hstep ih =>
    obtain ⟨k, hk⟩ := ih
    cases ha : s.activeBall with
    | none =>
      have : updateBall s = some s := by simp [updateBall, ha]
      rw [this] at hstep
      cases hstep
      exact ⟨k, hk⟩
    | some a =>
      have := updateBall_score (reachable_inv hr).1 ha hstep
      refine ⟨k + (clearedCells s.grid s'.grid
        (if s'.activeBall = none then some (destination (moved a)) else none)).card, ?_⟩
      rw [this, hk]
      push_cast
      ring
  | reset s rnd _ _ => exact ⟨0, by simp [resetGame, initGrid]⟩

theorem placedCell_some (a : ActiveBall) (after : Option ActiveBall) :
    placedCell (some a) after = if after = none then some (destination a) else none := by
  cases after <;> simp [placedCell]

/-- C11: on an 8 × 10 grid, shooting leaves the score as it is; `checkMatches`,
`checkCollisions` and `updateBall` never lower it and raise it by exactly 10 times the
number of cells the step cleared (the in-bounds cells empty afterwards that held a ball
before the step or received the step's ball; none cleared means no change); and the
score of every reachable state is a non-negative multiple of 10. -/
theorem score_monotone (s : Game) (hg : GridWF s.grid) :
    (∀ r : Rand, (shootBall s r).score = s.score ∧ (onClick s r).score = s.score) ∧
    (∀ (row col : Int) (s' : Game), checkMatches s row col = some s' →
      s.score ≤ s'.score ∧
      s'.score = s.score + 10 * ((clearedCells s.grid s'.grid none).card : Int)) ∧
    (∀ s' : Game, checkCollisions s = some s' →
      s.score ≤ s'.score ∧
      s'.score = s.score + 10 * ((clearedCells s.grid s'.grid
        (placedCell s.activeBall s'.activeBall)).card : Int)) ∧
    (∀ s' : Game, updateBall s = some s' →
      s.score ≤ s'.score ∧
      s'.score = s.score + 10 * ((clearedCells s.grid s'.grid
        (placedCell (s.activeBall.map moved) s'.activeBall)).card : Int)) ∧
    (Reachable s → ∃ k : Nat, s.score = 10 * (k : Int)) := by
  refine ⟨?_, ?_, ?_, ?_, reachable_score⟩
  · intro r
    refine ⟨rfl, ?_⟩
    unfold onClick
    split_ifs <;> rfl
  · intro row col s' h
    have := checkMatches_score hg h
    exact ⟨by rw [this]; omega, this⟩
  · intro s' h
    cases ha : s.activeBall with
    | none =>
      have hs : checkCollisions s = some s := by simp [checkCollisions, ha]
      rw [hs] at h
      cases h
      have hp : placedCell none s.activeBall = none := by simp [placedCell]
      rw [hp, clearedCells_same]
      simp
    | some a =>
      have := checkCollisions_score hg ha h
      rw [placedCell_some]
      exact ⟨by rw [this]; omega, this⟩
  · intro s' h
    cases ha : s.activeBall with
    | none =>
      have hs : updateBall s = some s := by simp [updateBall, ha]
      rw [hs] at h
      cases h
      have hp : placedCell (Option.map moved none) s.activeBall = none := by simp [placedCell]
      rw [hp, clearedCells_same]
      simp
    | some a =>
      have := updateBall_score hg ha h
      rw [Option.map_some', placedCell_some]
      exact ⟨by rw [this]; omega, this⟩

set_option maxRecDepth 100000 in
theorem score_monotone_witness :
    GridWF scenarioAGrid ∧
    updateBall ⟨0, scenarioAGrid, shooter0, some ⟨135, 195, "#FF0000", 0, -10⟩⟩ =
      some ⟨40, emptyGrid, shooter0, none⟩ ∧
    ((0 : Int) ≤ 40 ∧
      (40 : Int) = 0 + 10 * ((clearedCells scenarioAGrid emptyGrid
        (placedCell ((some ⟨135, 195, "#FF0000", 0, -10⟩ : Option ActiveBall).map moved)
          none)).card : Int)) :=
  ⟨by decide, by with_unfolding_all decide,
    (score_monotone ⟨0, scenarioAGrid, shooter0, some ⟨135, 195, "#FF0000", 0, -10⟩⟩
      (by decide)).2.2.2.1 ⟨40, emptyGrid, shooter0, none⟩ (by with_unfolding_all decide)⟩

theorem readCellStrict_inBounds (g : Grid) (r c : Int) (h : InBounds (r, c)) :
    readCellStrict g r c = readCell g r c := by
  simp [readCellStrict, h]

/-- A read that agrees with `readCell` on in-bounds indices gives the same flood
fill: the search only reads in-bounds slots. -/
theorem findMatchesFuelWith_eq (rd : Grid → Int → Int → Option Cell)
    (hrd : ∀ g r c, InBounds (r, c) → rd g r c = readCell g r c) (g : Grid) (K : Color) :
    ∀ (fuel : Nat) (row col : Int) (acc : List (Int × Int)),
      findMatchesFuelWith rd g fuel row col K acc = findMatchesFuel g fuel row col K acc := by
  intro fuel
  induction fuel with
  | zero => intro row col acc; rfl
  | succ fuel ih =>
    intro row col acc
    rw [findMatchesFuel_succ]
    rw [findMatchesFuelWith]
    by_cases hmem : (row, col) ∈ acc
    · rw [if_pos hmem, if_pos hmem]
    rw [if_neg hmem, if_neg hmem]
    by_cases hout : row < 0 ∨ row ≥ GRID_ROWS ∨ col < 0 ∨ col ≥ GRID_COLS
    · rw [if_pos hout, if_pos hout]
    rw [if_neg hout, if_neg hout]
    have hin : InBounds (row, col) := by
      simp only [InBounds]; omega
    rw [hrd g row col hin]
    simp only [ih]

theorem checkMatchesWith_eq (rd : Grid → Int → Int → Option Cell)
    (hrd : ∀ g r c, InBounds (r, c) → rd g r c = readCell g r c) (s : Game) (row col : Int)
    (hin : InBounds (row, col)) :
    checkMatchesWith rd s row col = checkMatches s row col := by
  unfold checkMatchesWith checkMatches findMatchesWith findMatches
  rw [hrd s.grid row col hin]
  simp only [findMatchesFuelWith_eq rd hrd]

theorem checkCollisionsLoopWith_eq (rd : Grid → Int → Int → Option Cell)
    (hrd : ∀ g r c, InBounds (r, c) → rd g r c = readCell g r c) (s : Game) (a : ActiveBall) :
    ∀ l : List (Nat × Nat), (∀ p ∈ l, p.1 < 8 ∧ p.2 < 10) →
      checkCollisionsLoopWith rd s a l = checkCollisionsLoop s a l := by
  intro l
  induction l with
  | nil => intro _; rfl
  | cons p rest ih =>
    intro hl
    have ihr := ih (fun q hq => hl q (List.mem_cons_of_mem _ hq))
    obtain ⟨row, col⟩ := p
    have hin : InBounds ((row : Int), (col : Int)) :=
      inBounds_of_scan (p := (row, col)) (hl _ (List.mem_cons_self _ _))
    rw [checkCollisionsLoopWith, checkCollisionsLoop, hrd s.grid row col hin, ihr]
    cases readCell s.grid row col with
    | none => rfl
    | some cell =>
      cases cell with
      | none => rfl
      | some ball =>
        simp only
        split_ifs with h1 h2
        · have hd : InBounds (jsRound ((a.y - BALL_RADIUS) / (BALL_RADIUS * 2)),
              jsRound ((a.x - BALL_RADIUS) / (BALL_RADIUS * 2))) := by
            simp only [InBounds]; omega
          rw [hrd s.grid _ _ hd]
          cases readCell s.grid (jsRound ((a.y - BALL_RADIUS) / (BALL_RADIUS * 2)))
              (jsRound ((a.x - BALL_RADIUS) / (BALL_RADIUS * 2))) with
          | none => rfl
          | some d =>
            cases d with
            | some _ => rfl
            | none =>
              simp only
              congr 1
              funext g
              rw [checkMatchesWith_eq rd hrd _ _ _ hd]
        · rfl
        · rfl

theorem checkCollisionsWith_eq (rd : Grid → Int → Int → Option Cell)
    (hrd : ∀ g r c, InBounds (r, c) → rd g r c = readCell g r c) (s : Game) :
    checkCollisionsWith rd s = checkCollisions s := by
  unfold checkCollisionsWith checkCollisions
  cases s.activeBall with
  | none => rfl
  | some a =>
    exact checkCollisionsLoopWith_eq rd hrd s a scanOrder (fun q hq => (mem_scanOrder q).mp hq)

theorem updateBallWith_eq (rd : Grid → Int → Int → Option Cell)
    (hrd : ∀ g r c, InBounds (r, c) → rd g r c = readCell g r c) (s : Game) :
    updateBallWith rd s = updateBall s := by
  unfold updateBallWith updateBall
  cases s.activeBall with
  | none => rfl
  | some a => simp only [checkCollisionsWith_eq rd hrd]

/-- Out of bounds, `findMatches` returns before it indexes the grid, whatever the
grid array is. -/
theorem findMatchesFuel_outOfBounds (g : Grid) (fuel : Nat) (row col : Int) (K : Color)
    (acc : List (Int × Int)) (h : ¬ InBounds (row, col)) :
    findMatchesFuel g (fuel + 1) row col K acc = some acc := by
  rw [findMatchesFuel_succ]
  have hout : row < 0 ∨ row ≥ GRID_ROWS ∨ col < 0 ∨ col ≥ GRID_COLS := by
    simp only [InBounds] at h
    omega
  by_cases hmem : (row, col) ∈ acc
  · rw [if_pos hmem]
  · rw [if_neg hmem, if_pos hout]

/-- On a well-formed grid `checkMatches` returns at every occupied cell. -/
theorem checkMatches_isSome {s : Game} (hg : GridWF s.grid) {row col : Int} {b : Ball}
    (hcell : readCell s.grid row col = some (some b)) : ∃ s', checkMatches s row col = some s' := by
  obtain ⟨m, _, _, _, hbig, hsmall⟩ := checkMatches_spec hg hcell
  by_cases h3 : 3 ≤ m.length
  · obtain ⟨s', hs', _⟩ := hbig h3
    exact ⟨s', hs'⟩
  · exact ⟨s, hsmall (not_le.mp h3)⟩

/-- C12: in every reachable state, `updateBall`, `checkCollisions`, `findMatches` (from
any start coordinate, colour and visited set) and `checkMatches` at any occupied cell
return without fault, and they do so unchanged when every read outside rows `[0, 8)` ×
columns `[0, 10)` is made a fault, so no such slot is read and the colour of an empty
slot is never read; when `checkCollisions` commits, the cell handed to `checkMatches`
is the in-bounds destination, occupied by the ball just stored; and at an
out-of-bounds coordinate `findMatches` returns before indexing, whatever the grid
array holds. -/
theorem no_crash_paths (s : Game) (h : Reachable s) :
    (∃ s', updateBall s = some s' ∧ updateBallWith readCellStrict s = some s') ∧
    (∃ s', checkCollisions s = some s' ∧ checkCollisionsWith readCellStrict s = some s') ∧
    (∀ (row col : Int) (K : Color) (acc : List (Int × Int)),
      ∃ m, findMatches s.grid row col K acc = some m ∧
        findMatchesWith readCellStrict s.grid row col K acc = some m) ∧
    (∀ (row col : Int) (b : Ball), readCell s.grid row col = some (some b) →
      ∃ s', checkMatches s row col = some s' ∧
        checkMatchesWith readCellStrict s row col = some s') ∧
    (∀ (a : ActiveBall) (s' : Game), s.activeBall = some a → checkCollisions s = some s' →
      s'.activeBall = none →
      ∃ (g' : Grid) (b : Ball),
        writeCell s.grid (destination a).1 (destination a).2
          (some (mkBall a.color (destination a).1 (destination a).2)) = some g' ∧
        InBounds (destination a) ∧
        readCell g' (destination a).1 (destination a).2 = some (some b) ∧
        ((checkMatches { s with grid := g' } (destination a).1 (destination a).2).map
          fun s1 => { s1 with activeBall := none }) = some s') ∧
    (∀ (g : Grid) (fuel : Nat) (row col : Int) (K : Color) (acc : List (Int × Int)),
      ¬ InBounds (row, col) → findMatchesFuel g (fuel + 1) row col K acc = some acc) := by
  obtain ⟨hg, hc⟩ := reachable_inv h
  have hrd : ∀ g r c, InBounds (r, c) → readCellStrict g r c = readCell g r c :=
    readCellStrict_inBounds
  refine ⟨?_, ?_, ?_, ?_, ?_, ?_⟩
  · obtain ⟨s', hs', _⟩ := updateBall_inv hg hc
    exact ⟨s', hs', by rw [updateBallWith_eq _ hrd, hs']⟩
  · obtain ⟨s', hs', _⟩ := checkCollisions_inv hg hc
    exact ⟨s', hs', by rw [checkCollisionsWith_eq _ hrd, hs']⟩
  · intro row col K acc
    obtain ⟨m, hm⟩ := findMatchesFuel_isSome hg K (GRID_ROWS * GRID_COLS + 1) row col acc
      (by have := freeCells_card_le acc; simp [GRID_ROWS, GRID_COLS]; omega)
    refine ⟨m, hm, ?_⟩
    unfold findMatchesWith
    rw [findMatchesFuelWith_eq _ hrd, hm]
  · intro row col b hcell
    obtain ⟨s', hs'⟩ := checkMatches_isSome hg hcell
    exact ⟨s', hs', by rw [checkMatchesWith_eq _ hrd s row col (readCell_some_inBounds hg hcell), hs']⟩
  · intro a s' ha hstep hcommit
    rcases checkCollisions_result ha hstep with e | ⟨hd, _, hp⟩
    · rw [e, ha] at hcommit; cases hcommit
    obtain ⟨g', _, _, hw, _, hread, _⟩ := placeAndMatch_spec hg a hd.1
    refine ⟨g', mkBall a.color (destination a).1 (destination a).2, hw, hd.1, ?_, ?_⟩
    · rw [hread, if_pos rfl]
    · unfold placeAndMatch at hp
      rw [hw, Option.some_bind] at hp
      exact hp
  · intro g fuel row col K acc hout
    exact findMatchesFuel_outOfBounds g fuel row col K acc hout

theorem no_crash_paths_witness :
    Reachable (shootBall (newGame rand0 rnd0) rand0) ∧
    (∃ s', updateBall (shootBall (newGame rand0 rnd0) rand0) = some s' ∧
      updateBallWith readCellStrict (shootBall (newGame rand0 rnd0) rand0) = some s') ∧
    (∀ (row col : Int) (K : Color) (acc : List (Int × Int)),
      ∃ m, findMatches (shootBall (newGame rand0 rnd0) rand0).grid row col K acc = some m ∧
        findMatchesWith readCellStrict (shootBall (newGame rand0 rnd0) rand0).grid row col K acc =
          some m) :=
  ⟨Reachable.shoot _ _ (Reachable.init rand0 rnd0),
    (no_crash_paths _ (Reachable.shoot _ _ (Reachable.init rand0 rnd0))).1,
    (no_crash_paths _ (Reachable.shoot _ _ (Reachable.init rand0 rnd0))).2.2.1⟩

/-- With the plain read the read-parametrised methods are the methods themselves. -/
theorem updateBallWith_readCell (s : Game) :
    updateBallWith readCell s = updateBall s ∧
      checkCollisionsWith readCell s = checkCollisions s ∧
      (∀ (row col : Int) (K : Color) (acc : List (Int × Int)),
        findMatchesWith readCell s.grid row col K acc = findMatches s.grid row col K acc) :=
  ⟨updateBallWith_eq readCell (fun _ _ _ _ => rfl) s,
    checkCollisionsWith_eq readCell (fun _ _ _ _ => rfl) s,
    fun row col K acc => findMatchesFuelWith_eq readCell (fun _ _ _ _ => rfl) s.grid K _ row col acc⟩

/-- The value of `sqrtDouble` when the scaled root lies in the upper half between two
consecutive integers. -/
theorem sqrtDouble_round_up (x : ℚ) (e : Int) (n : Nat) (hlo : (4 : ℚ) ^ e ≤ x)
    (hhi : x < (4 : ℚ) ^ (e + 1))
    (hn' : x * (4 : ℚ) ^ (52 - e) < ((n : ℚ) + 1) ^ 2)
    (hup : ((n : ℚ) + 1 / 2) ^ 2 < x * (4 : ℚ) ^ (52 - e)) :
    sqrtDouble x = ((n : ℚ) + 1) * (2 : ℚ) ^ (e - 52) := by
  have hpos : 0 < x := lt_of_lt_of_le (zpow_pos (by norm_num) e) hlo
  have he : Int.log 4 x = e := by
    have h1 : e ≤ Int.log 4 x :=
      (Int.zpow_le_iff_le_log (by norm_num) hpos).mp (by exact_mod_cast hlo)
    have h2 : Int.log 4 x < e + 1 :=
      (Int.lt_zpow_iff_log_lt (by norm_num) hpos).mp (by exact_mod_cast hhi)
    omega
  have hy0 : 0 ≤ x * (4 : ℚ) ^ (52 - e) := by positivity
  have hs : Nat.sqrt ⌊x * (4 : ℚ) ^ (52 - e)⌋₊ = n := by
    symm
    rw [Nat.eq_sqrt]
    constructor
    · apply Nat.le_floor
      push_cast
      nlinarith
    · rw [Nat.floor_lt hy0]
      push_cast
      nlinarith
  unfold sqrtDouble
  rw [if_neg (not_le.mpr hpos)]
  simp only [he, hs]
  rw [if_neg (not_lt.mpr hup.le), if_pos hup]
  push_cast
  ring

/-- The binary64 square root of the squared distance from `boundaryBall` to the centre
`(100, 20)` is `40`, although the squared distance is below `1600`. -/
theorem sqrtDouble_boundary :
    sqrtDouble ((139 - 100) * (139 - 100) +
      ((1111180558268442 : ℚ) / 100000000000000 - 20) *
        ((1111180558268442 : ℚ) / 100000000000000 - 20)) = 40 := by
  rw [sqrtDouble_round_up _ 5 5629499534213119]
  · norm_num
  · norm_num
  · norm_num
  · norm_num
  · norm_num

theorem checkCollisionsLoopSqrt_cons (sqrt : ℚ → ℚ) (s : Game) (a : ActiveBall) (p : Nat × Nat)
    (rest : List (Nat × Nat)) :
    checkCollisionsLoopSqrt sqrt s a (p :: rest) =
      match readCell s.grid p.1 p.2 with
      | none => none
      | some none => checkCollisionsLoopSqrt sqrt s a rest
      | some (some ball) =>
        if NearSqrt sqrt a ball then
          if InBounds (destination a) then
            match readCell s.grid (destination a).1 (destination a).2 with
            | none => none
            | some (some _) => checkCollisionsLoopSqrt sqrt s a rest
            | some none => placeAndMatch s a
          else checkCollisionsLoopSqrt sqrt s a rest
        else checkCollisionsLoopSqrt sqrt s a rest := by
  obtain ⟨row, col⟩ := p
  rfl

theorem checkCollisionsLoopSqrt_miss (sqrt : ℚ → ℚ) {s : Game} (hg : GridWF s.grid)
    (a : ActiveBall) :
    ∀ l : List (Nat × Nat), (∀ p ∈ l, p.1 < 8 ∧ p.2 < 10) →
      (¬ DestFree s.grid a ∨ ∀ p ∈ l, ¬ HitsSqrt sqrt s.grid a p) →
      checkCollisionsLoopSqrt sqrt s a l = some s := by
  intro l
  induction l with
  | nil => intro _ _; rfl
  | cons p rest ih =>
    intro hl h
    have ihr := ih (fun q hq => hl q (List.mem_cons_of_mem _ hq))
      (h.imp id fun hm q hq => hm q (List.mem_cons_of_mem _ hq))
    rw [checkCollisionsLoopSqrt_cons]
    obtain ⟨cell, hcell⟩ := readCell_isSome hg (inBounds_of_scan (hl p (List.mem_cons_self _ _)))
    rw [hcell]
    cases cell with
    | none => exact ihr
    | some ball =>
      simp only
      by_cases hn : NearSqrt sqrt a ball
      · rw [if_pos hn]
        by_cases hb : InBounds (destination a)
        · rw [if_pos hb]
          obtain ⟨d, hd⟩ : ∃ d, readCell s.grid (destination a).1 (destination a).2 = some d :=
            readCell_isSome hg hb
          rw [hd]
          cases d with
          | some _ => exact ihr
          | none =>
            exfalso
            rcases h with h | h
            · exact h ⟨hb, hd⟩
            · exact h p (List.mem_cons_self _ _) ⟨ball, hcell, hn⟩
        · rw [if_neg hb]; exact ihr
      · rw [if_neg hn]; exact ihr

theorem checkCollisionsLoopSqrt_hit (sqrt : ℚ → ℚ) {s : Game} (hg : GridWF s.grid)
    (a : ActiveBall) (hd : DestFree s.grid a) :
    ∀ l : List (Nat × Nat), (∀ p ∈ l, p.1 < 8 ∧ p.2 < 10) →
      (∃ p ∈ l, HitsSqrt sqrt s.grid a p) →
      checkCollisionsLoopSqrt sqrt s a l = placeAndMatch s a := by
  intro l
  induction l with
  | nil => intro _ h; obtain ⟨p, hp, _⟩ := h; cases hp
  | cons p rest ih =>
    intro hl h
    rw [checkCollisionsLoopSqrt_cons]
    obtain ⟨cell, hcell⟩ := readCell_isSome hg (inBounds_of_scan (hl p (List.mem_cons_self _ _)))
    have tail : (¬ HitsSqrt sqrt s.grid a p) →
        checkCollisionsLoopSqrt sqrt s a rest = placeAndMatch s a := by
      intro hp
      apply ih (fun q hq => hl q (List.mem_cons_of_mem _ hq))
      obtain ⟨q, hq, hqh⟩ := h
      rcases List.mem_cons.mp hq with e | e
      · subst e; exact absurd hqh hp
      · exact ⟨q, e, hqh⟩
    rw [hcell]
    cases cell with
    | none =>
      apply tail
      rintro ⟨b, hb, _⟩
      rw [hcell] at hb; cases hb
    | some ball =>
      simp only
      by_cases hn : NearSqrt sqrt a ball
      · rw [if_pos hn, if_pos hd.1, hd.2]
      · rw [if_neg hn]
        apply tail
        rintro ⟨b, hb, hnb⟩
        rw [hcell] at hb
        cases hb
        exact hn hnb

/-- A square root that never rounds across the threshold gives the exact test. -/
theorem checkCollisionsLoopSqrt_exact (sqrt : ℚ → ℚ)
    (hsqrt : ∀ x : ℚ, sqrt x < 40 ↔ x < 40 ^ 2) (s : Game) (a : ActiveBall) :
    ∀ l : List (Nat × Nat), checkCollisionsLoopSqrt sqrt s a l = checkCollisionsLoop s a l := by
  intro l
  induction l with
  | nil => rfl
  | cons p rest ih =>
    rw [checkCollisionsLoopSqrt_cons, checkCollisionsLoop_cons, ih]
    have hnear : ∀ ball, NearSqrt sqrt a ball ↔ Near a ball := by
      intro ball
      simp only [NearSqrt, Near, BALL_RADIUS]
      have h40 : (20 : ℚ) * 2 = 40 := by norm_num
      rw [h40, hsqrt]
      norm_num
    cases readCell s.grid p.1 p.2 with
    | none => rfl
    | some cell =>
      cases cell with
      | none => rfl
      | some ball =>
        simp only
        by_cases hn : Near a ball
        · rw [if_pos hn, if_pos ((hnear ball).mpr hn)]
        · rw [if_neg hn, if_neg (fun h => hn ((hnear ball).mp h))]

theorem hitsSqrt_iff_canonical (sqrt : ℚ → ℚ) {g : Grid} (hc : Canonical g) (a : ActiveBall) :
    (∃ p : Nat × Nat, (p.1 < 8 ∧ p.2 < 10) ∧ HitsSqrt sqrt g a p) ↔
      ∃ (r c : Int) (b : Ball), InBounds (r, c) ∧ readCell g r c = some (some b) ∧
        sqrt ((a.x - ((c : ℚ) * 40 + 20)) * (a.x - ((c : ℚ) * 40 + 20)) +
          (a.y - ((r : ℚ) * 40 + 20)) * (a.y - ((r : ℚ) * 40 + 20))) < 40 := by
  have h40 : BALL_RADIUS * 2 = 40 := by simp only [BALL_RADIUS]; norm_num
  constructor
  · rintro ⟨p, hp, b, hb, hnear⟩
    obtain ⟨hx, hy⟩ := hc _ _ b hb
    refine ⟨p.1, p.2, b, inBounds_of_scan hp, hb, ?_⟩
    simp only [NearSqrt, h40] at hnear
    rw [← hx, ← hy]
    exact hnear
  · rintro ⟨r, c, b, hin, hb, hd⟩
    obtain ⟨hx, hy⟩ := hc _ _ b hb
    have hin' := (inBounds_iff _).mp hin
    obtain ⟨h1, h2, h3, h4⟩ := hin'
    simp only at h1 h2 h3 h4
    obtain ⟨rn, rfl⟩ := Int.eq_ofNat_of_zero_le h1
    obtain ⟨cn, rfl⟩ := Int.eq_ofNat_of_zero_le h3
    refine ⟨(rn, cn), ⟨by omega, by omega⟩, b, hb, ?_⟩
    simp only [NearSqrt, h40]
    rw [hx, hy]
    exact hd

/-- The only ball of `topBallGrid` is the red one at `(0,2)`. -/
theorem topBallGrid_ball (row col : Int) (b : Ball)
    (h : readCell topBallGrid row col = some (some b)) :
    b = mkBall "#FF0000" 0 2 ∧ row = 0 ∧ col = 2 := by
  have hb := (inBounds_iff _).mp (readCell_some_inBounds (by decide) h)
  obtain ⟨h1, h2, h3, h4⟩ := hb
  simp only at h1 h2 h3 h4
  interval_cases row <;> interval_cases col <;>
    first
      | (have hc : some (some b) = some none := h.symm.trans rfl
         cases hc)
      | (have hc : some (some b) = some (some (mkBall "#FF0000" 0 2)) := h.symm.trans rfl
         cases hc; exact ⟨rfl, rfl, rfl⟩)

theorem canonical_topBallGrid : Canonical topBallGrid := by
  intro row col b h
  obtain ⟨rfl, rfl, rfl⟩ := topBallGrid_ball row col b h
  simp only [mkBall, BALL_RADIUS]
  constructor <;> norm_num

/-- Against the ball at `(0,2)` the test with the binary64 square root fails. -/
theorem boundaryBall_not_near : ¬ NearSqrt sqrtDouble boundaryBall (mkBall "#FF0000" 0 2) := by
  have harg : (boundaryBall.x - (mkBall "#FF0000" 0 2).x) *
        (boundaryBall.x - (mkBall "#FF0000" 0 2).x) +
      (boundaryBall.y - (mkBall "#FF0000" 0 2).y) *
        (boundaryBall.y - (mkBall "#FF0000" 0 2).y) =
      (139 - 100) * (139 - 100) +
        ((1111180558268442 : ℚ) / 100000000000000 - 20) *
          ((1111180558268442 : ℚ) / 100000000000000 - 20) := by
    simp only [boundaryBall, mkBall, BALL_RADIUS]
    norm_num
  unfold NearSqrt
  rw [harg, sqrtDouble_boundary]
  simp only [BALL_RADIUS]
  norm_num

set_option maxRecDepth 100000 in
/-- C16 as stated fails: with a ball at `(0,2)` (centre `(100, 20)`) and the projectile
at `(139, 11.11180558268442)`, the occupied cell is at Euclidean distance less than 40
and the destination `(0,3)` is in bounds and empty, yet the scan with the binary64
square root computes a distance of exactly `40` and does not commit: the state is
returned unchanged, projectile still live. -/
theorem euclidean_test_counterexample :
    GridWF topBallGrid ∧ Canonical topBallGrid ∧
    readCell topBallGrid 0 2 = some (some (mkBall "#FF0000" 0 2)) ∧
    (boundaryBall.x - ((2 : ℚ) * 40 + 20)) ^ 2 + (boundaryBall.y - ((0 : ℚ) * 40 + 20)) ^ 2 <
      40 ^ 2 ∧
    destination boundaryBall = (0, 3) ∧ InBounds (destination boundaryBall) ∧
    readCell topBallGrid (destination boundaryBall).1 (destination boundaryBall).2 = some none ∧
    checkCollisionsSqrt sqrtDouble ⟨0, topBallGrid, shooter0, some boundaryBall⟩ =
      some ⟨0, topBallGrid, shooter0, some boundaryBall⟩ := by
  refine ⟨by decide, canonical_topBallGrid, rfl, ?_, ?_, ?_, ?_, ?_⟩
  · simp only [boundaryBall]; norm_num
  · with_unfolding_all decide
  · with_unfolding_all decide
  · with_unfolding_all decide
  · unfold checkCollisionsSqrt
    simp only
    refine checkCollisionsLoopSqrt_miss sqrtDouble
      (s := ⟨0, topBallGrid, shooter0, some boundaryBall⟩) (by decide) boundaryBall scanOrder
      (fun q hq => (mem_scanOrder q).mp hq) (Or.inr ?_)
    rintro p _ ⟨b, hb, hnear⟩
    obtain ⟨rfl, _, _⟩ := topBallGrid_ball _ _ b hb
    exact boundaryBall_not_near hnear

/-- C16 amended: on an 8 × 10 grid with canonical positions and a live projectile,
whatever value `Math.sqrt` returns, `checkCollisions` returns; it commits (the
projectile is gone afterwards) if and only if some occupied cell passes the code's own
test `Math.sqrt (dx * dx + dy * dy) < 40` against its centre and the destination is in
bounds and empty; when it commits the result is that of storing a ball of the
projectile's colour at the destination, running `checkMatches` there and dropping the
projectile, otherwise the state is unchanged; scanning the 80 cells in any other order
gives the same result; no cell other than the destination becomes occupied; and with a
square root that does not round across 40 the test is Euclidean distance `< 40` and the
result is that of the exact scan. -/
theorem checkCollisions_commit_iff_test (sqrt : ℚ → ℚ) (s : Game) (a : ActiveBall)
    (hg : GridWF s.grid) (hc : Canonical s.grid) (ha : s.activeBall = some a) :
    ∃ s', checkCollisionsSqrt sqrt s = some s' ∧
      (s'.activeBall = none ↔
        ((∃ (r c : Int) (b : Ball), InBounds (r, c) ∧ readCell s.grid r c = some (some b) ∧
            sqrt ((a.x - ((c : ℚ) * 40 + 20)) * (a.x - ((c : ℚ) * 40 + 20)) +
              (a.y - ((r : ℚ) * 40 + 20)) * (a.y - ((r : ℚ) * 40 + 20))) < 40) ∧
          InBounds (destination a) ∧
          readCell s.grid (destination a).1 (destination a).2 = some none)) ∧
      (s'.activeBall = none → placeAndMatch s a = some s') ∧
      (s'.activeBall ≠ none → s' = s) ∧
      (∀ l : List (Nat × Nat), (∀ p, p ∈ l ↔ p.1 < 8 ∧ p.2 < 10) →
        checkCollisionsLoopSqrt sqrt s a l = some s') ∧
      (∀ (r c : Int) (b : Ball), readCell s'.grid r c = some (some b) →
        readCell s.grid r c = some (some b) ∨ (r, c) = destination a) ∧
      ((∀ x : ℚ, sqrt x < 40 ↔ x < 40 ^ 2) → checkCollisions s = some s') := by
  have hexact : ∀ s' : Game, checkCollisionsSqrt sqrt s = some s' →
      (∀ x : ℚ, sqrt x < 40 ↔ x < 40 ^ 2) → checkCollisions s = some s' := by
    intro s' hs' hsqrt
    unfold checkCollisionsSqrt at hs'
    unfold checkCollisions
    rw [ha] at hs' ⊢
    simp only at hs' ⊢
    rw [← checkCollisionsLoopSqrt_exact sqrt hsqrt]
    exact hs'
  have hrun : ∀ s' : Game, checkCollisionsLoopSqrt sqrt s a scanOrder = some s' →
      checkCollisionsSqrt sqrt s = some s' := by
    intro s' hs'
    unfold checkCollisionsSqrt
    rw [ha]
    exact hs'
  by_cases hit :
      (∃ p : Nat × Nat, (p.1 < 8 ∧ p.2 < 10) ∧ HitsSqrt sqrt s.grid a p) ∧ DestFree s.grid a
  · obtain ⟨hh, hd⟩ := hit
    obtain ⟨g', m, s', _, _, hread, _, _, _, hs', hab, _, _, hbig, hsmall⟩ :=
      placeAndMatch_spec hg a hd.1
    have hloop : ∀ l : List (Nat × Nat), (∀ p, p ∈ l ↔ p.1 < 8 ∧ p.2 < 10) →
        checkCollisionsLoopSqrt sqrt s a l = some s' := by
      intro l hl
      rw [← hs']
      obtain ⟨p, hp, hph⟩ := hh
      exact checkCollisionsLoopSqrt_hit sqrt hg a hd l (fun q hq => (hl q).mp hq)
        ⟨p, (hl p).mpr hp, hph⟩
    have hres := hrun s' (hloop scanOrder mem_scanOrder)
    refine ⟨s', hres, ?_, fun _ => hs', fun h => absurd hab h, hloop, ?_, hexact s' hres⟩
    · exact ⟨fun _ => ⟨(hitsSqrt_iff_canonical sqrt hc a).mp hh, hd.1, hd.2⟩, fun _ => hab⟩
    · intro r c b hrc
      have hg'read : readCell g' r c = some (some b) := by
        by_cases h3 : 3 ≤ m.length
        · rw [(hbig h3).2] at hrc
          by_cases hm : (r, c) ∈ m
          · rw [if_pos hm] at hrc; cases hrc
          · rw [if_neg hm] at hrc; exact hrc
        · rw [(hsmall (not_le.mp h3)).2] at hrc; exact hrc
      rw [hread] at hg'read
      by_cases hdest : (r, c) = destination a
      · exact Or.inr hdest
      · rw [if_neg hdest] at hg'read; exact Or.inl hg'read
  · have hmiss : ∀ l : List (Nat × Nat), (∀ p, p ∈ l ↔ p.1 < 8 ∧ p.2 < 10) →
        (¬ DestFree s.grid a ∨ ∀ p ∈ l, ¬ HitsSqrt sqrt s.grid a p) := by
      intro l hl
      by_cases hd : DestFree s.grid a
      · right
        intro p hp hph
        exact hit ⟨⟨p, (hl p).mp hp, hph⟩, hd⟩
      · exact Or.inl hd
    have hloop : ∀ l : List (Nat × Nat), (∀ p, p ∈ l ↔ p.1 < 8 ∧ p.2 < 10) →
        checkCollisionsLoopSqrt sqrt s a l = some s := by
      intro l hl
      exact checkCollisionsLoopSqrt_miss sqrt hg a l (fun q hq => (hl q).mp hq) (hmiss l hl)
    have hres := hrun s (hloop scanOrder mem_scanOrder)
    have hlive : s.activeBall ≠ none := by rw [ha]; simp
    refine ⟨s, hres, ?_, fun h => absurd h hlive, fun _ => rfl, hloop,
      fun r c b h => Or.inl h, hexact s hres⟩
    constructor
    · intro h; exact absurd h hlive
    · rintro ⟨hh, hd1, hd2⟩
      exact absurd ⟨(hitsSqrt_iff_canonical sqrt hc a).mpr hh, hd1, hd2⟩ hit

theorem checkCollisions_commit_iff_test_witness :
    GridWF topBallGrid ∧ Canonical topBallGrid ∧
    ∃ s', checkCollisionsSqrt sqrtDouble ⟨0, topBallGrid, shooter0, some boundaryBall⟩ =
        some s' ∧
      (s'.activeBall = none ↔
        ((∃ (r c : Int) (b : Ball), InBounds (r, c) ∧
            readCell topBallGrid r c = some (some b) ∧
            sqrtDouble ((boundaryBall.x - ((c : ℚ) * 40 + 20)) *
                (boundaryBall.x - ((c : ℚ) * 40 + 20)) +
              (boundaryBall.y - ((r : ℚ) * 40 + 20)) *
                (boundaryBall.y - ((r : ℚ) * 40 + 20))) < 40) ∧
          InBounds (destination boundaryBall) ∧
          readCell topBallGrid (destination boundaryBall).1 (destination boundaryBall).2 =
            some none)) ∧
      (s'.activeBall = none →
        placeAndMatch ⟨0, topBallGrid, shooter0, some boundaryBall⟩ boundaryBall = some s') ∧
      (s'.activeBall ≠ none → s' = ⟨0, topBallGrid, shooter0, some boundaryBall⟩) ∧
      (∀ l : List (Nat × Nat), (∀ p, p ∈ l ↔ p.1 < 8 ∧ p.2 < 10) →
        checkCollisionsLoopSqrt sqrtDouble ⟨0, topBallGrid, shooter0, some boundaryBall⟩
          boundaryBall l = some s') ∧
      (∀ (r c : Int) (b : Ball), readCell s'.grid r c = some (some b) →
        readCell topBallGrid r c = some (some b) ∨ (r, c) = destination boundaryBall) ∧
      ((∀ x : ℚ, sqrtDouble x < 40 ↔ x < 40 ^ 2) →
        checkCollisions ⟨0, topBallGrid, shooter0, some boundaryBall⟩ = some s') :=
  ⟨by decide, canonical_topBallGrid,
    checkCollisions_commit_iff_test sqrtDouble ⟨0, topBallGrid, shooter0, some boundaryBall⟩
      boundaryBall (by decide) canonical_topBallGrid rfl⟩

set_option maxRecDepth 100000 in
/-- C5 as stated fails: `shootBall` itself has no guard; called on a state whose live
projectile is at `(100, 200)` with velocity `(6, 8)` and colour green, it replaces that
projectile by a fresh one at the shooter, `(300, 740)` with velocity `(0, -10)` and the
loaded colour red. -/
theorem shootBall_live_counterexample :
    (shootBall ⟨0, emptyGrid, shooter0, some ⟨100, 200, "#00FF00", 6, 8⟩⟩ rand0).activeBall =
        some ⟨300, 740, "#FF0000", 0, -10⟩ ∧
      (some ⟨300, 740, "#FF0000", 0, -10⟩ : Option ActiveBall) ≠
        some ⟨100, 200, "#00FF00", 6, 8⟩ := by
  constructor
  · with_unfolding_all decide
  · with_unfolding_all decide

/-- The same holds for the squared distance as binary64 arithmetic rounds it,
`1599.9999999999998 = 1600 - 2 ^ (-42)`: its binary64 square root is `40`. -/
theorem sqrtDouble_below_1600 : sqrtDouble (1600 - 1 / 2 ^ 42) = 40 := by
  rw [sqrtDouble_round_up _ 5 5629499534213119]
  · norm_num
  · norm_num
  · norm_num
  · norm_num
  · norm_num

end Circleblast
